import Mathlib

/-!
# ESP32 granular effect: parameter, snapshot, tempo, grain and sample-pipeline model

A shallow embedding of `src/src/main.cpp`.

Conventions used throughout:

* C globals and function-local `static` variables are fields of `State`; every
  function that touches them takes a `State` and returns the new one.
* Fixed-size C arrays are total functions from the index (`Nat`) to the element;
  a store is `Function.update`.
* Machine integers are `Int`/`Nat`; narrowing stores go through `toInt16`,
  `toUInt16`, `toUInt8`, `toInt32`, `toUInt32` where the value is not already
  known to fit.  `x >>> (n : Nat)` on `Int` is the arithmetic shift (floor
  division by `2 ^ n`).
* `float` values are rationals (`ℚ`); a NaN (only used as the initial "no
  previous reading" marker) is `none` of `Option ℚ`.  The soft-takeover target
  (`enablePitchSoftTakeover`), the pot mapping `potPitchFloat` and the scaled
  clock interval (`scaledInterval`) round every intermediate result to binary32
  with `f32`; the other float expressions are evaluated exactly.
* `millis()`, `micros()`, `analogRead`, `digitalRead` and `esp_random()` are
  inputs; in the button handlers every `millis()` call site is an input of its
  own, and `esp_random()` is a stream indexed by the call number.
* The look-up tables computed with `cosf`, `exp2f`, `sinf` or `esp_random()`
  are fields of `Luts`; the integer-valued ones are functions.
-/

namespace GranularFx

/-! ## Constants -/

def ADC_MAX_VALUE : ℚ := 4095
def ADC_CHANGE_THRESHOLD : Int := 40
def ADC_SMOOTHING_SAMPLES : Nat := 32
def PITCH_RANGE_SEMITONES : ℚ := 48
def PITCH_RANGE_SEMITONES_HALF : ℚ := PITCH_RANGE_SEMITONES / 2
def PITCH_LUT_SCALE : ℚ := (257 - 1) / PITCH_RANGE_SEMITONES
def POSITION_TEXTURE_SCALE : ℚ := 6 / 10
def PITCH_TEXTURE_VARIANCE : ℚ := 2 / 10
def STEREO_SPREAD_SCALE : ℚ := 5 / 10
def MIN_SIZE_Q15 : Int := 3277
def SOFT_TAKEOVER_DEADBAND : ℚ := 3 / 100
def MIN_TEMPO_INTERVAL_US : Nat := 10000
def MAX_TEMPO_INTERVAL_US : Nat := 4000000
def PAN_CENTER_Q15 : Int := 23170
def GRAIN_BUFFER_SIZE : Nat := 32768
def MAX_GRAIN_SIZE : Int := 32768
def GRAIN_BUFFER_MASK : Nat := GRAIN_BUFFER_SIZE - 1
def MAX_GRAINS : Nat := 10
def MIN_GRAIN_SIZE : Int := 512
def DEJA_VU_BUFFER_SIZE : Nat := 16
def WINDOW_LUT_SIZE : Nat := 128
def PITCH_LUT_SIZE : Nat := 257
def PAN_LUT_SIZE : Nat := 257
def MIX_LUT_SIZE : Nat := 256
def FEEDBACK_LUT_SIZE : Nat := 256
def RECIPROCAL_LUT_SIZE : Nat := 256
def RANDOM_PAN_LUT_SIZE : Nat := 128
def RANDOM_LUT_SIZE : Nat := 256
def RING_BUFFER_SIZE : Nat := 4096
def FEEDBACK_BUFFER_SIZE : Nat := 512
def I2S_BUFFER_SAMPLES : Nat := 128
def BUTTON_LONG_PRESS_MS : Nat := 800
def BUTTON_DEBOUNCE_MS : Nat := 15
def TAP_TEMPO_TIMEOUT_US : Nat := 2000000
def PITCH_RANDOM_MIN : ℚ := -20
def PITCH_RANDOM_MAX : ℚ := 7
def PITCH_RANDOM_RANGE : ℚ := PITCH_RANDOM_MAX - PITCH_RANDOM_MIN
def POT4_MODE_COUNT : Nat := 5
def BUTTON_PIN : Nat := 25
def POT4_BUTTON_PIN : Nat := 26
def MODE_BUTTON_PIN : Nat := 27
def SNAPSHOT_1_BUTTON_PIN : Nat := 19
def SNAPSHOT_2_BUTTON_PIN : Nat := 17
def SNAPSHOT_3_BUTTON_PIN : Nat := 16
def SNAPSHOT_4_BUTTON_PIN : Nat := 12

/-! ## Machine arithmetic helpers -/

/-- Conversion to `uint8_t`. -/
def toUInt8 (x : Int) : Nat := (x % 256).toNat

/-- Conversion to `uint16_t`. -/
def toUInt16 (x : Int) : Nat := (x % 65536).toNat

/-- Conversion to `uint32_t` (`unsigned long` on the ESP32). -/
def toUInt32 (x : Int) : Nat := (x % 4294967296).toNat

/-- Conversion to `int16_t` (two's complement wrap). -/
def toInt16 (x : Int) : Int := (x + 32768) % 65536 - 32768

/-- Conversion to `int32_t` (two's complement wrap). -/
def toInt32 (x : Int) : Int := (x + 2147483648) % 4294967296 - 2147483648

/-- Arduino `constrain(amt, low, high)` on integers. -/
def constrain (amt low high : Int) : Int :=
  if amt < low then low else if amt > high then high else amt

/-- Arduino `constrain(amt, low, high)` on floats. -/
def constrainf (amt low high : ℚ) : ℚ :=
  if amt < low then low else if amt > high then high else amt

/-- C `isfinite` on a modelled float: rationals are always finite. -/
def isfinite (_ : ℚ) : Bool := true

/-- The nearest integer to a rational, a tie going to the even neighbour (the
default IEEE 754 rounding direction). -/
def roundEven (t : ℚ) : Int :=
  if t - ⌊t⌋ < 1 / 2 then ⌊t⌋
  else if 1 / 2 < t - ⌊t⌋ then ⌊t⌋ + 1
  else if ⌊t⌋ % 2 = 0 then ⌊t⌋ else ⌊t⌋ + 1

/-- The binary exponent of the binade a value is rounded in: `⌊log2 |x|⌋`, and
`-126` in the subnormal range. -/
def f32Exponent (x : ℚ) : Int := max (Int.log 2 |x|) (-126)

/-- The binary32 (`float`) value nearest to a rational: 24 significant bits,
round to nearest even.  Values beyond the largest finite `float` do not occur
in this program and are not turned into infinities. -/
def f32 (x : ℚ) : ℚ :=
  (roundEven (x / 2 ^ (f32Exponent x - 23)) : ℚ) * 2 ^ (f32Exponent x - 23)

/-! ## Types -/

inductive PlayMode where
  | MODE_GRANULAR
  | MODE_REVERSE
  deriving DecidableEq, Repr

inductive Pot4Mode where
  | MODE_TEXTURE
  | MODE_SPREAD
  | MODE_FEEDBACK
  | MODE_LOOP_LENGTH
  | MODE_CLK_RESOLUTION
  deriving DecidableEq, Repr

/-- Numeric value of a `PlayMode` (its `uint8_t` representation). -/
def PlayMode.toNat : PlayMode → Nat
  | .MODE_GRANULAR => 0
  | .MODE_REVERSE => 1

/-- Numeric value of a `Pot4Mode` (its `uint8_t` representation). -/
def Pot4Mode.toNat : Pot4Mode → Nat
  | .MODE_TEXTURE => 0
  | .MODE_SPREAD => 1
  | .MODE_FEEDBACK => 2
  | .MODE_LOOP_LENGTH => 3
  | .MODE_CLK_RESOLUTION => 4

/-- The C struct `FullParamSnapshot`. -/
structure FullParamSnapshot where
  position_q15 : Int := 0
  size_q15 : Int := 0
  deja_vu_q15 : Int := 0
  texture_q15 : Int := 0
  stereoSpread_q15 : Int := 0
  feedback_q15 : Int := 0
  dryWet_q15 : Int := 0
  pitch_f : ℚ := 0
  loop_length : Int := 0
  mode : PlayMode := .MODE_GRANULAR
  pot4_mode : Pot4Mode := .MODE_TEXTURE
  resolution_index : Int := 0
  deriving DecidableEq

/-- The C struct `UIDisplayCache`; enum fields are kept as raw bytes because
`invalidateDisplayCache` stores out-of-range values in them. -/
structure UIDisplayCache where
  position_q15 : Int := 0
  size_q15 : Int := 0
  deja_vu_q15 : Int := 0
  dryWet_q15 : Int := 0
  pitch_f : ℚ := 0
  mode : Nat := 0
  pot4_mode : Nat := 0
  pot4_mode_for_text_update : Nat := 0
  texture_q15 : Int := 0
  stereoSpread_q15 : Int := 0
  feedback_q15 : Int := 0
  loop_length : Int := 0
  bt_connected : Bool := false
  resolution_index : Int := 0
  active_grains : Nat := 0
  bpm : ℚ := 0
  deriving DecidableEq

/-- The C struct `Grain`. -/
structure Grain where
  active : Bool := false
  startPos : Nat := 0
  length : Nat := 0
  position_q16 : Int := 0
  speed_q16 : Int := 0
  reciprocal_length_q32 : Nat := 0
  panL_q15 : Int := 0
  panR_q15 : Int := 0
  pitch_f : ℚ := 0
  deriving DecidableEq

/-- The method `Grain::reset`. -/
def Grain.reset (g : Grain) : Grain :=
  { g with
    active := false
    position_q16 := 0
    speed_q16 := 1 * 2 ^ 16
    reciprocal_length_q32 := 0
    panL_q15 := PAN_CENTER_Q15
    panR_q15 := PAN_CENTER_Q15
    pitch_f := 0 }

/-- The C struct `GranParams`. -/
structure GranParams where
  pitch_f : ℚ := 0
  mode : PlayMode := .MODE_GRANULAR
  position_q15 : Int := 0
  size_q15 : Int := 0
  deja_vu_q15 : Int := 0
  texture_q15 : Int := 0
  stereoSpread_q15 : Int := 0
  feedback_q15 : Int := 0
  dryWet_q15 : Int := 0
  loop_length : Int := 0
  deriving DecidableEq

/-- The C struct `ParamSnapshot` (one deja-vu ring entry). -/
structure ParamSnapshot where
  position_q15 : Int := 0
  size_q15 : Int := 0
  pitch_f : ℚ := 0
  texture_q15 : Int := 0
  deriving DecidableEq

/-- The C struct `AudioRingBuffer` (the input queue). -/
structure AudioRingBuffer where
  data : Nat → Int := fun _ => 0
  writePos : Nat := 0
  readPos : Nat := 0

/-- The C struct `ButtonState`; `HIGH` is `true`, `LOW` is `false`. -/
structure ButtonState where
  currentState : Bool := true
  lastState : Bool := true
  pressStartTime : Nat := 0
  deriving DecidableEq

/-- The look-up tables filled once by `initAllLuts`.  The window, pitch and pan
tables are computed with `cosf`, `exp2f` and `sinf`, and the two random tables
with `esp_random`, so their contents are parameters of the model. -/
structure Luts where
  g_window_lut_q15 : Nat → Int
  g_pitch_lut_q16 : Nat → Int
  g_pan_lut_q15 : Nat → Int
  g_random_pan_lut : Nat → ℚ
  g_random_lut_q15 : Nat → Int

/-- The global variables of `main.cpp`, together with the function-local
statics of `updateTempo`, `updateParametersFromPots`, `processAudioSample` and
`handleButtonDebounce`.  Defaults are the C static initialisers. -/
structure State where
  -- audio history
  g_grainBuffer : Nat → Int := fun _ => 0
  g_grainWritePos : Nat := 0
  g_grainBufferReady : Bool := false
  -- grain management
  g_grains : Nat → Grain := fun _ => {}
  g_activeGrainIndices : Nat → Nat := fun _ => 0
  g_activeGrainCount : Nat := 0
  g_random_pan_index : Nat := 0
  g_random_index : Nat := 0
  -- parameters
  g_params : GranParams := {}
  g_pot4_mode : Pot4Mode := .MODE_TEXTURE
  -- user interface
  g_display_cache : UIDisplayCache := {}
  g_randomize_flash_active : Bool := false
  g_randomize_flash_start : Nat := 0
  g_snapshot_flash_active : Bool := false
  g_snapshot_flash_start : Nat := 0
  g_snapshot_flash_number : Int := 0
  -- deja vu
  g_deja_vu_buffer : Nat → ParamSnapshot := fun _ => {}
  g_deja_vu_step : Int := 0
  -- trigger LED
  g_trigger_led_on : Bool := false
  g_trigger_led_start_time : Nat := 0
  -- clock and trigger
  g_beat_interval_us : Nat := 500000
  g_next_internal_trigger_time_us : Nat := 0
  g_next_raw_beat_time_us : Nat := 0
  g_current_resolution_index : Int := 3
  g_last_manual_tap_time_us : Nat := 0
  g_current_bpm : ℚ := 120
  -- snapshot storage
  g_snapshots : Nat → FullParamSnapshot := fun _ => {}
  g_snapshots_initialized : Nat → Bool := fun _ => false
  g_raw_beat_led_on : Bool := false
  g_raw_beat_led_start_time : Nat := 0
  -- soft takeover for pitch
  g_soft_takeover_active_pitch : Bool := false
  g_soft_takeover_target_pitch : ℚ := 1 / 2
  -- `static` locals of `updateTempo`
  last_any_tap_time_us : Nat := 0
  -- `static` locals of `updateParametersFromPots`
  last_adc_values : Nat → Int := fun _ => -1
  last_val_f : Nat → Option ℚ := fun _ => none
  -- input queue
  g_ringBuffer : AudioRingBuffer := {}
  -- `static` locals of `processAudioSample`
  i2s_buffer : Nat → Int := fun _ => 0
  feedbackBuffer : Nat → Int := fun _ => 0
  i2s_buffer_pos : Nat := 0
  fbWritePos : Nat := 0
  -- button states
  g_button : ButtonState := {}
  g_pot4_button : ButtonState := {}
  g_mode_button : ButtonState := {}
  g_snapshot_button : Nat → ButtonState := fun _ => {}
  -- `static` locals of `handleButtonDebounce`
  lastReading : Nat → Bool := fun _ => true
  lastDebounceTime : Nat → Nat := fun _ => 0

/-! ## Display cache, soft takeover, snapshots -/

/-- The function `invalidateDisplayCache`; `(PlayMode)-1` and `(Pot4Mode)-1`
are the byte 255. -/
def invalidateDisplayCache (s : State) : State :=
  { s with
    g_display_cache :=
      { s.g_display_cache with
        position_q15 := -1
        size_q15 := -1
        deja_vu_q15 := -1
        dryWet_q15 := -1
        pitch_f := -1000
        mode := 255
        pot4_mode := 255
        pot4_mode_for_text_update := 255
        texture_q15 := -1
        stereoSpread_q15 := -1
        feedback_q15 := -1
        loop_length := -1
        resolution_index := -1
        active_grains := 255
        bpm := -1000 } }

/-- The function `enablePitchSoftTakeover`; the division and the addition are
binary32 operations (`(pitchSemitones / PITCH_RANGE_SEMITONES) + 0.5f`). -/
def enablePitchSoftTakeover (pitchSemitones : ℚ) (s : State) : State :=
  let v : ℚ := f32 (f32 (pitchSemitones / PITCH_RANGE_SEMITONES) + 1 / 2)
  let v : ℚ := if !isfinite v then 1 / 2 else v
  let v : ℚ := if v < 0 then 0 else v
  let v : ℚ := if v > 1 then 1 else v
  { s with
    g_soft_takeover_target_pitch := v
    g_soft_takeover_active_pitch := true }

/-- The function `saveSnapshot`; `now_ms` is the value returned by `millis()`. -/
def saveSnapshot (slot : Int) (now_ms : Nat) (s : State) : State :=
  if slot < 0 ∨ slot ≥ 4 then s
  else
    { s with
      g_snapshots := Function.update s.g_snapshots slot.toNat
        { position_q15 := s.g_params.position_q15
          size_q15 := s.g_params.size_q15
          deja_vu_q15 := s.g_params.deja_vu_q15
          texture_q15 := s.g_params.texture_q15
          stereoSpread_q15 := s.g_params.stereoSpread_q15
          feedback_q15 := s.g_params.feedback_q15
          dryWet_q15 := s.g_params.dryWet_q15
          pitch_f := s.g_params.pitch_f
          loop_length := s.g_params.loop_length
          mode := s.g_params.mode
          pot4_mode := s.g_pot4_mode
          resolution_index := s.g_current_resolution_index }
      g_snapshots_initialized := Function.update s.g_snapshots_initialized slot.toNat true
      g_snapshot_flash_active := true
      g_snapshot_flash_start := now_ms
      g_snapshot_flash_number := slot + 1 }

/-- The function `loadSnapshot`. -/
def loadSnapshot (slot : Int) (s : State) : State :=
  if slot < 0 ∨ slot ≥ 4 ∨ s.g_snapshots_initialized slot.toNat = false then s
  else
    let snap := s.g_snapshots slot.toNat
    let s1 : State :=
      { s with
        g_params :=
          { s.g_params with
            position_q15 := snap.position_q15
            size_q15 := snap.size_q15
            deja_vu_q15 := snap.deja_vu_q15
            texture_q15 := snap.texture_q15
            stereoSpread_q15 := snap.stereoSpread_q15
            feedback_q15 := snap.feedback_q15
            dryWet_q15 := snap.dryWet_q15
            pitch_f := snap.pitch_f
            loop_length := snap.loop_length
            mode := snap.mode } }
    let idx : Int := snap.resolution_index
    let idx : Int := if !isfinite (idx : ℚ) then 3 else idx
    let s2 : State := { s1 with g_current_resolution_index := constrain idx 0 6 }
    invalidateDisplayCache (enablePitchSoftTakeover s2.g_params.pitch_f s2)

/-! ## Tempo -/

/-- The function `updateTempo`; `now_ms` is the value returned by `millis()`.
Timestamps are `unsigned long` (32 bit), so the subtraction wraps. -/
def updateTempo (tap_time_us : Nat) (now_ms : Nat) (s : State) : State :=
  let s1 : State :=
    if s.last_any_tap_time_us > 0 then
      let interval : Nat := toUInt32 ((tap_time_us : Int) - (s.last_any_tap_time_us : Int))
      if interval > MIN_TEMPO_INTERVAL_US ∧ interval < MAX_TEMPO_INTERVAL_US then
        { s with
          g_beat_interval_us := interval
          g_current_bpm := 60000000 / (interval : ℚ) }
      else s
    else s
  { s1 with
    last_any_tap_time_us := tap_time_us
    g_next_internal_trigger_time_us := tap_time_us
    g_next_raw_beat_time_us := tap_time_us
    g_raw_beat_led_on := true
    g_raw_beat_led_start_time := now_ms }

/-! ## Deterministic look-up tables -/

/-- Conversion of a float to an integer type (truncation toward zero). -/
def truncf (x : ℚ) : Int := if 0 ≤ x then ⌊x⌋ else ⌈x⌉

/-- Entry `i` of the table filled by `initMixLut`. -/
def g_mix_lut_q15 (i : Nat) : Int :=
  toInt16 (Int.tdiv ((i : Int) * 32767) ((MIX_LUT_SIZE : Int) - 1))

/-- Entry `i` of the table filled by `initFeedbackLut`
(`FEEDBACK_LUT_MIN = 0.1`, `FEEDBACK_LUT_RANGE = 0.5`). -/
def g_feedback_lut_q15 (i : Nat) : Int :=
  let f : ℚ := 1 / 10 + ((i : ℚ) / ((FEEDBACK_LUT_SIZE : ℚ) - 1)) * (5 / 10)
  toInt16 (truncf (f * 32767))

/-- Entry `i` of the table filled by `initReciprocalLut`. -/
def g_reciprocal_lut_q32 (i : Nat) : Nat :=
  let l : Nat :=
    toUInt16 (MIN_GRAIN_SIZE +
      Int.tdiv ((MAX_GRAIN_SIZE - MIN_GRAIN_SIZE) * (i : Int)) ((RECIPROCAL_LUT_SIZE : Int) - 1))
  if l > 0 then toUInt32 (((2 ^ 32 - 1 : Nat) / l : Nat)) else 0

/-! ## Parameter update from the pots -/

/-- The Arduino core function `map` (long arithmetic, truncating division). -/
def map (x in_min in_max out_min out_max : Int) : Int :=
  let run := in_max - in_min
  if run = 0 then -1
  else
    let rise := out_max - out_min
    let delta := x - in_min
    Int.tdiv (delta * rise) run + out_min

/-- The tail of `case 4` of `updateParametersFromPots` (source lines 952-957):
the pot value is written to the pitch.  The product is evaluated exactly here;
`potPitchFloat` is its binary32 value. -/
def applyPitchPot (val_f : ℚ) (s : State) : State :=
  let p : ℚ := (val_f - 1 / 2) * PITCH_RANGE_SEMITONES
  let p : ℚ := if !isfinite p then 0 else p
  let p : ℚ := if p > PITCH_RANGE_SEMITONES_HALF then PITCH_RANGE_SEMITONES_HALF else p
  let p : ℚ := if p < -PITCH_RANGE_SEMITONES_HALF then -PITCH_RANGE_SEMITONES_HALF else p
  { s with
    g_params := { s.g_params with pitch_f := p }
    last_val_f := Function.update s.last_val_f 4 (some val_f) }

/-- The pitch that the tail of `case 4` computes from a pot value, with the
subtraction and the multiplication of
`(val_f - 0.5f) * PITCH_RANGE_SEMITONES` (source line 952) rounded to
binary32. -/
def potPitchFloat (val_f : ℚ) : ℚ := f32 (f32 (val_f - 1 / 2) * PITCH_RANGE_SEMITONES)

/-- The body of `case 4` of the switch in `updateParametersFromPots` (pitch pot
with soft takeover). -/
def potCase4 (val_f : ℚ) (s : State) : State :=
  if s.g_soft_takeover_active_pitch then
    let deadband : ℚ := SOFT_TAKEOVER_DEADBAND
    let target : ℚ := s.g_soft_takeover_target_pitch
    let pass_through : Bool :=
      match s.last_val_f 4 with
      | some last =>
        decide ((last < target ∧ val_f ≥ target) ∨ (last > target ∧ val_f ≤ target))
      | none => false
    let near_enough : Bool := decide (|val_f - target| ≤ deadband)
    if !(pass_through || near_enough) then
      { s with last_val_f := Function.update s.last_val_f 4 (some val_f) }
    else
      applyPitchPot val_f { s with g_soft_takeover_active_pitch := false }
  else
    applyPitchPot val_f s

/-- The switch of `updateParametersFromPots` for pot `i`. -/
def potSwitch (i : Nat) (smoothed_adc_val : Int) (val_f : ℚ) (s : State) : State :=
  match i with
  | 0 => { s with g_params := { s.g_params with position_q15 := toInt16 (truncf (val_f * 32767)) } }
  | 1 => { s with g_params := { s.g_params with size_q15 := toInt16 (truncf (val_f * 32767)) } }
  | 2 => { s with g_params := { s.g_params with deja_vu_q15 := toInt16 (truncf (val_f * 32767)) } }
  | 3 =>
    match s.g_pot4_mode with
    | .MODE_TEXTURE =>
      { s with g_params := { s.g_params with texture_q15 := toInt16 (truncf (val_f * 32767)) } }
    | .MODE_SPREAD =>
      { s with
        g_params := { s.g_params with stereoSpread_q15 := toInt16 (truncf (val_f * 32767)) } }
    | .MODE_FEEDBACK =>
      { s with
        g_params :=
          { s.g_params with
            feedback_q15 :=
              g_feedback_lut_q15 (truncf (val_f * ((FEEDBACK_LUT_SIZE : ℚ) - 1))).toNat } }
    | .MODE_LOOP_LENGTH =>
      let len := map smoothed_adc_val 0 4095 2 ((DEJA_VU_BUFFER_SIZE : Int) + 1)
      { s with
        g_params := { s.g_params with loop_length := constrain len 2 (DEJA_VU_BUFFER_SIZE : Int) } }
    | .MODE_CLK_RESOLUTION =>
      let resolution := map smoothed_adc_val 0 4095 0 6
      { s with g_current_resolution_index := constrain resolution 0 6 }
  | 4 => potCase4 val_f s
  | 5 =>
    { s with
      g_params :=
        { s.g_params with
          dryWet_q15 := g_mix_lut_q15 (truncf (val_f * ((MIX_LUT_SIZE : ℚ) - 1))).toNat } }
  | _ => s

/-- The smoothing loop of `updateParametersFromPots` (source lines 882-886):
the mean of `ADC_SMOOTHING_SAMPLES` readings of pot `i`; `analogRead i k` is the
`k`-th reading of pot `i` in this call. -/
def smoothedAdc (analogRead : Nat → Nat → Nat) (i : Nat) : Int :=
  let adc_accumulator : Nat :=
    (List.range ADC_SMOOTHING_SAMPLES).foldl
      (fun acc k => toUInt32 ((acc : Int) + (analogRead i k : Int))) 0
  ((adc_accumulator / ADC_SMOOTHING_SAMPLES : Nat) : Int)

/-- One iteration of the outer loop of `updateParametersFromPots`. -/
def potIteration (analogRead : Nat → Nat → Nat) (i : Nat) (s : State) : State :=
  let smoothed_adc_val : Int := smoothedAdc analogRead i
  if |smoothed_adc_val - s.last_adc_values i| > ADC_CHANGE_THRESHOLD then
    let s1 : State := { s with last_adc_values := Function.update s.last_adc_values i smoothed_adc_val }
    let val_f : ℚ := (smoothed_adc_val : ℚ) / ADC_MAX_VALUE
    let val_f : ℚ := if !isfinite val_f then 1 / 2 else val_f
    let val_f : ℚ := if val_f < 0 then 0 else val_f
    let val_f : ℚ := if val_f > 1 then 1 else val_f
    potSwitch i smoothed_adc_val val_f s1
  else s

/-- The function `updateParametersFromPots`. -/
def updateParametersFromPots (analogRead : Nat → Nat → Nat) (s : State) : State :=
  (List.range 6).foldl (fun st i => potIteration analogRead i st) s

/-! ## Grain generation -/

/-- The function `calculateGrainLength`; returns the length and the state with
the advanced `g_random_index` (a `uint8_t`, so `& (RANDOM_LUT_SIZE-1)` is the
remainder modulo 256). -/
def calculateGrainLength (L : Luts) (base_size texture : Int) (s : State) : Nat × State :=
  let rand_val : Int := L.g_random_lut_q15 (s.g_random_index % RANDOM_LUT_SIZE)
  let s1 : State := { s with g_random_index := toUInt8 ((s.g_random_index : Int) + 1) }
  let size_rand_comp : Int := toInt32 (texture * rand_val) >>> (15 : Nat)
  let size_q15 : Int := toInt16 (constrain (base_size + (size_rand_comp >>> (1 : Nat))) MIN_SIZE_Q15 32767)
  let scaled : Nat := toUInt32 ((MAX_GRAIN_SIZE - MIN_GRAIN_SIZE) * size_q15) >>> (15 : Nat)
  (toUInt16 (MIN_GRAIN_SIZE + (scaled : Int)), s1)

/-- The function `calculateGrainStartPosition`. -/
def calculateGrainStartPosition (L : Luts) (base_pos texture : Int) (s : State) : Nat × State :=
  let rand_val : Int := L.g_random_lut_q15 (s.g_random_index % RANDOM_LUT_SIZE)
  let s1 : State := { s with g_random_index := toUInt8 ((s.g_random_index : Int) + 1) }
  let pos_rand_comp : Int :=
    toInt32 (truncf (((toInt32 (texture * rand_val) >>> (15 : Nat) : Int) : ℚ) * POSITION_TEXTURE_SCALE))
  let pos_q15 : Int := toInt16 (constrain (base_pos + pos_rand_comp) 0 32767)
  let lookback : Nat := toUInt32 ((GRAIN_BUFFER_SIZE : Int) * pos_q15) >>> (15 : Nat)
  let start : Nat :=
    toUInt32 ((s.g_grainWritePos : Int) - (lookback : Int) + (GRAIN_BUFFER_SIZE : Int))
      % GRAIN_BUFFER_SIZE
  (toUInt16 start, s1)

/-- The function `calculateGrainSpeed`. -/
def calculateGrainSpeed (L : Luts) (base_pitch : ℚ) (texture : Int) (s : State) : Int × State :=
  let rand_val : Int := L.g_random_lut_q15 (s.g_random_index % RANDOM_LUT_SIZE)
  let s1 : State := { s with g_random_index := toUInt8 ((s.g_random_index : Int) + 1) }
  let pitch_rand_comp : ℚ :=
    ((texture : ℚ) / 32767) * PITCH_TEXTURE_VARIANCE * ((rand_val : ℚ) / 32767)
  let pitch : ℚ := base_pitch + pitch_rand_comp
  let index_f : ℚ := (pitch + PITCH_RANGE_SEMITONES_HALF) * PITCH_LUT_SCALE
  let index_f : ℚ := constrainf index_f 0 ((PITCH_LUT_SIZE : ℚ) - 2)
  let index_i : Int := truncf index_f
  let frac_q8 : Int := truncf ((index_f - (index_i : ℚ)) * 256)
  let y0 : Int := L.g_pitch_lut_q16 index_i.toNat
  let y1 : Int := L.g_pitch_lut_q16 (index_i + 1).toNat
  let speed : Int := toInt32 (y0 + (toInt32 ((y1 - y0) * frac_q8) >>> (8 : Nat)))
  (constrain speed (1 * 2 ^ 14) (4 * 2 ^ 16), s1)

/-- The function `calculateGrainPanning`; returns `(panL, panR)`. -/
def calculateGrainPanning (L : Luts) (s : State) : (Int × Int) × State :=
  let pan_random : ℚ := L.g_random_pan_lut (s.g_random_pan_index % RANDOM_PAN_LUT_SIZE)
  let s1 : State := { s with g_random_pan_index := toUInt8 ((s.g_random_pan_index : Int) + 1) }
  let pan : ℚ := 1 / 2 + ((s.g_params.stereoSpread_q15 : ℚ) / 32767) * STEREO_SPREAD_SCALE * pan_random
  let pan : ℚ := constrainf pan 0 1
  let pan_index_f : ℚ := pan * ((PAN_LUT_SIZE : ℚ) - 1)
  let pan_index_i : Int := constrain (truncf pan_index_f) 0 ((PAN_LUT_SIZE : Int) - 2)
  let frac_q8 : Int := truncf ((pan_index_f - (pan_index_i : ℚ)) * 256)
  let panR : Int :=
    toInt16 (L.g_pan_lut_q15 pan_index_i.toNat +
      (toInt32 ((L.g_pan_lut_q15 (pan_index_i + 1).toNat - L.g_pan_lut_q15 pan_index_i.toNat) * frac_q8)
        >>> (8 : Nat)))
  let pan_index_l_f : ℚ := ((PAN_LUT_SIZE : ℚ) - 1) - pan_index_f
  let pan_index_l_i : Int := constrain (truncf pan_index_l_f) 0 ((PAN_LUT_SIZE : Int) - 2)
  let frac_l_q8 : Int := truncf ((pan_index_l_f - (pan_index_l_i : ℚ)) * 256)
  let panL : Int :=
    toInt16 (L.g_pan_lut_q15 pan_index_l_i.toNat +
      (toInt32 ((L.g_pan_lut_q15 (pan_index_l_i + 1).toNat - L.g_pan_lut_q15 pan_index_l_i.toNat)
        * frac_l_q8) >>> (8 : Nat)))
  ((panL, panR), s1)

/-- Lines 744-752 of `triggerGrain`: the values stored in the grain slot, and
the state after the cursors of the random tables have advanced. -/
def triggerGrainFields (L : Luts) (params : ParamSnapshot) (s : State) : Grain × State :=
  let (length, s1) := calculateGrainLength L params.size_q15 params.texture_q15 s
  let (startPos, s2) := calculateGrainStartPosition L params.position_q15 params.texture_q15 s1
  let (speed_q16, s3) := calculateGrainSpeed L params.pitch_f params.texture_q15 s2
  let (pan, s4) := calculateGrainPanning L s3
  let position_q16 : Int :=
    if s4.g_params.mode = .MODE_REVERSE then toInt32 (((length : Int) - 1) * 2 ^ 16) else 0
  let lut_idx : Nat :=
    toUInt16 (Int.tdiv (((length : Int) - MIN_GRAIN_SIZE) * ((RECIPROCAL_LUT_SIZE : Int) - 1))
      (MAX_GRAIN_SIZE - MIN_GRAIN_SIZE))
  ({ active := true
     startPos := startPos
     length := length
     position_q16 := position_q16
     speed_q16 := speed_q16
     reciprocal_length_q32 := g_reciprocal_lut_q32 (min lut_idx (RECIPROCAL_LUT_SIZE - 1))
     panL_q15 := pan.1
     panR_q15 := pan.2
     pitch_f := params.pitch_f }, s4)

/-- Lines 754-760 of `triggerGrain`: the slot index is appended to the
active-index list unless it is already there or the list is full. -/
def triggerGrainRegister (idx : Int) (s : State) : State :=
  let found : Bool :=
    (List.range s.g_activeGrainCount).any (fun i => decide ((s.g_activeGrainIndices i : Int) = idx))
  if found = false ∧ s.g_activeGrainCount < MAX_GRAINS then
    { s with
      g_activeGrainIndices :=
        Function.update s.g_activeGrainIndices s.g_activeGrainCount (toUInt8 idx)
      g_activeGrainCount := toUInt8 ((s.g_activeGrainCount : Int) + 1) }
  else s

/-- The function `triggerGrain`. -/
def triggerGrain (L : Luts) (idx : Int) (params : ParamSnapshot) (s : State) : State :=
  if idx < 0 ∨ idx ≥ (MAX_GRAINS : Int) then s
  else
    let r := triggerGrainFields L params s
    triggerGrainRegister idx { r.2 with g_grains := Function.update r.2.g_grains idx.toNat r.1 }

/-- The function `renderGrain`; it reads the play mode and the history buffer
from the state and returns the sample together with the updated grain. -/
def renderGrain (L : Luts) (s : State) (g : Grain) : Int × Grain :=
  let pos_int : Nat := toUInt16 (g.position_q16 >>> (16 : Nat))
  if pos_int ≥ g.length then (0, { g with active := false })
  else
    let off : Int :=
      if s.g_params.mode = .MODE_REVERSE then (g.length : Int) - 1 - (pos_int : Int)
      else (pos_int : Int)
    let read_idx : Nat := toUInt16 (((g.startPos : Int) + off) % (GRAIN_BUFFER_SIZE : Int))
    let sample : Int := s.g_grainBuffer read_idx
    let window_idx : Nat :=
      toUInt16 ((toUInt32 ((pos_int : Int) * (g.reciprocal_length_q32 : Int)) >>> (25 : Nat) : Nat) : Int)
    let window_val : Int := L.g_window_lut_q15 (min window_idx (WINDOW_LUT_SIZE - 1))
    let windowed_sample : Int := toInt32 (sample * window_val)
    let position_q16 : Int :=
      toInt32 (g.position_q16 +
        (if s.g_params.mode = .MODE_REVERSE then toInt32 (-g.speed_q16) else g.speed_q16))
    let g1 : Grain := { g with position_q16 := position_q16 }
    let g2 : Grain := if position_q16 < 0 then { g1 with active := false } else g1
    (toInt16 (windowed_sample >>> (15 : Nat)), g2)

/-- The inner loop of `renderAllGrains` that closes the gap at position `i`:
`for (j = i; j < count - 1; j++) indices[j] = indices[j+1]`. -/
def shiftIndices (indices : Nat → Nat) (i count : Nat) : Nat → Nat :=
  (List.range' i (count - 1 - i)).foldl (fun a j => Function.update a j (a (j + 1))) indices

/-- The outer loop of `renderAllGrains`.  Every iteration either increments `i`
or decrements the active count, so `g_activeGrainCount - i` iterations remain;
the first argument counts them down. -/
def renderLoop (L : Luts) : Nat → Nat → State × Int × Int → State × Int × Int
  | 0, _, x => x
  | n + 1, i, (s, wetL, wetR) =>
    if i < s.g_activeGrainCount then
      let grain_idx : Nat := s.g_activeGrainIndices i
      let r := renderGrain L s (s.g_grains grain_idx)
      let sample : Int := r.1
      let grain : Grain := r.2
      let s1 : State := { s with g_grains := Function.update s.g_grains grain_idx grain }
      if grain.active then
        renderLoop L n (i + 1)
          (s1, toInt32 (wetL + (toInt32 (sample * grain.panL_q15) >>> (15 : Nat))),
            toInt32 (wetR + (toInt32 (sample * grain.panR_q15) >>> (15 : Nat))))
      else
        renderLoop L n i
          ({ s1 with
              g_activeGrainIndices := shiftIndices s1.g_activeGrainIndices i s1.g_activeGrainCount
              g_activeGrainCount := toUInt8 ((s1.g_activeGrainCount : Int) - 1) },
            wetL, wetR)
    else (s, wetL, wetR)

/-- The function `renderAllGrains`; returns the state and the two accumulators. -/
def renderAllGrains (L : Luts) (wetL wetR : Int) (s : State) : State × Int × Int :=
  if s.g_grainBufferReady = false ∨ s.g_activeGrainCount = 0 then (s, wetL, wetR)
  else renderLoop L s.g_activeGrainCount 0 (s, wetL, wetR)

/-- The spawn loop of `handleDejaVuTrigger`
(`for (i = 0; i < MAX_GRAINS && grains_generated < grains_to_generate; i++)`).
The first argument is `MAX_GRAINS - i`; `k` is the number of `esp_random()`
calls made so far and `rnd k` the value returned by call `k`. -/
def spawnGrains (L : Luts) (rnd : Nat → Nat) (params_to_use : ParamSnapshot)
    (grains_to_generate : Nat) : Nat → Nat → Nat → State → State
  | 0, _, _, s => s
  | n + 1, grains_generated, k, s =>
    let i : Nat := MAX_GRAINS - (n + 1)
    if grains_generated < grains_to_generate then
      if (s.g_grains i).active = false then
        if grains_generated > 0 then
          let pitch_var : Int := toInt16 (((rnd k % 4001 : Nat) : Int) - 2000)
          let pos_var : Int := toInt16 (((rnd (k + 1) % 6553 : Nat) : Int) - 3276)
          let varied_params : ParamSnapshot :=
            { params_to_use with
              pitch_f := params_to_use.pitch_f + (pitch_var : ℚ) / 1000
              position_q15 := toInt16 (constrain (params_to_use.position_q15 + pos_var) 0 32767) }
          spawnGrains L rnd params_to_use grains_to_generate n
            (toUInt8 ((grains_generated : Int) + 1)) (k + 2) (triggerGrain L i varied_params s)
        else
          spawnGrains L rnd params_to_use grains_to_generate n
            (toUInt8 ((grains_generated : Int) + 1)) k (triggerGrain L i params_to_use s)
      else spawnGrains L rnd params_to_use grains_to_generate n grains_generated k s
    else s

/-- The function `handleDejaVuTrigger`; `rnd k` is the value returned by the
`k`-th call of `esp_random()` made during this call and `now_ms` the value of
`millis()`. -/
def handleDejaVuTrigger (L : Luts) (rnd : Nat → Nat) (now_ms : Nat) (s : State) : State :=
  if s.g_grainBufferReady = false then s
  else
    let s0 : State := { s with g_trigger_led_on := true, g_trigger_led_start_time := now_ms }
    let replay : Bool := decide (rnd 0 % 32768 < toUInt32 s0.g_params.deja_vu_q15)
    let current_step_in_loop : Int := Int.tmod s0.g_deja_vu_step s0.g_params.loop_length
    let fresh : ParamSnapshot :=
      let rand_val : Int := toInt16 (((rnd 1 % 65535 : Nat) : Int) - 32767)
      let pos_offset : Int := toInt32 (s0.g_params.texture_q15 * rand_val) >>> (14 : Nat)
      let position_q15 : Int := toInt16 (constrain (s0.g_params.position_q15 + pos_offset) 0 32767)
      let rand_val : Int := toInt16 (((rnd 2 % 65535 : Nat) : Int) - 32767)
      let size_offset : Int := toInt32 (s0.g_params.texture_q15 * rand_val) >>> (15 : Nat)
      let size_q15 : Int := toInt16 (constrain (s0.g_params.size_q15 + size_offset) 1000 32767)
      let rand_val : Int := toInt16 (((rnd 3 % 65535 : Nat) : Int) - 32767)
      let pitch_offset : ℚ :=
        ((s0.g_params.texture_q15 : ℚ) / 32767) * 5 * ((rand_val : ℚ) / 32767)
      { position_q15 := position_q15
        size_q15 := size_q15
        pitch_f := s0.g_params.pitch_f + pitch_offset
        texture_q15 := s0.g_params.texture_q15 }
    let params_to_use : ParamSnapshot :=
      if replay then s0.g_deja_vu_buffer current_step_in_loop.toNat else fresh
    let s1 : State :=
      if replay then s0
      else
        { s0 with
          g_deja_vu_buffer :=
            Function.update s0.g_deja_vu_buffer current_step_in_loop.toNat params_to_use }
    let k : Nat := if replay then 1 else 4
    let grains_to_generate : Nat := toUInt8 (1 + ((rnd k % 3 : Nat) : Int))
    let s2 : State := spawnGrains L rnd params_to_use grains_to_generate MAX_GRAINS 0 (k + 1) s1
    { s2 with g_deja_vu_step := Int.tmod (s2.g_deja_vu_step + 1) (DEJA_VU_BUFFER_SIZE : Int) }

/-! ## Concrete states and statement helpers -/

/-- The state right after the C static initialisers ran. -/
def initialState : State := {}

/-- A state with distinctive live parameters, slot 1 holding a different
parameter set (secondary mode `MODE_FEEDBACK`) and slot 3 not initialised. -/
def demoState : State :=
  { g_params :=
      { pitch_f := 7 / 2
        mode := .MODE_REVERSE
        position_q15 := 1000
        size_q15 := 2000
        deja_vu_q15 := 3000
        texture_q15 := 4000
        stereoSpread_q15 := 5000
        feedback_q15 := 6000
        dryWet_q15 := 7000
        loop_length := 8 }
    g_pot4_mode := .MODE_SPREAD
    g_current_resolution_index := 5
    g_snapshots := fun k =>
      if k = 1 then
        { position_q15 := 11, size_q15 := 1200, pitch_f := -12, loop_length := 4,
          pot4_mode := .MODE_FEEDBACK, resolution_index := 2 }
      else {}
    g_snapshots_initialized := fun k => decide (k = 1)
    g_soft_takeover_active_pitch := true
    g_soft_takeover_target_pitch := 1 / 2
    last_val_f := fun _ => some (1 / 10) }

/-- Feeding a sequence of gated pitch-pot readings to `case 4`. -/
def feedPitchPot (vs : List ℚ) (s : State) : State :=
  vs.foldl (fun st v => potCase4 v st) s

/-- The readings `vs`, the first of which follows the stored previous reading
`prev`, never come within the deadband of the target `T`, and no reading
together with its predecessor straddles `T`. -/
def NoCatch (T : ℚ) : Option ℚ → List ℚ → Prop
  | _, [] => True
  | prev, v :: vs =>
    ¬ (|v - T| ≤ SOFT_TAKEOVER_DEADBAND) ∧
    (∀ p, prev = some p → ¬ ((p < T ∧ v ≥ T) ∨ (p > T ∧ v ≤ T))) ∧
    NoCatch T (some v) vs

/-- A state in which a trigger was seen at time 1000 us while the beat interval
was 250000 us (240 BPM). -/
def tempoDemo : State :=
  { g_beat_interval_us := 250000
    g_current_bpm := 240
    last_any_tap_time_us := 1000 }

/-- The live part of the active-index list: its first `g_activeGrainCount`
entries. -/
def activeList (s : State) : List Nat :=
  (List.range s.g_activeGrainCount).map s.g_activeGrainIndices

/-- Number of grain slots below `k` whose active flag is set. -/
def activeBelow (g : Nat → Grain) (k : Nat) : Nat :=
  ((List.range k).filter (fun i => (g i).active)).length

/-- Number of grain slots below `k` whose active flag is clear. -/
def freeBelow (g : Nat → Grain) (k : Nat) : Nat :=
  ((List.range k).filter (fun i => !(g i).active)).length

/-- The grain pool as `setup` leaves it: every grain reset (inactive) and an
empty active-index list. -/
def PoolInitial (s : State) : Prop :=
  s.g_activeGrainCount = 0 ∧ ∀ i, i < MAX_GRAINS → (s.g_grains i).active = false

/-- The states `s` and `t` have the same grain pool, active-index list and
active count (everything else may differ). -/
def SamePool (s t : State) : Prop :=
  t.g_grains = s.g_grains ∧ t.g_activeGrainIndices = s.g_activeGrainIndices ∧
    t.g_activeGrainCount = s.g_activeGrainCount

/-- States reachable from an initial pool by calls of `handleDejaVuTrigger` and
`renderAllGrains` (with any random draws, clock values and accumulators),
interleaved with arbitrary changes of every variable outside the grain pool
(parameter and mode updates by the control task, audio writes, the ready
flag), which no other function of the program writes. -/
inductive Reachable (L : Luts) : State → Prop
  | init (s : State) : PoolInitial s → Reachable L s
  | trigger (s : State) (rnd : Nat → Nat) (now_ms : Nat) :
      Reachable L s → Reachable L (handleDejaVuTrigger L rnd now_ms s)
  | render (s : State) (wetL wetR : Int) :
      Reachable L s → Reachable L (renderAllGrains L wetL wetR s).1
  | other (s t : State) : Reachable L s → SamePool s t → Reachable L t

/-- The pool invariant in index form: the count is at most the capacity, the
listed indices are valid slots and pairwise distinct, and a slot is active
exactly when it is listed. -/
def PoolOk (s : State) : Prop :=
  s.g_activeGrainCount ≤ MAX_GRAINS ∧
  (∀ j, j < s.g_activeGrainCount → s.g_activeGrainIndices j < MAX_GRAINS) ∧
  (∀ j k, j < s.g_activeGrainCount → k < s.g_activeGrainCount →
    s.g_activeGrainIndices j = s.g_activeGrainIndices k → j = k) ∧
  (∀ x, x < MAX_GRAINS →
    ((s.g_grains x).active = true ↔
      ∃ j, j < s.g_activeGrainCount ∧ s.g_activeGrainIndices j = x))

/-- Constant look-up tables, used for concrete evaluations only (the window,
pitch and pan tables of the device are computed with `cosf`, `exp2f` and
`sinf`). -/
def flatLuts : Luts :=
  { g_window_lut_q15 := fun _ => 32767
    g_pitch_lut_q16 := fun _ => 65536
    g_pan_lut_q15 := fun _ => 23170
    g_random_pan_lut := fun _ => 0
    g_random_lut_q15 := fun _ => 0 }

/-- A state with the history buffer ready, an empty grain pool and forward
play mode. -/
def readyState : State :=
  { g_grainBufferReady := true
    g_params := { size_q15 := 16384, dryWet_q15 := 32767, loop_length := 16 } }

/-- A forward grain of length 4000 at speed 1.0 after 3999 render calls: its
integer position is 3999, the last sample of the fragment. -/
def lastSampleGrain : Grain :=
  { active := true
    startPos := 100
    length := 4000
    position_q16 := 3999 * 65536
    speed_q16 := 65536
    reciprocal_length_q32 := g_reciprocal_lut_q32 27
    panL_q15 := 23170
    panR_q15 := 23170
    pitch_f := 0 }

/-- A grain of length 4000 at speed 1.0 whose integer position is 0: in reverse
mode the next advance takes the position below zero. -/
def reverseEndGrain : Grain := { lastSampleGrain with position_q16 := 0 }

/-- Well-formed grain: a speed in `(0, 4.0]`, a length that fits 15 bits and a
position between 0 and at most one speed step past the length.  Every grain
made by `triggerGrain` is of this form, and a render call that leaves a grain
active keeps it so. -/
def GrainOk (g : Grain) : Prop :=
  0 < g.speed_q16 ∧ g.speed_q16 ≤ 262144 ∧ g.length ≤ 32767 ∧
  0 ≤ g.position_q16 ∧ g.position_q16 < ((g.length : Int) + 4) * 65536

/-- The ready state after one trigger event whose draws are all 1: the event is
fresh and requests `1 + 1 % 3 = 2` grains. -/
def spawnDemo : State := handleDejaVuTrigger flatLuts (fun _ => 1) 0 readyState

/-- The ready state after three trigger events whose draws are all 2, each
requesting `1 + 2 % 3 = 3` grains: nine of the ten slots are active. -/
def nearlyFullDemo : State :=
  handleDejaVuTrigger flatLuts (fun _ => 2) 0
    (handleDejaVuTrigger flatLuts (fun _ => 2) 0
      (handleDejaVuTrigger flatLuts (fun _ => 2) 0 readyState))

/-! ## Input queue and sample pipeline -/

/-- The method `AudioRingBuffer::init`. -/
def AudioRingBuffer.init (rb : AudioRingBuffer) : AudioRingBuffer :=
  { rb with writePos := 0, readPos := 0 }

/-- The method `AudioRingBuffer::write`; returns the result and the queue
(`& (RING_BUFFER_SIZE - 1)` is the remainder modulo 4096). -/
def AudioRingBuffer.write (rb : AudioRingBuffer) (sample : Int) : Bool × AudioRingBuffer :=
  let nextPos : Nat := toUInt16 (((rb.writePos + 1) % RING_BUFFER_SIZE : Nat) : Int)
  if nextPos = rb.readPos then (false, rb)
  else
    (true,
      { rb with
        data := Function.update rb.data rb.writePos sample
        writePos := nextPos })

/-- The method `AudioRingBuffer::read`; `sample` is the value the reference
argument holds before the call, and the second component the value it holds
afterwards. -/
def AudioRingBuffer.read (rb : AudioRingBuffer) (sample : Int) : Bool × Int × AudioRingBuffer :=
  if rb.readPos = rb.writePos then (false, sample, rb)
  else
    (true, rb.data rb.readPos,
      { rb with readPos := toUInt16 (((rb.readPos + 1) % RING_BUFFER_SIZE : Nat) : Int) })

/-- The function `a2dp_data_callback` acting on the queue: `samples k` is the
`k`-th 16-bit value of the block and `length` its size in bytes; the result of
`write` is ignored.  The first argument counts the remaining frames. -/
def a2dpLoop (samples : Nat → Int) (frames : Nat) : Nat → AudioRingBuffer → AudioRingBuffer
  | 0, rb => rb
  | n + 1, rb =>
    let i : Nat := frames - (n + 1)
    a2dpLoop samples frames n
      (rb.write (toInt16 ((samples (i * 2) >>> (1 : Nat)) + (samples (i * 2 + 1) >>> (1 : Nat))))).2

/-- The function `a2dp_data_callback`. -/
def a2dp_data_callback (samples : Nat → Int) (length : Nat) (s : State) : State :=
  { s with g_ringBuffer := a2dpLoop samples (length / 4) (length / 4) s.g_ringBuffer }

/-- The dry/wet blend of `processAudioSample` (source lines 601-604) for one
channel: `wet` is the saturated wet sample of the channel. -/
def blendOutput (inputSample wet dryWet_q15 : Int) : Int :=
  let wet_q15 : Int := dryWet_q15
  let dry_q15 : Int := toInt16 (32767 - wet_q15)
  toInt16 (constrain (toInt32 (toInt32 (inputSample * dry_q15) + toInt32 (wet * wet_q15))
    >>> (15 : Nat)) (-32768) 32767)

/-- The sample stored in the history buffer by `processAudioSample` (source
lines 584-586). -/
def mixedInput (inputSample : Int) (s : State) : Int :=
  let fbSample : Int := s.feedbackBuffer s.fbWritePos
  let mixed : Int :=
    toInt32 (inputSample + (toInt32 (fbSample * s.g_params.feedback_q15) >>> (15 : Nat)))
  constrain mixed (-32767) 32767

/-- Source lines 584-593 of `processAudioSample`: the mixed sample is stored in
the history buffer, the write position advances, and the ready flag is set once
the write position is past half the buffer. -/
def storeInput (inputSample : Int) (s : State) : State :=
  let mixed : Int := mixedInput inputSample s
  let s1 : State :=
    { s with
      g_grainBuffer := Function.update s.g_grainBuffer s.g_grainWritePos (toInt16 mixed)
      g_grainWritePos := toUInt16 (((s.g_grainWritePos + 1) % GRAIN_BUFFER_SIZE : Nat) : Int) }
  if s1.g_grainBufferReady = false ∧ s1.g_grainWritePos > GRAIN_BUFFER_SIZE / 2 then
    { s1 with g_grainBufferReady := true }
  else s1

/-- The function `processAudioSample`; returns the new state and the output
frame `(outL, outR)`.  The hand-over of the staging buffer to `i2s_write` and
its error counter are outside the model. -/
def processAudioSample (L : Luts) (inputSample : Int) (s : State) : State × Int × Int :=
  let s2 : State := storeInput inputSample s
  let r := renderAllGrains L 0 0 s2
  let s3 : State := r.1
  let wetL : Int := toInt16 (constrain r.2.1 (-32767) 32767)
  let wetR : Int := toInt16 (constrain r.2.2 (-32768) 32767)
  let outL : Int := blendOutput inputSample wetL s3.g_params.dryWet_q15
  let outR : Int := blendOutput inputSample wetR s3.g_params.dryWet_q15
  let fb : Int :=
    toInt16 (toInt32 ((toInt32 (outL + outR) >>> (1 : Nat)) * s3.g_params.feedback_q15)
      >>> (15 : Nat))
  let s4 : State :=
    { s3 with
      feedbackBuffer := Function.update s3.feedbackBuffer s3.fbWritePos fb
      fbWritePos := toUInt16 (((s3.fbWritePos + 1) % FEEDBACK_BUFFER_SIZE : Nat) : Int)
      i2s_buffer :=
        Function.update (Function.update s3.i2s_buffer s3.i2s_buffer_pos outL)
          (s3.i2s_buffer_pos + 1) outR
      i2s_buffer_pos := s3.i2s_buffer_pos + 2 }
  let s5 : State :=
    if s4.i2s_buffer_pos ≥ I2S_BUFFER_SAMPLES * 2 then { s4 with i2s_buffer_pos := 0 } else s4
  (s5, outL, outR)

/-- Processing a block of input samples, one call of `processAudioSample` per
sample. -/
def processSamples (L : Luts) (inputs : List Int) (s : State) : State :=
  inputs.foldl (fun st x => (processAudioSample L x st).1) s

/-- The integer position `pos_int` of `renderGrain` (source line 784). -/
def grainPosInt (g : Grain) : Nat := toUInt16 (g.position_q16 >>> (16 : Nat))

/-- The offset into the fragment that `renderGrain` reads (source line 790):
`length - 1 - pos_int` in reverse mode, `pos_int` otherwise. -/
def grainReadOffset (s : State) (g : Grain) : Int :=
  if s.g_params.mode = .MODE_REVERSE then (g.length : Int) - 1 - (grainPosInt g : Int)
  else (grainPosInt g : Int)

/-- The history index `read_idx` that `renderGrain` reads (source line 790). -/
def grainReadIndex (s : State) (g : Grain) : Nat :=
  toUInt16 (((g.startPos : Int) + grainReadOffset s g) % (GRAIN_BUFFER_SIZE : Int))

/-- The windowed sample that `renderGrain` returns when the position is inside
the fragment (source lines 791-795 and 802). -/
def grainWindowedSample (L : Luts) (s : State) (g : Grain) : Int :=
  let sample : Int := s.g_grainBuffer (grainReadIndex s g)
  let window_idx : Nat :=
    toUInt16 ((toUInt32 ((grainPosInt g : Int) * (g.reciprocal_length_q32 : Int))
      >>> (25 : Nat) : Nat) : Int)
  let window_val : Int := L.g_window_lut_q15 (min window_idx (WINDOW_LUT_SIZE - 1))
  toInt16 (toInt32 (sample * window_val) >>> (15 : Nat))

/-- A queue whose write position is just behind the read position: full. -/
def fullQueue : AudioRingBuffer :=
  { data := fun k => (k : Int)
    writePos := 6
    readPos := 7 }

/-- An empty queue with both positions at the last slot. -/
def emptyQueue : AudioRingBuffer :=
  { data := fun k => (k : Int)
    writePos := 4095
    readPos := 4095 }

/-- The ready state with 20000 samples written (write position 20000). -/
def written20000 : State := { readyState with g_grainWritePos := 20000 }

/-- Trigger parameters with base position 5000 (a lookback of 5000 samples) and
zero texture. -/
def lookback5000 : ParamSnapshot :=
  { position_q15 := 5000, size_q15 := 16384, pitch_f := 0, texture_q15 := 0 }

/-- The grain after successive render calls, the `k`-th of which is made in the
`k`-th state of the list. -/
def renderSeq (L : Luts) (states : List State) (g : Grain) : Grain :=
  states.foldl (fun gr s => (renderGrain L s gr).2) g

/-- The state `readyState` with the play mode switched to reverse. -/
def reverseReadyState : State :=
  { readyState with g_params := { readyState.g_params with mode := .MODE_REVERSE } }

/-- Tables like `flatLuts` whose pitch table holds at index 192, the index of
+12 semitones, the value `exp2(12 / 12) * 65536 = 131072` of the device. -/
def octaveLuts : Luts :=
  { flatLuts with g_pitch_lut_q16 := fun i => if i = 192 then 131072 else 65536 }

/-- The cast `(Pot4Mode)n` of a number below `POT4_MODE_COUNT`. -/
def Pot4Mode.cast : Nat → Pot4Mode
  | 0 => .MODE_TEXTURE
  | 1 => .MODE_SPREAD
  | 2 => .MODE_FEEDBACK
  | 3 => .MODE_LOOP_LENGTH
  | _ => .MODE_CLK_RESOLUTION

/-- The value `(float)esp_random() / (float)UINT32_MAX` for the draw `r`
(`esp_random()` returns a `uint32_t`). -/
def randomFloat (r : Nat) : ℚ := ((r % 4294967296 : Nat) : ℚ) / 4294967295

/-- The loop that fills the deja-vu ring with random entries (source lines
706-711 and 974-979); `rnd k` is the value returned by the `k`-th call of
`esp_random()`.  The subtraction `(esp_random() % 240) - 120` is done in
`uint32_t`. -/
def randomizeEntries (rnd : Nat → Nat) (buf : Nat → ParamSnapshot) : Nat → ParamSnapshot :=
  (List.range DEJA_VU_BUFFER_SIZE).foldl
    (fun b i =>
      Function.update b i
        { position_q15 := toInt16 ((rnd (4 * i) % 32768 : Nat) : Int)
          size_q15 := toInt16 (1000 + ((rnd (4 * i + 1) % 31767 : Nat) : Int))
          pitch_f := ((toUInt32 (((rnd (4 * i + 2) % 240 : Nat) : Int) - 120) : Nat) : ℚ) / 10
          texture_q15 := toInt16 ((rnd (4 * i + 3) % 32768 : Nat) : Int) })
    buf

/-- The function `randomizeDejaVuBuffer`; `rnd k` is the value returned by the
`k`-th call of `esp_random()` made during this call (calls 0..63 fill the ring)
and `now_ms` the value of `millis()`. -/
def randomizeDejaVuBuffer (rnd : Nat → Nat) (now_ms : Nat) (s : State) : State :=
  let s1 : State := { s with g_deja_vu_buffer := randomizeEntries rnd s.g_deja_vu_buffer }
  let random_float : ℚ := randomFloat (rnd 70)
  let s2 : State :=
    { s1 with
      g_params :=
        { s1.g_params with
          position_q15 := toInt16 ((rnd 64 % 32768 : Nat) : Int)
          size_q15 := toInt16 (1000 + ((rnd 65 % 31767 : Nat) : Int))
          deja_vu_q15 := toInt16 ((rnd 66 % 32768 : Nat) : Int)
          texture_q15 := toInt16 ((rnd 67 % 32768 : Nat) : Int)
          stereoSpread_q15 := toInt16 ((rnd 68 % 32768 : Nat) : Int)
          feedback_q15 := g_feedback_lut_q15 (rnd 69 % FEEDBACK_LUT_SIZE)
          dryWet_q15 := 32767
          pitch_f := PITCH_RANDOM_MIN + PITCH_RANDOM_RANGE * random_float
          loop_length := 2 + ((rnd 71 % (DEJA_VU_BUFFER_SIZE - 1) : Nat) : Int)
          mode := if rnd 72 % 2 = 0 then .MODE_GRANULAR else .MODE_REVERSE }
      g_pot4_mode := Pot4Mode.cast (rnd 73 % POT4_MODE_COUNT)
      g_current_resolution_index := ((rnd 74 % 7 : Nat) : Int)
      g_deja_vu_step := 0 }
  let s3 : State := enablePitchSoftTakeover s2.g_params.pitch_f s2
  invalidateDisplayCache
    { s3 with
      g_randomize_flash_active := true
      g_randomize_flash_start := now_ms }

/-- The values stored in slot `i` by the second loop of `initializeSnapshots`
(source lines 981-999); the draws of slot `i` are the calls `64 + 11 * i` to
`74 + 11 * i`. -/
def randomSnapshot (rnd : Nat → Nat) (i : Nat) : FullParamSnapshot :=
  let k : Nat := 64 + 11 * i
  let random_float : ℚ := randomFloat (rnd (k + 6))
  { position_q15 := toInt16 ((rnd k % 32768 : Nat) : Int)
    size_q15 := toInt16 (1000 + ((rnd (k + 1) % 31767 : Nat) : Int))
    deja_vu_q15 := toInt16 ((rnd (k + 2) % 32768 : Nat) : Int)
    texture_q15 := toInt16 ((rnd (k + 3) % 32768 : Nat) : Int)
    stereoSpread_q15 := toInt16 ((rnd (k + 4) % 32768 : Nat) : Int)
    feedback_q15 := g_feedback_lut_q15 (rnd (k + 5) % FEEDBACK_LUT_SIZE)
    pitch_f := PITCH_RANDOM_MIN + PITCH_RANDOM_RANGE * random_float
    loop_length := 2 + ((rnd (k + 7) % (DEJA_VU_BUFFER_SIZE - 1) : Nat) : Int)
    mode := if rnd (k + 8) % 2 = 0 then .MODE_GRANULAR else .MODE_REVERSE
    pot4_mode := Pot4Mode.cast (rnd (k + 9) % POT4_MODE_COUNT)
    resolution_index := 3 + ((rnd (k + 10) % 4 : Nat) : Int)
    dryWet_q15 := if i < 3 then 32767 else 0 }

/-- The function `initializeSnapshots`; `rnd k` is the value returned by the
`k`-th call of `esp_random()` made during this call. -/
def initializeSnapshots (rnd : Nat → Nat) (s : State) : State :=
  let s1 : State := { s with g_deja_vu_buffer := randomizeEntries rnd s.g_deja_vu_buffer }
  let s2 : State :=
    (List.range 4).foldl
      (fun st i =>
        { st with
          g_snapshots := Function.update st.g_snapshots i (randomSnapshot rnd i)
          g_snapshots_initialized := Function.update st.g_snapshots_initialized i true })
      s1
  let s3 : State := loadSnapshot 0 s2
  enablePitchSoftTakeover s3.g_params.pitch_f s3

/-- The method `ButtonState::init`. -/
def ButtonState.init (b : ButtonState) : ButtonState :=
  { b with currentState := true, lastState := true, pressStartTime := 0 }

/-- The part of `setup` that writes the modelled globals; `bt_connected` is the
value of `a2dp_sink.is_connected()` and `rnd` the draws of
`initializeSnapshots`. -/
def setup (rnd : Nat → Nat) (bt_connected : Bool) (s : State) : State :=
  let s1 : State :=
    { s with
      g_ringBuffer := s.g_ringBuffer.init
      g_grains := fun i => if i < MAX_GRAINS then (s.g_grains i).reset else s.g_grains i
      g_grainBuffer := fun i => if i < GRAIN_BUFFER_SIZE then 0 else s.g_grainBuffer i }
  let s2 : State := invalidateDisplayCache s1
  let s3 : State :=
    { s2 with
      g_display_cache := { s2.g_display_cache with bt_connected := !bt_connected }
      g_button := s2.g_button.init
      g_pot4_button := s2.g_pot4_button.init
      g_mode_button := s2.g_mode_button.init
      g_snapshot_button := fun i =>
        if i < 4 then (s2.g_snapshot_button i).init else s2.g_snapshot_button i }
  let s4 : State :=
    { s3 with
      g_params :=
        { s3.g_params with
          texture_q15 := 0
          stereoSpread_q15 := 29490
          feedback_q15 := g_feedback_lut_q15 51
          loop_length := 16 } }
  initializeSnapshots rnd s4

/-! ## Buttons -/

/-- The index of a pin in the static arrays of `handleButtonDebounce`. -/
def buttonIndex (pin : Nat) : Nat :=
  if pin = BUTTON_PIN then 0
  else if pin = POT4_BUTTON_PIN then 1
  else if pin = MODE_BUTTON_PIN then 2
  else if pin = SNAPSHOT_1_BUTTON_PIN then 3
  else if pin = SNAPSHOT_2_BUTTON_PIN then 4
  else if pin = SNAPSHOT_3_BUTTON_PIN then 5
  else 6

/-- The function `handleButtonDebounce`; `reading` is the value of
`digitalRead(pin)` (`true` is `HIGH`), `t_edge` and `t_check` the values of its
two `millis()` calls.  Returns the result, the button and the state with the
updated statics. -/
def handleButtonDebounce (b : ButtonState) (pin : Nat) (reading : Bool) (t_edge t_check : Nat)
    (s : State) : Bool × ButtonState × State :=
  let idx : Nat := buttonIndex pin
  let s1 : State :=
    if reading ≠ s.lastReading idx then
      { s with lastDebounceTime := Function.update s.lastDebounceTime idx t_edge }
    else s
  let s2 : State := { s1 with lastReading := Function.update s1.lastReading idx reading }
  if toUInt32 ((t_check : Int) - (s2.lastDebounceTime idx : Int)) > BUTTON_DEBOUNCE_MS then
    if reading ≠ b.currentState then (true, { b with currentState := reading }, s2)
    else (false, b, s2)
  else (false, b, s2)

/-- The press-start update shared by the button handlers:
`if (lastState == HIGH && currentState == LOW) pressStartTime = millis()`. -/
def notePressStart (b : ButtonState) (t_press : Nat) : ButtonState :=
  if b.lastState = true ∧ b.currentState = false then { b with pressStartTime := t_press } else b

/-- The function `updateMainButton`.  `millis k` is the value of the `k`-th
`millis()` call site of the handler (0 and 1 in the debounce, 2 at press start,
3 at release, 4 inside `updateTempo` or `randomizeDejaVuBuffer`, 5 inside
`handleDejaVuTrigger`), `now_us` the value of `micros()`, and `rnd` the draws of
the callee. -/
def updateMainButton (L : Luts) (reading : Bool) (millis : Nat → Nat) (now_us : Nat)
    (rnd : Nat → Nat) (s : State) : State :=
  let r := handleButtonDebounce s.g_button BUTTON_PIN reading (millis 0) (millis 1) s
  let s1 : State := { r.2.2 with g_button := notePressStart r.2.1 (millis 2) }
  let s2 : State :=
    if s1.g_button.lastState = false ∧ s1.g_button.currentState = true then
      let pressDuration : Nat := toUInt32 ((millis 3 : Int) - (s1.g_button.pressStartTime : Int))
      if pressDuration < BUTTON_LONG_PRESS_MS then
        let s3 : State := updateTempo now_us (millis 4) s1
        let s4 : State :=
          if s3.g_last_manual_tap_time_us = 0 ∨
              toUInt32 ((now_us : Int) - (s3.g_last_manual_tap_time_us : Int))
                ≥ TAP_TEMPO_TIMEOUT_US then
            handleDejaVuTrigger L rnd (millis 5) s3
          else s3
        { s4 with g_last_manual_tap_time_us := now_us }
      else randomizeDejaVuBuffer rnd (millis 4) s1
    else s1
  { s2 with g_button := { s2.g_button with lastState := s2.g_button.currentState } }

/-- The function `updatePot4Button`; `millis` as in `updateMainButton`. -/
def updatePot4Button (reading : Bool) (millis : Nat → Nat) (s : State) : State :=
  let r := handleButtonDebounce s.g_pot4_button POT4_BUTTON_PIN reading (millis 0) (millis 1) s
  let s1 : State := { r.2.2 with g_pot4_button := notePressStart r.2.1 (millis 2) }
  let s2 : State :=
    if s1.g_pot4_button.lastState = false ∧ s1.g_pot4_button.currentState = true then
      if toUInt32 ((millis 3 : Int) - (s1.g_pot4_button.pressStartTime : Int))
          < BUTTON_LONG_PRESS_MS then
        { s1 with g_pot4_mode := Pot4Mode.cast ((s1.g_pot4_mode.toNat + 1) % POT4_MODE_COUNT) }
      else s1
    else s1
  { s2 with g_pot4_button := { s2.g_pot4_button with lastState := s2.g_pot4_button.currentState } }

/-- The function `updateModeButton`; `millis` as in `updateMainButton` (call
site 4 is the flash start), `rnd` the draws of `initializeSnapshots`. -/
def updateModeButton (reading : Bool) (millis : Nat → Nat) (rnd : Nat → Nat) (s : State) :
    State :=
  let r := handleButtonDebounce s.g_mode_button MODE_BUTTON_PIN reading (millis 0) (millis 1) s
  let s1 : State := { r.2.2 with g_mode_button := notePressStart r.2.1 (millis 2) }
  let s2 : State :=
    if s1.g_mode_button.lastState = false ∧ s1.g_mode_button.currentState = true then
      let pressDuration : Nat :=
        toUInt32 ((millis 3 : Int) - (s1.g_mode_button.pressStartTime : Int))
      if pressDuration < BUTTON_LONG_PRESS_MS then
        { s1 with
          g_params :=
            { s1.g_params with
              mode :=
                if s1.g_params.mode = .MODE_GRANULAR then .MODE_REVERSE else .MODE_GRANULAR } }
      else
        let s3 : State := initializeSnapshots rnd s1
        invalidateDisplayCache
          { s3 with
            g_randomize_flash_active := true
            g_randomize_flash_start := millis 4 }
    else s1
  { s2 with g_mode_button := { s2.g_mode_button with lastState := s2.g_mode_button.currentState } }

/-- The pin of snapshot button `i` (the array `pins` of
`updateSnapshotButtons`). -/
def snapshotPin (i : Nat) : Nat :=
  match i with
  | 0 => SNAPSHOT_1_BUTTON_PIN
  | 1 => SNAPSHOT_2_BUTTON_PIN
  | 2 => SNAPSHOT_3_BUTTON_PIN
  | _ => SNAPSHOT_4_BUTTON_PIN

/-- One iteration of the loop of `updateSnapshotButtons` for button `i`;
`reading i` is the pin level and `millis i k` the `k`-th `millis()` call site of
the iteration (4 inside `saveSnapshot`). -/
def snapshotButtonIteration (reading : Nat → Bool) (millis : Nat → Nat → Nat) (i : Nat)
    (s : State) : State :=
  let r := handleButtonDebounce (s.g_snapshot_button i) (snapshotPin i) (reading i)
    (millis i 0) (millis i 1) s
  let s1 : State :=
    { r.2.2 with
      g_snapshot_button :=
        Function.update r.2.2.g_snapshot_button i (notePressStart r.2.1 (millis i 2)) }
  let s2 : State :=
    if (s1.g_snapshot_button i).lastState = false ∧ (s1.g_snapshot_button i).currentState = true
    then
      let pressDuration : Nat :=
        toUInt32 ((millis i 3 : Int) - ((s1.g_snapshot_button i).pressStartTime : Int))
      if pressDuration ≥ BUTTON_LONG_PRESS_MS then saveSnapshot (i : Int) (millis i 4) s1
      else loadSnapshot (i : Int) s1
    else s1
  { s2 with
    g_snapshot_button :=
      Function.update s2.g_snapshot_button i
        { s2.g_snapshot_button i with lastState := (s2.g_snapshot_button i).currentState } }

/-- The function `updateSnapshotButtons`. -/
def updateSnapshotButtons (reading : Nat → Bool) (millis : Nat → Nat → Nat) (s : State) : State :=
  (List.range 4).foldl (fun st i => snapshotButtonIteration reading millis i st) s

/-! ## Parameter validity -/

/-- A Q15 parameter value lies in `0..32767`. -/
@[reducible] def IsQ15 (x : Int) : Prop := 0 ≤ x ∧ x ≤ 32767

/-- Valid live parameters: the seven Q15 values in `0..32767`, the loop length
in `2..16` and the pitch in `[-24, 24]`. -/
@[reducible] def GranParams.Valid (p : GranParams) : Prop :=
  IsQ15 p.position_q15 ∧ IsQ15 p.size_q15 ∧ IsQ15 p.deja_vu_q15 ∧ IsQ15 p.texture_q15 ∧
  IsQ15 p.stereoSpread_q15 ∧ IsQ15 p.feedback_q15 ∧ IsQ15 p.dryWet_q15 ∧
  (2 ≤ p.loop_length ∧ p.loop_length ≤ 16) ∧ (-24 ≤ p.pitch_f ∧ p.pitch_f ≤ 24)

/-- A stored parameter set whose values are valid live parameters. -/
@[reducible] def FullParamSnapshot.Valid (f : FullParamSnapshot) : Prop :=
  IsQ15 f.position_q15 ∧ IsQ15 f.size_q15 ∧ IsQ15 f.deja_vu_q15 ∧ IsQ15 f.texture_q15 ∧
  IsQ15 f.stereoSpread_q15 ∧ IsQ15 f.feedback_q15 ∧ IsQ15 f.dryWet_q15 ∧
  (2 ≤ f.loop_length ∧ f.loop_length ≤ 16) ∧ (-24 ≤ f.pitch_f ∧ f.pitch_f ≤ 24)

/-- The parameter invariant: valid live parameters, a clock-resolution index in
`0..6`, valid contents in every initialised snapshot slot and a deja-vu step in
`0..15`. -/
@[reducible] def ParamInv (s : State) : Prop :=
  s.g_params.Valid ∧
  (0 ≤ s.g_current_resolution_index ∧ s.g_current_resolution_index ≤ 6) ∧
  (∀ i : Nat, i < 4 → s.g_snapshots_initialized i = true → (s.g_snapshots i).Valid) ∧
  (0 ≤ s.g_deja_vu_step ∧ s.g_deja_vu_step < 16)

/-- The states reachable after `setup`, run on the state of the static
initialisers, by the parameter-writing operations and by trigger events. -/
inductive ParamReachable (L : Luts) : State → Prop
  | setup (rnd : Nat → Nat) (bt_connected : Bool) :
    ParamReachable L (setup rnd bt_connected initialState)
  | pots (analogRead : Nat → Nat → Nat) {s : State} :
    ParamReachable L s → ParamReachable L (updateParametersFromPots analogRead s)
  | randomize (rnd : Nat → Nat) (now_ms : Nat) {s : State} :
    ParamReachable L s → ParamReachable L (randomizeDejaVuBuffer rnd now_ms s)
  | snapshots (rnd : Nat → Nat) {s : State} :
    ParamReachable L s → ParamReachable L (initializeSnapshots rnd s)
  | save (slot : Int) (now_ms : Nat) {s : State} :
    ParamReachable L s → ParamReachable L (saveSnapshot slot now_ms s)
  | load (slot : Int) {s : State} :
    ParamReachable L s → ParamReachable L (loadSnapshot slot s)
  | trigger (rnd : Nat → Nat) (now_ms : Nat) {s : State} :
    ParamReachable L s → ParamReachable L (handleDejaVuTrigger L rnd now_ms s)

/-! ## Control task and audio engine state -/

/-- The states `s` and `t` have the same grain pool, active-index list and
count, beat interval and clock schedules. -/
@[reducible] def SameEngine (s t : State) : Prop :=
  t.g_grains = s.g_grains ∧ t.g_activeGrainIndices = s.g_activeGrainIndices ∧
  t.g_activeGrainCount = s.g_activeGrainCount ∧
  t.g_beat_interval_us = s.g_beat_interval_us ∧
  t.g_next_internal_trigger_time_us = s.g_next_internal_trigger_time_us ∧
  t.g_next_raw_beat_time_us = s.g_next_raw_beat_time_us

/-- The condition under which `updateMainButton` takes its short-press branch
(source lines 1098-1100): after the debounce and the press-start update the
button went from `LOW` to `HIGH` and the press lasted less than
`BUTTON_LONG_PRESS_MS`. -/
def mainButtonShortRelease (reading : Bool) (millis : Nat → Nat) (s : State) : Bool :=
  let r := handleButtonDebounce s.g_button BUTTON_PIN reading (millis 0) (millis 1) s
  let b : ButtonState := notePressStart r.2.1 (millis 2)
  decide (b.lastState = false ∧ b.currentState = true ∧
    toUInt32 ((millis 3 : Int) - (b.pressStartTime : Int)) < BUTTON_LONG_PRESS_MS)

/-- The ready state with the main button held since `millis() = 900` and the
pin read `HIGH` again since `millis() = 1000`. -/
def pressedState : State :=
  { readyState with
    g_button := { currentState := false, lastState := false, pressStartTime := 900 }
    lastDebounceTime := fun i => if i = 0 then 1000 else 0 }

/-! ## Deja-vu ring index -/

/-- The ring index `current_step_in_loop` that `handleDejaVuTrigger` computes
(source line 645): `g_deja_vu_step % g_params.loop_length`. -/
def ringIndex (s : State) : Int := Int.tmod s.g_deja_vu_step s.g_params.loop_length

/-- A ready state whose ten pool slots are all active and listed. -/
def fullPoolState : State :=
  { readyState with
    g_grains := fun _ => lastSampleGrain
    g_activeGrainIndices := fun i => i
    g_activeGrainCount := 10
    g_deja_vu_step := 15 }

/-- A ready state with loop length 3 whose step counter is at the last ring
slot. -/
def loopThreeState : State :=
  { readyState with
    g_params := { readyState.g_params with loop_length := 3 }
    g_deja_vu_step := 15 }

/-! ## Grain length, position advance and window index -/

/-- The window-table index that `renderGrain` computes (source line 793):
`((uint32_t)pos_int * reciprocal_length_q32) >> 25`, truncated to 16 bits. -/
def windowIndex (pos_int reciprocal : Nat) : Nat :=
  toUInt16 ((toUInt32 ((pos_int : Int) * (reciprocal : Int)) >>> (25 : Nat) : Nat) : Int)

/-- The reciprocal constant that `triggerGrain` selects for a grain of the given
length (source lines 750-751). -/
def reciprocalFor (length : Nat) : Nat :=
  let lut_idx : Nat :=
    toUInt16 (Int.tdiv (((length : Int) - MIN_GRAIN_SIZE) * ((RECIPROCAL_LUT_SIZE : Int) - 1))
      (MAX_GRAIN_SIZE - MIN_GRAIN_SIZE))
  g_reciprocal_lut_q32 (min lut_idx (RECIPROCAL_LUT_SIZE - 1))

/-- Trigger parameters with the largest base size, zero texture and a pitch of
+12 semitones (speed 2.0). -/
def longOctave : ParamSnapshot :=
  { position_q15 := 0, size_q15 := 32767, pitch_f := 12, texture_q15 := 0 }

/-- The grain that `triggerGrain` stores in slot 0 for `longOctave` in the
forward-mode state `written20000`. -/
def longOctaveGrain : Grain := (triggerGrain octaveLuts 0 longOctave written20000).g_grains 0

/-- Trigger parameters with the smallest base size and zero texture. -/
def shortGrainParams : ParamSnapshot :=
  { position_q15 := 0, size_q15 := 0, pitch_f := 0, texture_q15 := 0 }

/-! ## Trigger events and the deja-vu ring -/

def BPM_LED_PULSE_DURATION_MS : Nat := 20

/-- The table `g_resolutions` (`{0.25f, 0.3333333f, 0.5f, 1.0f, 2.0f, 3.0f,
4.0f}`); the literal `0.3333333f` is the binary32 value nearest to the decimal
(`5592405 / 2 ^ 24`), the other entries are binary32 values as written.
Indices above 6 are outside the C array; the model returns 1 there. -/
def g_resolutions (i : Nat) : ℚ :=
  match i with
  | 0 => 1 / 4
  | 1 => f32 (3333333 / 10000000)
  | 2 => 1 / 2
  | 3 => 1
  | 4 => 2
  | 5 => 3
  | 6 => 4
  | _ => 1

/-- The value `internal_interval` of `granularTask` (source line 546):
`(unsigned long)(g_beat_interval_us / g_resolutions[g_current_resolution_index])`.
The `unsigned long` beat interval is converted to `float`, the division is a
binary32 division, and the quotient is truncated toward zero. -/
def scaledInterval (beat_interval_us : Nat) (resolution_index : Int) : Nat :=
  toUInt32 (truncf (f32 (f32 (beat_interval_us : ℚ) / g_resolutions resolution_index.toNat)))

/-- The musical-clock poll of `granularTask` (source lines 544-548);
`current_time_us` is the value of `micros()` read at the top of the loop,
`now_ms` and `rnd` are the inputs of `handleDejaVuTrigger`. -/
def pollInternalClock (L : Luts) (rnd : Nat → Nat) (current_time_us now_ms : Nat) (s : State) :
    State :=
  if current_time_us ≥ s.g_next_internal_trigger_time_us ∧
      s.g_next_internal_trigger_time_us > 0 then
    let s1 : State := handleDejaVuTrigger L rnd now_ms s
    let internal_interval : Nat := scaledInterval s1.g_beat_interval_us s1.g_current_resolution_index
    { s1 with
      g_next_internal_trigger_time_us :=
        toUInt32 ((s1.g_next_internal_trigger_time_us : Int) + (internal_interval : Int)) }
  else s

/-- The raw-beat clock poll of `granularTask` (source lines 551-557); `now_ms`
is the value of `millis()`. -/
def pollRawClock (current_time_us now_ms : Nat) (s : State) : State :=
  if current_time_us ≥ s.g_next_raw_beat_time_us ∧ s.g_next_raw_beat_time_us > 0 then
    { s with
      g_raw_beat_led_on := true
      g_raw_beat_led_start_time := now_ms
      g_next_raw_beat_time_us :=
        toUInt32 ((s.g_next_raw_beat_time_us : Int) + (s.g_beat_interval_us : Int)) }
  else s

/-- One iteration of the loop of `granularTask` (source lines 535-574).  `isr`
is `some t` when the trigger interrupt has set `g_trigger_received_isr` with
`g_last_trigger_time_isr = t`; `millis k` is the value of the `k`-th `millis()`
call site (0 in `updateTempo`, 1 in `handleDejaVuTrigger`, 2 at the raw-beat
fire, 3 in the LED pulse test); `inputSample` is the initial value of the local
variable passed to `read`. -/
def granularTaskIteration (L : Luts) (isr : Option Nat) (current_time_us : Nat)
    (millis : Nat → Nat) (rnd : Nat → Nat) (inputSample : Int) (s : State) : State :=
  let s0 : State :=
    match isr with
    | some isr_time => updateTempo isr_time (millis 0) s
    | none => s
  let s1 : State := pollInternalClock L rnd current_time_us (millis 1) s0
  let s2 : State := pollRawClock current_time_us (millis 2) s1
  let s3 : State :=
    if s2.g_raw_beat_led_on then
      if toUInt32 ((millis 3 : Int) - (s2.g_raw_beat_led_start_time : Int))
          > BPM_LED_PULSE_DURATION_MS then
        { s2 with g_raw_beat_led_on := false }
      else s2
    else s2
  let r := s3.g_ringBuffer.read inputSample
  if r.1 then (processAudioSample L r.2.1 { s3 with g_ringBuffer := r.2.2 }).1
  else s3

/-- A ready state whose two clocks are scheduled at `micros() = 4294900000`,
about 67 ms before the 32-bit microsecond counter wraps, with the default beat
interval of 500000 us at resolution x1. -/
def lateClockState : State :=
  { readyState with
    g_next_internal_trigger_time_us := 4294900000
    g_next_raw_beat_time_us := 4294900000 }

/-! ## The input queue as a first-in first-out queue -/

/-- One call on the input queue: `write x` or `read`. -/
inductive QueueOp where
  | write (x : Int)
  | read

/-- The bookkeeping of a run of queue calls: the queue, the samples accepted by
successful writes and the samples returned by successful reads, both in call
order. -/
structure QueueRun where
  rb : AudioRingBuffer
  accepted : List Int
  returned : List Int

/-- One call of `AudioRingBuffer::write` or `AudioRingBuffer::read`, with the
bookkeeping updated from the result of the call. -/
def queueStep (st : QueueRun) (op : QueueOp) : QueueRun :=
  match op with
  | .write x =>
    let r := st.rb.write x
    { rb := r.2
      accepted := if r.1 then st.accepted ++ [x] else st.accepted
      returned := st.returned }
  | .read =>
    let r := st.rb.read 0
    { rb := r.2.2
      accepted := st.accepted
      returned := if r.1 then st.returned ++ [r.2.1] else st.returned }

/-- A sequence of queue calls run on a queue, starting with empty bookkeeping. -/
def runQueue (ops : List QueueOp) (rb : AudioRingBuffer) : QueueRun :=
  ops.foldl queueStep { rb := rb, accepted := [], returned := [] }

/-- The number of stored samples: `(writePos - readPos) mod 4096`. -/
def AudioRingBuffer.count (rb : AudioRingBuffer) : Nat :=
  (rb.writePos + RING_BUFFER_SIZE - rb.readPos) % RING_BUFFER_SIZE

/-- The stored samples, oldest first: the slots from the read position up to
the write position. -/
def AudioRingBuffer.contents (rb : AudioRingBuffer) : List Int :=
  (List.range rb.count).map (fun i => rb.data ((rb.readPos + i) % RING_BUFFER_SIZE))

/-! ## One render pass -/

/-- Whether the grain in slot `grain_idx` of `s` is still active after one
`renderGrain` call. -/
def survives (L : Luts) (s : State) (grain_idx : Nat) : Bool :=
  (renderGrain L s (s.g_grains grain_idx)).2.active

/-- One listed grain of `s` added to the pair of wet accumulators: the slot is
rendered once and, if the grain is still active, its sample is scaled by the
two pan gains and added, as the body of the loop of `renderAllGrains` does. -/
def mixGrain (L : Luts) (s : State) (acc : Int × Int) (grain_idx : Nat) : Int × Int :=
  if survives L s grain_idx then
    (toInt32 (acc.1 + (toInt32 ((renderGrain L s (s.g_grains grain_idx)).1 *
        (renderGrain L s (s.g_grains grain_idx)).2.panL_q15) >>> (15 : Nat))),
      toInt32 (acc.2 + (toInt32 ((renderGrain L s (s.g_grains grain_idx)).1 *
        (renderGrain L s (s.g_grains grain_idx)).2.panR_q15) >>> (15 : Nat))))
  else acc

/-- A ready state in forward mode whose active list is `[4, 1, 7]`: the grains
in slots 4 and 7 are at their first sample, the grain in slot 1 has played all
of its 4000 samples (integer position 4000). -/
def drainDemo : State :=
  { readyState with
    g_grains := fun x =>
      if x = 4 then reverseEndGrain
      else if x = 1 then { lastSampleGrain with position_q16 := 4000 * 65536 }
      else if x = 7 then { reverseEndGrain with startPos := 200 }
      else {}
    g_activeGrainIndices := fun j => if j = 0 then 4 else if j = 1 then 1 else 7
    g_activeGrainCount := 3 }

/-! ## States and tables for the clock, takeover and boundary evaluations -/

/-- The state `tempoDemo` (beat interval 250000, resolution x1) with both clocks
scheduled at 1000. -/
def clockDemo : State :=
  { tempoDemo with
    g_next_internal_trigger_time_us := 1000
    g_next_raw_beat_time_us := 1000 }

/-- The state `demoState` with the pitch of snapshot slot 1 set to 7
semitones. -/
def sevenSemitonesState : State :=
  { demoState with
    g_snapshots := fun k =>
      if k = 1 then
        { position_q15 := 11, size_q15 := 1200, pitch_f := 7, loop_length := 4,
          pot4_mode := .MODE_FEEDBACK, resolution_index := 2 }
      else {} }

/-- C1: for every slot `K` in `0..3` and every state whose clock-resolution
index is in `0..6`, `saveSnapshot K` followed by `loadSnapshot K` restores the
whole live parameter set (position, size, deja-vu, texture, stereo spread,
feedback, dry/wet, pitch, loop length and play mode are exactly the fields of
`g_params`) and the clock-resolution index. -/
theorem snapshot_save_load_roundtrip (K : Int) (now_ms : Nat) (s : State)
    (hK : 0 ≤ K ∧ K ≤ 3)
    (hres : 0 ≤ s.g_current_resolution_index ∧ s.g_current_resolution_index ≤ 6) :
    (loadSnapshot K (saveSnapshot K now_ms s)).g_params = s.g_params ∧
    (loadSnapshot K (saveSnapshot K now_ms s)).g_current_resolution_index =
      s.g_current_resolution_index := by
  obtain ⟨hK0, hK3⟩ := hK
  obtain ⟨hr0, hr6⟩ := hres
  have hsave : ¬ (K < 0 ∨ K ≥ 4) := by omega
  have hload : ¬ (K < 0 ∨ K ≥ 4 ∨
      (saveSnapshot K now_ms s).g_snapshots_initialized K.toNat = false) := by
    simp [saveSnapshot, hsave]
  have hc : constrain s.g_current_resolution_index 0 6 = s.g_current_resolution_index := by
    unfold constrain
    rw [if_neg (by omega), if_neg (by omega)]
  unfold loadSnapshot
  rw [if_neg hload]
  simp [saveSnapshot, hsave, invalidateDisplayCache, enablePitchSoftTakeover, isfinite, hc]

/-- Witness for C1: slot 2 on `demoState`. -/
theorem snapshot_save_load_roundtrip_witness :
    ((0 : Int) ≤ 2 ∧ (2 : Int) ≤ 3) ∧
    (0 ≤ demoState.g_current_resolution_index ∧ demoState.g_current_resolution_index ≤ 6) ∧
    (loadSnapshot 2 (saveSnapshot 2 0 demoState)).g_params = demoState.g_params ∧
    (loadSnapshot 2 (saveSnapshot 2 0 demoState)).g_current_resolution_index =
      demoState.g_current_resolution_index :=
  ⟨by decide, by decide,
    snapshot_save_load_roundtrip 2 0 demoState (by decide) (by decide)⟩

/-- C2: the secondary-mode selector is captured on save and never restored on
load: `saveSnapshot K` (`K` in `0..3`) stores the current `g_pot4_mode` in slot
`K`, and `loadSnapshot slot` leaves `g_pot4_mode` as it was for every slot and
every state, whatever selector the slot holds. -/
theorem pot4_mode_saved_not_restored (K slot : Int) (now_ms : Nat) (s : State)
    (hK : 0 ≤ K ∧ K ≤ 3) :
    ((saveSnapshot K now_ms s).g_snapshots K.toNat).pot4_mode = s.g_pot4_mode ∧
    (loadSnapshot slot s).g_pot4_mode = s.g_pot4_mode := by
  have hsave : ¬ (K < 0 ∨ K ≥ 4) := by omega
  constructor
  · simp [saveSnapshot, hsave]
  · unfold loadSnapshot
    split
    · rfl
    · simp [invalidateDisplayCache, enablePitchSoftTakeover]

/-- Witness for C2: in `demoState` slot 1 is initialised and holds
`MODE_FEEDBACK` while the live selector is `MODE_SPREAD`; loading slot 1
replaces the live parameters but keeps the selector. -/
theorem pot4_mode_saved_not_restored_witness :
    ((0 : Int) ≤ 0 ∧ (0 : Int) ≤ 3) ∧
    (demoState.g_snapshots 1).pot4_mode ≠ demoState.g_pot4_mode ∧
    (loadSnapshot 1 demoState).g_params.position_q15 = 11 ∧
    ((saveSnapshot 0 0 demoState).g_snapshots (0 : Int).toNat).pot4_mode = demoState.g_pot4_mode ∧
    (loadSnapshot 1 demoState).g_pot4_mode = demoState.g_pot4_mode :=
  ⟨by decide, by decide, by rfl,
    pot4_mode_saved_not_restored 0 1 0 demoState (by decide)⟩

/-- C3: an invalid snapshot request is a no-op.  `loadSnapshot slot` with
`slot < 0`, `slot >= 4` or an uninitialised slot returns the state unchanged
(live parameters, resolution index, soft-takeover flag and target, all slots);
`saveSnapshot slot` with `slot` outside `0..3` returns the state unchanged. -/
theorem invalid_snapshot_request_noop (slot : Int) (now_ms : Nat) (s : State) :
    ((slot < 0 ∨ slot ≥ 4 ∨ s.g_snapshots_initialized slot.toNat = false) →
      loadSnapshot slot s = s) ∧
    ((slot < 0 ∨ slot ≥ 4) → saveSnapshot slot now_ms s = s) := by
  constructor
  · intro h
    unfold loadSnapshot
    rw [if_pos h]
  · intro h
    unfold saveSnapshot
    rw [if_pos h]

/-- Witness for C3: slot 3 of `demoState` is not initialised, and slot 4 is out
of range. -/
theorem invalid_snapshot_request_noop_witness :
    demoState.g_snapshots_initialized (3 : Int).toNat = false ∧
    loadSnapshot 3 demoState = demoState ∧
    saveSnapshot 4 17 demoState = demoState :=
  ⟨by decide,
    (invalid_snapshot_request_noop 3 0 demoState).1 (Or.inr (Or.inr (by decide))),
    (invalid_snapshot_request_noop 4 17 demoState).2 (Or.inr (by decide))⟩

/-! ## Soft takeover theorems -/

/-- A reading that neither straddles the target nor lies within the deadband
only updates the stored previous reading. -/
theorem potCase4_not_caught (v : ℚ) (s : State)
    (hact : s.g_soft_takeover_active_pitch = true)
    (hnear : ¬ (|v - s.g_soft_takeover_target_pitch| ≤ SOFT_TAKEOVER_DEADBAND))
    (hpass : ∀ p, s.last_val_f 4 = some p →
      ¬ ((p < s.g_soft_takeover_target_pitch ∧ v ≥ s.g_soft_takeover_target_pitch) ∨
         (p > s.g_soft_takeover_target_pitch ∧ v ≤ s.g_soft_takeover_target_pitch))) :
    potCase4 v s = { s with last_val_f := Function.update s.last_val_f 4 (some v) } := by
  unfold potCase4
  rw [if_pos hact]
  cases hl : s.last_val_f 4 with
  | none => simp [hnear]
  | some p =>
    have hp := hpass p hl
    simp only [decide_eq_false hp, decide_eq_false hnear]
    simp

/-- The pitch written by the tail of `case 4`. -/
theorem applyPitchPot_pitch (v : ℚ) (s : State) :
    (applyPitchPot v s).g_params.pitch_f = max (-24) (min 24 ((v - 1 / 2) * 48)) := by
  simp only [applyPitchPot, isfinite, PITCH_RANGE_SEMITONES_HALF, PITCH_RANGE_SEMITONES]
  norm_num
  split_ifs with h1 h2 h3
  · norm_num at h2
  · rw [min_eq_left (le_of_lt h1), max_eq_right (by norm_num)]
  · rw [min_eq_right (not_lt.mp h1), max_eq_left (le_of_lt h3)]
  · rw [min_eq_right (not_lt.mp h1), max_eq_right (not_lt.mp h3)]

/-- While no reading catches the target, feeding readings only changes the
stored previous reading. -/
theorem feedPitchPot_not_caught (vs : List ℚ) :
    ∀ (s : State), s.g_soft_takeover_active_pitch = true →
      NoCatch s.g_soft_takeover_target_pitch (s.last_val_f 4) vs →
      ∀ n : Nat, ∃ f, feedPitchPot (vs.take n) s = { s with last_val_f := f } := by
  induction vs with
  | nil =>
    intro s _ _ n
    exact ⟨s.last_val_f, by simp [feedPitchPot]⟩
  | cons v vs ih =>
    intro s hact h n
    cases n with
    | zero => exact ⟨s.last_val_f, by simp [feedPitchPot]⟩
    | succ n =>
      obtain ⟨hnear, hpass, hrest⟩ := h
      have hstep := potCase4_not_caught v s hact hnear hpass
      have hrest2 : NoCatch (potCase4 v s).g_soft_takeover_target_pitch
          ((potCase4 v s).last_val_f 4) vs := by
        rw [hstep]
        simpa using hrest
      have hact2 : (potCase4 v s).g_soft_takeover_active_pitch = true := by
        rw [hstep]
        exact hact
      obtain ⟨f, hf⟩ := ih (potCase4 v s) hact2 hrest2 n
      refine ⟨f, ?_⟩
      have : feedPitchPot ((v :: vs).take (n + 1)) s = feedPitchPot (vs.take n) (potCase4 v s) := by
        simp [feedPitchPot]
      rw [this, hf, hstep]

/-- A smoothed reading of the pitch pot that passes the change gate reaches
`case 4` with a normalised value in `[0, 1]`. -/
theorem potIteration_pitch (analogRead : Nat → Nat → Nat) (s : State)
    (hgate : |smoothedAdc analogRead 4 - s.last_adc_values 4| > ADC_CHANGE_THRESHOLD) :
    ∃ v : ℚ, 0 ≤ v ∧ v ≤ 1 ∧
      potIteration analogRead 4 s =
        potCase4 v
          { s with
            last_adc_values :=
              Function.update s.last_adc_values 4 (smoothedAdc analogRead 4) } := by
  unfold potIteration
  simp only
  rw [if_pos hgate]
  refine ⟨_, ?_, ?_, rfl⟩
  · split_ifs <;> linarith
  · split_ifs <;> linarith

/-- C4: while pitch soft takeover is active with target `T`, for every sequence
of gated pitch-pot readings none of which is within the 0.03 deadband of `T`
and none of which straddles `T` together with its predecessor, after every
reading (every prefix of the sequence) the live parameters, pitch included,
equal their values before the sequence, the takeover flag is still set, and
`case 4` has written nothing but its own stored previous reading. -/
theorem soft_takeover_holds_pitch (s : State) (vs : List ℚ) (n : Nat)
    (hact : s.g_soft_takeover_active_pitch = true)
    (h : NoCatch s.g_soft_takeover_target_pitch (s.last_val_f 4) vs) :
    (feedPitchPot (vs.take n) s).g_params.pitch_f = s.g_params.pitch_f ∧
    (feedPitchPot (vs.take n) s).g_soft_takeover_active_pitch = true ∧
    (feedPitchPot (vs.take n) s).g_params = s.g_params ∧
    { feedPitchPot (vs.take n) s with last_val_f := s.last_val_f } = s := by
  obtain ⟨f, hf⟩ := feedPitchPot_not_caught vs s hact h n
  rw [hf]
  exact ⟨rfl, hact, rfl, rfl⟩

/-- Witness for C4: target 1/2, previous reading 1/10, readings 1/5, 3/10, 2/5
stay below the target and outside the deadband; the pitch stays 7/2. -/
theorem soft_takeover_holds_pitch_witness :
    demoState.g_soft_takeover_active_pitch = true ∧
    NoCatch demoState.g_soft_takeover_target_pitch (demoState.last_val_f 4)
      [1 / 5, 3 / 10, 2 / 5] ∧
    (feedPitchPot ([1 / 5, 3 / 10, 2 / 5].take 3) demoState).g_params.pitch_f = 7 / 2 ∧
    (feedPitchPot ([1 / 5, 3 / 10, 2 / 5].take 3) demoState).g_soft_takeover_active_pitch = true ∧
    (feedPitchPot ([1 / 5, 3 / 10, 2 / 5].take 3) demoState).g_params = demoState.g_params ∧
    { feedPitchPot ([1 / 5, 3 / 10, 2 / 5].take 3) demoState with
        last_val_f := demoState.last_val_f } = demoState :=
  have hn : NoCatch demoState.g_soft_takeover_target_pitch (demoState.last_val_f 4)
      [1 / 5, 3 / 10, 2 / 5] := by
    simp only [NoCatch, demoState, SOFT_TAKEOVER_DEADBAND]
    refine ⟨by norm_num [abs_le], ?_, by norm_num [abs_le], ?_, by norm_num [abs_le], ?_, trivial⟩
    · intro p hp
      simp only [Option.some.injEq] at hp
      subst hp
      norm_num
    · intro p hp
      simp only [Option.some.injEq] at hp
      subst hp
      norm_num
    · intro p hp
      simp only [Option.some.injEq] at hp
      subst hp
      norm_num
  ⟨rfl, hn, soft_takeover_holds_pitch demoState [1 / 5, 3 / 10, 2 / 5] 3 rfl hn⟩

/-- Conversion to `uint32_t` of a value already in range. -/
theorem toUInt32_of_lt (x : Int) (h0 : 0 ≤ x) (h1 : x < 4294967296) : (toUInt32 x : Int) = x := by
  unfold toUInt32
  omega

/-- An interval inside the window replaces the beat interval and the BPM. -/
theorem updateTempo_accept (t now_ms : Nat) (s : State) (h0 : 0 < s.last_any_tap_time_us)
    (hw : 10000 < toUInt32 ((t : Int) - (s.last_any_tap_time_us : Int)) ∧
      toUInt32 ((t : Int) - (s.last_any_tap_time_us : Int)) < 4000000) :
    (updateTempo t now_ms s).g_beat_interval_us =
        toUInt32 ((t : Int) - (s.last_any_tap_time_us : Int)) ∧
    (updateTempo t now_ms s).g_current_bpm =
        60000000 / (toUInt32 ((t : Int) - (s.last_any_tap_time_us : Int)) : ℚ) := by
  simp [updateTempo, h0, hw, MIN_TEMPO_INTERVAL_US, MAX_TEMPO_INTERVAL_US]

/-- An interval outside the window leaves the beat interval and the BPM. -/
theorem updateTempo_reject (t now_ms : Nat) (s : State) (h0 : 0 < s.last_any_tap_time_us)
    (hw : ¬ (10000 < toUInt32 ((t : Int) - (s.last_any_tap_time_us : Int)) ∧
      toUInt32 ((t : Int) - (s.last_any_tap_time_us : Int)) < 4000000)) :
    (updateTempo t now_ms s).g_beat_interval_us = s.g_beat_interval_us ∧
    (updateTempo t now_ms s).g_current_bpm = s.g_current_bpm := by
  simp only [updateTempo, MIN_TEMPO_INTERVAL_US, MAX_TEMPO_INTERVAL_US, gt_iff_lt]
  rw [if_pos h0, if_neg hw]
  exact ⟨rfl, rfl⟩

/-- C6: for a call `updateTempo t` after a previous trigger at `t0 > 0`, with
`d = (t - t0) mod 2^32`: if `10000 < d < 4000000` the beat interval becomes
exactly `d` (and the BPM estimate `60000000 / d`); for every other `d` the beat
interval and the BPM estimate are unchanged; as the stored beat interval always
lies inside the window, it equals `d` afterwards iff `d` is inside the window.
For the very first trigger (`t0 = 0`) both are unchanged. -/
theorem updateTempo_interval_window (t now_ms : Nat) (s : State) :
    (0 < s.last_any_tap_time_us →
      ((10000 < toUInt32 ((t : Int) - (s.last_any_tap_time_us : Int)) ∧
          toUInt32 ((t : Int) - (s.last_any_tap_time_us : Int)) < 4000000) →
        (updateTempo t now_ms s).g_beat_interval_us =
            toUInt32 ((t : Int) - (s.last_any_tap_time_us : Int)) ∧
        (updateTempo t now_ms s).g_current_bpm =
            60000000 / (toUInt32 ((t : Int) - (s.last_any_tap_time_us : Int)) : ℚ)) ∧
      (¬ (10000 < toUInt32 ((t : Int) - (s.last_any_tap_time_us : Int)) ∧
          toUInt32 ((t : Int) - (s.last_any_tap_time_us : Int)) < 4000000) →
        (updateTempo t now_ms s).g_beat_interval_us = s.g_beat_interval_us ∧
        (updateTempo t now_ms s).g_current_bpm = s.g_current_bpm) ∧
      ((10000 < s.g_beat_interval_us ∧ s.g_beat_interval_us < 4000000) →
        ((updateTempo t now_ms s).g_beat_interval_us =
            toUInt32 ((t : Int) - (s.last_any_tap_time_us : Int)) ↔
          (10000 < toUInt32 ((t : Int) - (s.last_any_tap_time_us : Int)) ∧
            toUInt32 ((t : Int) - (s.last_any_tap_time_us : Int)) < 4000000)))) ∧
    (s.last_any_tap_time_us = 0 →
      (updateTempo t now_ms s).g_beat_interval_us = s.g_beat_interval_us ∧
      (updateTempo t now_ms s).g_current_bpm = s.g_current_bpm) ∧
    ((10000 < s.g_beat_interval_us ∧ s.g_beat_interval_us < 4000000) →
      10000 < (updateTempo t now_ms s).g_beat_interval_us ∧
      (updateTempo t now_ms s).g_beat_interval_us < 4000000) := by
  refine ⟨?_, ?_, ?_⟩
  · intro h0
    refine ⟨?_, ?_, ?_⟩
    · intro hw
      exact updateTempo_accept t now_ms s h0 hw
    · intro hw
      exact updateTempo_reject t now_ms s h0 hw
    · intro hb
      by_cases hw : 10000 < toUInt32 ((t : Int) - (s.last_any_tap_time_us : Int)) ∧
          toUInt32 ((t : Int) - (s.last_any_tap_time_us : Int)) < 4000000
      · simp [(updateTempo_accept t now_ms s h0 hw).1, hw]
      · rw [(updateTempo_reject t now_ms s h0 hw).1]
        constructor
        · intro he
          rw [he] at hb
          exact absurd hb hw
        · intro hw2
          exact absurd hw2 hw
  · intro h0
    simp [updateTempo, h0]
  · intro hb
    simp only [updateTempo, MIN_TEMPO_INTERVAL_US, MAX_TEMPO_INTERVAL_US, gt_iff_lt]
    split_ifs with h1 h2
    · exact h2
    · exact hb
    · exact hb

/-- Witness for C6: a trigger at 1000 us followed by one 500000 us later turns
a beat interval of 250000 us into 500000 us, i.e. 120 BPM; a trigger
50000000 us after a previous one leaves the interval alone. -/
theorem updateTempo_interval_window_witness :
    0 < tempoDemo.last_any_tap_time_us ∧
    (10000 < toUInt32 (((501000 : Nat) : Int) - (tempoDemo.last_any_tap_time_us : Int)) ∧
      toUInt32 (((501000 : Nat) : Int) - (tempoDemo.last_any_tap_time_us : Int)) < 4000000) ∧
    (updateTempo 501000 7 tempoDemo).g_beat_interval_us = 500000 ∧
    (updateTempo 501000 7 tempoDemo).g_current_bpm = 120 ∧
    (updateTempo 50001000 7 tempoDemo).g_beat_interval_us = 250000 :=
  have hd : toUInt32 (((501000 : Nat) : Int) - (tempoDemo.last_any_tap_time_us : Int)) = 500000 := by
    decide
  have hw : 10000 < toUInt32 (((501000 : Nat) : Int) - (tempoDemo.last_any_tap_time_us : Int)) ∧
      toUInt32 (((501000 : Nat) : Int) - (tempoDemo.last_any_tap_time_us : Int)) < 4000000 := by
    rw [hd]
    decide
  have h := (updateTempo_interval_window 501000 7 tempoDemo).1 (by decide)
  have h2 := (updateTempo_interval_window 50001000 7 tempoDemo).1 (by decide)
  ⟨by decide, hw, by rw [(h.1 hw).1, hd], by rw [(h.1 hw).2, hd]; norm_num,
    (h2.2.1 (by decide)).1⟩

/-- C7: every call `updateTempo t`, whether or not the interval is accepted,
leaves the next musical-trigger time and the next raw-beat time equal to `t`;
in particular after triggers at `t0 > 0` and `t0 + 500000`, a third trigger
50000000 us later leaves the beat interval at 500000 and sets both schedules
to the third timestamp. -/
theorem updateTempo_rearms_both_clocks (t now_ms : Nat) (s : State) :
    ((updateTempo t now_ms s).g_next_internal_trigger_time_us = t ∧
      (updateTempo t now_ms s).g_next_raw_beat_time_us = t) ∧
    (0 < t → t + 50500000 < 4294967296 →
      (updateTempo (t + 500000) now_ms (updateTempo t now_ms s)).g_beat_interval_us = 500000 ∧
      (updateTempo (t + 500000 + 50000000) now_ms
        (updateTempo (t + 500000) now_ms (updateTempo t now_ms s))).g_beat_interval_us = 500000 ∧
      (updateTempo (t + 500000 + 50000000) now_ms
        (updateTempo (t + 500000) now_ms (updateTempo t now_ms s))).g_next_internal_trigger_time_us
          = t + 500000 + 50000000 ∧
      (updateTempo (t + 500000 + 50000000) now_ms
        (updateTempo (t + 500000) now_ms (updateTempo t now_ms s))).g_next_raw_beat_time_us
          = t + 500000 + 50000000) := by
  have hsched : ∀ (u n : Nat) (st : State),
      (updateTempo u n st).g_next_internal_trigger_time_us = u ∧
      (updateTempo u n st).g_next_raw_beat_time_us = u ∧
      (updateTempo u n st).last_any_tap_time_us = u := by
    intro u n st
    simp [updateTempo]
  refine ⟨⟨(hsched t now_ms s).1, (hsched t now_ms s).2.1⟩, ?_⟩
  intro ht hlt
  have hl1 := (hsched t now_ms s).2.2
  have hl2 := (hsched (t + 500000) now_ms (updateTempo t now_ms s)).2.2
  have hd1 : toUInt32 (((t + 500000 : Nat) : Int) - (t : Int)) = 500000 := by
    unfold toUInt32
    omega
  have hd2 : toUInt32 (((t + 500000 + 50000000 : Nat) : Int) - ((t + 500000 : Nat) : Int))
      = 50000000 := by
    unfold toUInt32
    omega
  have hb2 : (updateTempo (t + 500000) now_ms (updateTempo t now_ms s)).g_beat_interval_us
      = 500000 := by
    have h := updateTempo_accept (t + 500000) now_ms (updateTempo t now_ms s)
      (by rw [hl1]; exact ht) (by rw [hl1, hd1]; decide)
    rw [hl1, hd1] at h
    exact h.1
  have hb3 : (updateTempo (t + 500000 + 50000000) now_ms
      (updateTempo (t + 500000) now_ms (updateTempo t now_ms s))).g_beat_interval_us = 500000 := by
    have h := updateTempo_reject (t + 500000 + 50000000) now_ms
      (updateTempo (t + 500000) now_ms (updateTempo t now_ms s)) (by rw [hl2]; omega)
      (by rw [hl2, hd2]; decide)
    rw [h.1, hb2]
  exact ⟨hb2, hb3, (hsched _ _ _).1, (hsched _ _ _).2.1⟩

/-- Witness for C7: triggers at 1000, 501000 and 50501000 us from the initial
state. -/
theorem updateTempo_rearms_both_clocks_witness :
    (0 : Nat) < 1000 ∧ 1000 + 50500000 < 4294967296 ∧
    (updateTempo (1000 + 500000 + 50000000) 0
      (updateTempo (1000 + 500000) 0 (updateTempo 1000 0 initialState))).g_beat_interval_us
        = 500000 ∧
    (updateTempo (1000 + 500000 + 50000000) 0
      (updateTempo (1000 + 500000) 0 (updateTempo 1000 0 initialState))).g_next_internal_trigger_time_us
        = 1000 + 500000 + 50000000 ∧
    (updateTempo (1000 + 500000 + 50000000) 0
      (updateTempo (1000 + 500000) 0 (updateTempo 1000 0 initialState))).g_next_raw_beat_time_us
        = 1000 + 500000 + 50000000 :=
  have h := (updateTempo_rearms_both_clocks 1000 0 initialState).2 (by decide) (by decide)
  ⟨by decide, by decide, h.2.1, h.2.2.1, h.2.2.2⟩

/-! ## Grain pool theorems -/

theorem activeBelow_succ (g : Nat → Grain) (k : Nat) :
    activeBelow g (k + 1) = activeBelow g k + (if (g k).active = true then 1 else 0) := by
  unfold activeBelow
  rw [List.range_succ, List.filter_append, List.length_append]
  by_cases h : (g k).active = true <;> simp [h]

theorem freeBelow_succ (g : Nat → Grain) (k : Nat) :
    freeBelow g (k + 1) = freeBelow g k + (if (g k).active = true then 0 else 1) := by
  unfold freeBelow
  rw [List.range_succ, List.filter_append, List.length_append]
  by_cases h : (g k).active = true <;> simp [h]

theorem activeBelow_add_freeBelow (g : Nat → Grain) (k : Nat) :
    activeBelow g k + freeBelow g k = k := by
  induction k with
  | zero => simp [activeBelow, freeBelow]
  | succ k ih =>
    rw [activeBelow_succ, freeBelow_succ]
    split_ifs <;> omega

theorem freeBelow_mono (g : Nat → Grain) (a b : Nat) (h : a ≤ b) :
    freeBelow g a ≤ freeBelow g b := by
  induction b with
  | zero =>
    have : a = 0 := by omega
    subst this
    exact le_refl _
  | succ b ih =>
    rcases Nat.lt_or_ge a (b + 1) with hlt | hge
    · have := ih (by omega)
      rw [freeBelow_succ]
      omega
    · have : a = b + 1 := by omega
      subst this
      exact le_refl _

/-- A clear slot below `k` makes the number of free slots below `k` positive. -/
theorem freeBelow_pos (g : Nat → Grain) (k i : Nat) (hi : i < k)
    (h : (g i).active = false) : freeBelow g i < freeBelow g k := by
  have h1 : freeBelow g (i + 1) = freeBelow g i + 1 := by
    rw [freeBelow_succ]
    simp [h]
  have h2 := freeBelow_mono g (i + 1) k (by omega)
  omega

theorem activeList_length (s : State) : (activeList s).length = s.g_activeGrainCount := by
  simp [activeList]

theorem mem_activeList (s : State) (x : Nat) :
    x ∈ activeList s ↔ ∃ j, j < s.g_activeGrainCount ∧ s.g_activeGrainIndices j = x := by
  simp [activeList]

/-- The index form of the invariant gives the list form. -/
theorem PoolOk.list_form {s : State} (h : PoolOk s) :
    (activeList s).Nodup ∧ (∀ x ∈ activeList s, x < MAX_GRAINS) ∧
    s.g_activeGrainCount = activeBelow s.g_grains MAX_GRAINS := by
  obtain ⟨_, hval, hinj, hmem⟩ := h
  have hnd : (activeList s).Nodup := by
    unfold activeList
    apply List.Nodup.map_on _ (List.nodup_range _)
    intro j hj k hk hjk
    exact hinj j k (List.mem_range.mp hj) (List.mem_range.mp hk) hjk
  have hlt : ∀ x ∈ activeList s, x < MAX_GRAINS := by
    intro x hx
    obtain ⟨j, hj, hjx⟩ := (mem_activeList s x).mp hx
    rw [← hjx]
    exact hval j hj
  refine ⟨hnd, hlt, ?_⟩
  have hnd2 : ((List.range MAX_GRAINS).filter (fun i => (s.g_grains i).active)).Nodup :=
    (List.nodup_range _).filter _
  have hperm : (activeList s).Perm
      ((List.range MAX_GRAINS).filter (fun i => (s.g_grains i).active)) := by
    rw [List.perm_ext_iff_of_nodup hnd hnd2]
    intro x
    rw [List.mem_filter, List.mem_range]
    constructor
    · intro hx
      have hx10 := hlt x hx
      exact ⟨hx10, (hmem x hx10).mpr ((mem_activeList s x).mp hx)⟩
    · rintro ⟨hx10, hact⟩
      exact (mem_activeList s x).mpr ((hmem x hx10).mp hact)
  have := hperm.length_eq
  rw [activeList_length] at this
  exact this

/-- With a clear slot the active-index list is not full. -/
theorem PoolOk.count_lt {s : State} (h : PoolOk s) (i : Nat) (hi : i < MAX_GRAINS)
    (hfree : (s.g_grains i).active = false) : s.g_activeGrainCount < MAX_GRAINS := by
  have h1 := h.list_form.2.2
  have h2 := activeBelow_add_freeBelow s.g_grains MAX_GRAINS
  have h3 := freeBelow_pos s.g_grains MAX_GRAINS i hi hfree
  omega

theorem PoolOk.of_samePool {s t : State} (h : PoolOk s) (hst : SamePool s t) : PoolOk t := by
  obtain ⟨hg, hi, hc⟩ := hst
  unfold PoolOk
  rw [hg, hi, hc]
  exact h

theorem PoolInitial.establishes_invariant {s : State} (h : PoolInitial s) : PoolOk s := by
  obtain ⟨hc, hg⟩ := h
  refine ⟨by rw [hc]; exact Nat.zero_le _, ?_, ?_, ?_⟩
  · intro j hj
    rw [hc] at hj
    exact absurd hj (Nat.not_lt_zero _)
  · intro j k hj
    rw [hc] at hj
    exact absurd hj (Nat.not_lt_zero _)
  · intro x hx
    rw [hg x hx, hc]
    simp

theorem triggerGrainFields_active (L : Luts) (p : ParamSnapshot) (s : State) :
    (triggerGrainFields L p s).1.active = true := rfl

/-- Computing the grain fields only advances the cursors of the random tables. -/
theorem triggerGrainFields_frame (L : Luts) (p : ParamSnapshot) (s : State) :
    (triggerGrainFields L p s).2.g_grains = s.g_grains ∧
    (triggerGrainFields L p s).2.g_activeGrainIndices = s.g_activeGrainIndices ∧
    (triggerGrainFields L p s).2.g_activeGrainCount = s.g_activeGrainCount ∧
    (triggerGrainFields L p s).2.g_params = s.g_params ∧
    (triggerGrainFields L p s).2.g_grainBufferReady = s.g_grainBufferReady ∧
    (triggerGrainFields L p s).2.g_deja_vu_step = s.g_deja_vu_step ∧
    (triggerGrainFields L p s).2.g_deja_vu_buffer = s.g_deja_vu_buffer ∧
    (triggerGrainFields L p s).2.g_grainBuffer = s.g_grainBuffer ∧
    (triggerGrainFields L p s).2.g_grainWritePos = s.g_grainWritePos :=
  ⟨rfl, rfl, rfl, rfl, rfl, rfl, rfl, rfl, rfl⟩

theorem toUInt8_of_lt (x : Int) (h0 : 0 ≤ x) (h1 : x < 256) : (toUInt8 x : Int) = x := by
  unfold toUInt8
  omega

theorem toUInt8_nat (n : Nat) (h : n < 256) : toUInt8 (n : Int) = n := by
  unfold toUInt8
  omega

theorem toUInt8_nat_succ (n : Nat) (h : n < 255) : toUInt8 ((n : Int) + 1) = n + 1 := by
  unfold toUInt8
  omega

theorem toUInt8_nat_pred (n : Nat) (h0 : 0 < n) (h : n < 256) :
    toUInt8 ((n : Int) - 1) = n - 1 := by
  unfold toUInt8
  omega

/-- What `triggerGrain` does to the pool when the slot is free: the slot gets a
grain with the active flag set and its index is appended to the list. -/
theorem triggerGrain_free_slot (L : Luts) (i : Nat) (p : ParamSnapshot) (s : State)
    (hok : PoolOk s) (hi : i < MAX_GRAINS) (hfree : (s.g_grains i).active = false) :
    (triggerGrain L (i : Int) p s).g_grains =
        Function.update s.g_grains i (triggerGrainFields L p s).1 ∧
    (triggerGrain L (i : Int) p s).g_activeGrainIndices =
        Function.update s.g_activeGrainIndices s.g_activeGrainCount i ∧
    (triggerGrain L (i : Int) p s).g_activeGrainCount = s.g_activeGrainCount + 1 := by
  have h1 : ¬ ((i : Int) < 0 ∨ (i : Int) ≥ (MAX_GRAINS : Int)) := by
    simp only [MAX_GRAINS] at hi ⊢
    omega
  have hcnt := hok.count_lt i hi hfree
  have hnot : (List.range s.g_activeGrainCount).any
      (fun j => decide ((s.g_activeGrainIndices j : Int) = (i : Int))) = false := by
    rw [List.any_eq_false]
    intro j hj
    have hj2 := List.mem_range.mp hj
    simp only [decide_eq_true_eq, Nat.cast_inj]
    intro hji
    have := (hok.2.2.2 i hi).mpr ⟨j, hj2, hji⟩
    rw [hfree] at this
    exact Bool.noConfusion this
  obtain ⟨hfg, hfi, hfc, -⟩ := triggerGrainFields_frame L p s
  unfold triggerGrain
  rw [if_neg h1]
  simp only [triggerGrainRegister, Int.toNat_ofNat, hfg, hfi, hfc]
  rw [if_pos ⟨hnot, hcnt⟩]
  simp only [MAX_GRAINS] at hi hcnt
  refine ⟨rfl, ?_, ?_⟩
  · show Function.update s.g_activeGrainIndices s.g_activeGrainCount (toUInt8 (i : Int)) = _
    rw [toUInt8_nat i (by omega)]
  · show toUInt8 ((s.g_activeGrainCount : Int) + 1) = _
    rw [toUInt8_nat_succ _ (by omega)]

theorem triggerGrain_frame (L : Luts) (idx : Int) (p : ParamSnapshot) (s : State) :
    (triggerGrain L idx p s).g_params = s.g_params ∧
    (triggerGrain L idx p s).g_grainBufferReady = s.g_grainBufferReady ∧
    (triggerGrain L idx p s).g_deja_vu_step = s.g_deja_vu_step ∧
    (triggerGrain L idx p s).g_deja_vu_buffer = s.g_deja_vu_buffer ∧
    (triggerGrain L idx p s).g_grainBuffer = s.g_grainBuffer ∧
    (triggerGrain L idx p s).g_grainWritePos = s.g_grainWritePos := by
  obtain ⟨-, -, -, h1, h2, h3, h4, h5, h6⟩ := triggerGrainFields_frame L p s
  unfold triggerGrain
  split_ifs
  · exact ⟨rfl, rfl, rfl, rfl, rfl, rfl⟩
  · simp only [triggerGrainRegister]
    split_ifs <;> exact ⟨h1, h2, h3, h4, h5, h6⟩

/-- Triggering a free slot keeps the pool invariant. -/
theorem triggerGrain_poolOk (L : Luts) (i : Nat) (p : ParamSnapshot) (s : State)
    (hok : PoolOk s) (hi : i < MAX_GRAINS) (hfree : (s.g_grains i).active = false) :
    PoolOk (triggerGrain L (i : Int) p s) := by
  obtain ⟨hg, hidx, hc⟩ := triggerGrain_free_slot L i p s hok hi hfree
  have hcnt := hok.count_lt i hi hfree
  obtain ⟨_, hval, hinj, hmem⟩ := hok
  have hnotin : ∀ j, j < s.g_activeGrainCount → s.g_activeGrainIndices j ≠ i := by
    intro j hj hji
    have := (hmem i hi).mpr ⟨j, hj, hji⟩
    rw [hfree] at this
    exact Bool.noConfusion this
  unfold PoolOk
  rw [hg, hidx, hc]
  refine ⟨hcnt, ?_, ?_, ?_⟩
  · intro j hj
    by_cases hjc : j = s.g_activeGrainCount
    · rw [hjc, Function.update_same]
      exact hi
    · rw [Function.update_noteq hjc]
      exact hval j (by omega)
  · intro j k hj hk hjk
    by_cases hjc : j = s.g_activeGrainCount <;> by_cases hkc : k = s.g_activeGrainCount
    · rw [hjc, hkc]
    · rw [hjc, Function.update_same, Function.update_noteq hkc] at hjk
      exact absurd hjk.symm (hnotin k (by omega))
    · rw [hkc, Function.update_same, Function.update_noteq hjc] at hjk
      exact absurd hjk (hnotin j (by omega))
    · rw [Function.update_noteq hjc, Function.update_noteq hkc] at hjk
      exact hinj j k (by omega) (by omega) hjk
  · intro x hx
    by_cases hxi : x = i
    · rw [hxi, Function.update_same]
      constructor
      · intro _
        exact ⟨s.g_activeGrainCount, Nat.lt_succ_self _, Function.update_same _ _ _⟩
      · intro _
        exact triggerGrainFields_active L p s
    · rw [Function.update_noteq hxi, hmem x hx]
      constructor
      · rintro ⟨j, hj, hjx⟩
        exact ⟨j, by omega, by rw [Function.update_noteq (by omega), hjx]⟩
      · rintro ⟨j, hj, hjx⟩
        by_cases hjc : j = s.g_activeGrainCount
        · rw [hjc, Function.update_same] at hjx
          exact absurd hjx.symm hxi
        · rw [Function.update_noteq hjc] at hjx
          exact ⟨j, by omega, hjx⟩

/-- Closed form of the gap-closing loop. -/
theorem shift_fold (n : Nat) : ∀ (i : Nat) (a : Nat → Nat) (j : Nat),
    ((List.range' i n).foldl (fun a j => Function.update a j (a (j + 1))) a) j =
      if i ≤ j ∧ j < i + n then a (j + 1) else a j := by
  induction n with
  | zero =>
    intro i a j
    have : ¬ (i ≤ j ∧ j < i + 0) := by omega
    rw [if_neg this]
    rfl
  | succ n ih =>
    intro i a j
    rw [List.range'_succ, List.foldl_cons, ih (i + 1)]
    by_cases h1 : i + 1 ≤ j ∧ j < i + 1 + n
    · rw [if_pos h1, if_pos (by omega), Function.update_noteq (by omega)]
    · rw [if_neg h1]
      by_cases h2 : j = i
      · rw [h2, Function.update_same, if_pos (by omega)]
      · rw [Function.update_noteq h2, if_neg (by omega)]

theorem shiftIndices_apply (a : Nat → Nat) (i count j : Nat) (hi : i < count) :
    shiftIndices a i count j = if i ≤ j ∧ j + 1 < count then a (j + 1) else a j := by
  unfold shiftIndices
  rw [shift_fold]
  by_cases h : i ≤ j ∧ j + 1 < count
  · rw [if_pos h, if_pos (by omega)]
  · rw [if_neg h, if_neg (by omega)]

/-- Rewriting a listed grain with an active grain keeps the invariant. -/
theorem PoolOk.update_active {s : State} (h : PoolOk s) (i : Nat)
    (hi : i < s.g_activeGrainCount) (g : Grain) (hg : g.active = true) :
    PoolOk { s with g_grains := Function.update s.g_grains (s.g_activeGrainIndices i) g } := by
  obtain ⟨hc, hval, hinj, hmem⟩ := h
  refine ⟨hc, hval, hinj, ?_⟩
  intro x hx
  show (Function.update s.g_grains (s.g_activeGrainIndices i) g x).active = true ↔ _
  by_cases hxi : x = s.g_activeGrainIndices i
  · rw [hxi, Function.update_same]
    exact ⟨fun _ => ⟨i, hi, rfl⟩, fun _ => hg⟩
  · rw [Function.update_noteq hxi]
    exact hmem x hx

/-- Retiring a listed grain (flag cleared, index removed by shifting the rest
down, count decremented) keeps the invariant. -/
theorem PoolOk.retire {s : State} (h : PoolOk s) (i : Nat)
    (hi : i < s.g_activeGrainCount) (g : Grain) (hg : g.active = false) :
    PoolOk { s with
      g_grains := Function.update s.g_grains (s.g_activeGrainIndices i) g
      g_activeGrainIndices := shiftIndices s.g_activeGrainIndices i s.g_activeGrainCount
      g_activeGrainCount := toUInt8 ((s.g_activeGrainCount : Int) - 1) } := by
  obtain ⟨hc, hval, hinj, hmem⟩ := h
  have hc10 : s.g_activeGrainCount ≤ 10 := hc
  have hcnt : toUInt8 ((s.g_activeGrainCount : Int) - 1) = s.g_activeGrainCount - 1 :=
    toUInt8_nat_pred _ (by omega) (by omega)
  have hsh : ∀ j, j < s.g_activeGrainCount - 1 →
      shiftIndices s.g_activeGrainIndices i s.g_activeGrainCount j =
        s.g_activeGrainIndices (if i ≤ j then j + 1 else j) := by
    intro j hj
    rw [shiftIndices_apply _ _ _ _ hi]
    by_cases hij : i ≤ j
    · rw [if_pos ⟨hij, by omega⟩, if_pos hij]
    · rw [if_neg (fun hh => hij hh.1), if_neg hij]
  unfold PoolOk
  simp only [hcnt]
  refine ⟨by simp only [MAX_GRAINS]; omega, ?_, ?_, ?_⟩
  · intro j hj
    rw [hsh j hj]
    apply hval
    split_ifs <;> omega
  · intro j k hj hk hjk
    rw [hsh j hj, hsh k hk] at hjk
    have := hinj _ _ (by split_ifs <;> omega) (by split_ifs <;> omega) hjk
    split_ifs at this <;> omega
  · intro x hx
    by_cases hxi : x = s.g_activeGrainIndices i
    · rw [hxi, Function.update_same, hg]
      constructor
      · intro hf
        exact Bool.noConfusion hf
      · rintro ⟨j, hj, hjx⟩
        rw [hsh j hj] at hjx
        have := hinj _ _ (by split_ifs <;> omega) hi hjx
        split_ifs at this <;> omega
    · rw [Function.update_noteq hxi, hmem x hx]
      constructor
      · rintro ⟨j, hj, hjx⟩
        have hji : j ≠ i := by
          intro hji
          rw [hji] at hjx
          exact hxi hjx.symm
        by_cases hlt : j < i
        · refine ⟨j, by omega, ?_⟩
          rw [hsh j (by omega), if_neg (by omega)]
          exact hjx
        · refine ⟨j - 1, by omega, ?_⟩
          rw [hsh (j - 1) (by omega), if_pos (by omega)]
          have : j - 1 + 1 = j := by omega
          rw [this]
          exact hjx
      · rintro ⟨j, hj, hjx⟩
        rw [hsh j hj] at hjx
        exact ⟨_, by split_ifs <;> omega, hjx⟩

/-- The render loop keeps the pool invariant. -/
theorem renderLoop_poolOk (L : Luts) (n : Nat) :
    ∀ (i : Nat) (s : State) (wetL wetR : Int), PoolOk s →
      PoolOk (renderLoop L n i (s, wetL, wetR)).1 := by
  induction n with
  | zero =>
    intro i s wetL wetR h
    exact h
  | succ n ih =>
    intro i s wetL wetR h
    rw [renderLoop]
    by_cases hi : i < s.g_activeGrainCount
    · rw [if_pos hi]
      simp only
      by_cases ha : (renderGrain L s (s.g_grains (s.g_activeGrainIndices i))).2.active = true
      · rw [if_pos ha]
        exact ih _ _ _ _ (h.update_active i hi _ ha)
      · rw [if_neg ha]
        exact ih _ _ _ _ (h.retire i hi _ (by simpa using ha))
    · rw [if_neg hi]
      exact h

/-- The function `renderAllGrains` keeps the pool invariant. -/
theorem renderAllGrains_poolOk (L : Luts) (wetL wetR : Int) (s : State) (h : PoolOk s) :
    PoolOk (renderAllGrains L wetL wetR s).1 := by
  unfold renderAllGrains
  split_ifs
  · exact h
  · exact renderLoop_poolOk L _ _ _ _ _ h

/-- Fuel of the render loop: `g_activeGrainCount - i` iterations are enough,
further fuel is never used, so `renderAllGrains` runs the loop to its exit. -/
theorem renderLoop_fuel (L : Luts) (n : Nat) :
    ∀ (m i : Nat) (s : State) (wetL wetR : Int), s.g_activeGrainCount ≤ 255 →
      s.g_activeGrainCount - i ≤ n →
      renderLoop L (n + m) i (s, wetL, wetR) = renderLoop L n i (s, wetL, wetR) := by
  induction n with
  | zero =>
    intro m i s wetL wetR _ h
    cases m with
    | zero => rfl
    | succ m =>
      show renderLoop L (0 + (m + 1)) i (s, wetL, wetR) = (s, wetL, wetR)
      rw [Nat.zero_add, renderLoop, if_neg (by omega)]
  | succ n ih =>
    intro m i s wetL wetR hc h
    have e : n + 1 + m = (n + m) + 1 := by omega
    rw [e, renderLoop, renderLoop]
    by_cases hi : i < s.g_activeGrainCount
    · rw [if_pos hi, if_pos hi]
      simp only
      by_cases ha : (renderGrain L s (s.g_grains (s.g_activeGrainIndices i))).2.active = true
      · rw [if_pos ha, if_pos ha]
        exact ih m (i + 1) _ _ _ hc (by show s.g_activeGrainCount - (i + 1) ≤ n; omega)
      · rw [if_neg ha, if_neg ha]
        have hp : toUInt8 ((s.g_activeGrainCount : Int) - 1) = s.g_activeGrainCount - 1 :=
          toUInt8_nat_pred _ (by omega) (by omega)
        exact ih m i _ _ _
          (by show toUInt8 ((s.g_activeGrainCount : Int) - 1) ≤ 255; rw [hp]; omega)
          (by show toUInt8 ((s.g_activeGrainCount : Int) - 1) - i ≤ n; rw [hp]; omega)
    · rw [if_neg hi, if_neg hi]

/-- Setting the flag of a clear slot `i` lowers the number of free slots below
every `x > i` by one. -/
theorem freeBelow_update (g : Nat → Grain) (i : Nat) (a : Grain) (ha : a.active = true)
    (hfree : (g i).active = false) (x : Nat) :
    freeBelow (Function.update g i a) x + (if i < x then 1 else 0) = freeBelow g x := by
  induction x with
  | zero => simp [freeBelow]
  | succ x ih =>
    rw [freeBelow_succ, freeBelow_succ]
    by_cases hxi : x = i
    · subst hxi
      have e1 : (if x < x then 1 else 0) = 0 := if_neg (lt_irrefl x)
      have e2 : (if x < x + 1 then 1 else 0) = 1 := if_pos (Nat.lt_succ_self x)
      have e3 : (if (g x).active = true then 0 else 1) = 1 := if_neg (by simp [hfree])
      have e4 : (if (Function.update g x a x).active = true then 0 else 1) = 0 :=
        if_pos (by rw [Function.update_same]; exact ha)
      rw [e1] at ih
      rw [e2, e3, e4]
      omega
    · rw [Function.update_noteq hxi]
      by_cases hlt : i < x
      · have e1 : (if i < x then 1 else 0) = 1 := if_pos hlt
        have e2 : (if i < x + 1 then 1 else 0) = 1 := if_pos (by omega)
        rw [e1] at ih
        rw [e2]
        omega
      · have e1 : (if i < x then 1 else 0) = 0 := if_neg hlt
        have e2 : (if i < x + 1 then 1 else 0) = 0 := if_neg (by omega)
        rw [e1] at ih
        rw [e2]
        omega

/-- The spawn loop of `handleDejaVuTrigger`, started at slot
`MAX_GRAINS - rem` with `gen` grains already generated: it keeps the pool
invariant, leaves the visited and the active slots alone, and fills a free slot
`x` exactly when fewer than `n - gen` free slots lie between the start and `x`. -/
theorem spawnGrains_spec (L : Luts) (rnd : Nat → Nat) (p : ParamSnapshot) (n : Nat)
    (hn : n ≤ 255) (rem : Nat) :
    ∀ (gen k : Nat) (s : State), rem ≤ MAX_GRAINS → PoolOk s →
      PoolOk (spawnGrains L rnd p n rem gen k s) ∧
      (∀ x, x < MAX_GRAINS - rem → (spawnGrains L rnd p n rem gen k s).g_grains x = s.g_grains x) ∧
      (∀ x, MAX_GRAINS - rem ≤ x → x < MAX_GRAINS → (s.g_grains x).active = true →
        (spawnGrains L rnd p n rem gen k s).g_grains x = s.g_grains x) ∧
      (∀ x, MAX_GRAINS - rem ≤ x → x < MAX_GRAINS → (s.g_grains x).active = false →
        (((spawnGrains L rnd p n rem gen k s).g_grains x).active = true ↔
          gen + freeBelow s.g_grains x < n + freeBelow s.g_grains (MAX_GRAINS - rem))) ∧
      (spawnGrains L rnd p n rem gen k s).g_params = s.g_params ∧
      (spawnGrains L rnd p n rem gen k s).g_grainBufferReady = s.g_grainBufferReady ∧
      (spawnGrains L rnd p n rem gen k s).g_deja_vu_step = s.g_deja_vu_step ∧
      (spawnGrains L rnd p n rem gen k s).g_deja_vu_buffer = s.g_deja_vu_buffer := by
  induction rem with
  | zero =>
    intro gen k s _ hok
    refine ⟨hok, fun _ _ => rfl, fun _ _ _ _ => rfl, ?_, rfl, rfl, rfl, rfl⟩
    intro x h1 h2
    omega
  | succ rem ih =>
    intro gen k s hrem hok
    have hrem10 : rem + 1 ≤ 10 := hrem
    have hi0 : MAX_GRAINS - (rem + 1) < MAX_GRAINS := by
      simp only [MAX_GRAINS]
      omega
    have hnext : MAX_GRAINS - rem = MAX_GRAINS - (rem + 1) + 1 := by
      simp only [MAX_GRAINS]
      omega
    rw [spawnGrains]
    simp only
    by_cases hgen : gen < n
    · rw [if_pos hgen]
      by_cases hfree : (s.g_grains (MAX_GRAINS - (rem + 1))).active = false
      · rw [if_pos hfree]
        have hgen1 : toUInt8 ((gen : Int) + 1) = gen + 1 := toUInt8_nat_succ gen (by omega)
        rw [hgen1]
        -- both branches trigger the slot, with different parameters and cursor
        have key : ∀ (pv : ParamSnapshot) (k1 : Nat),
            let t := spawnGrains L rnd p n rem (gen + 1) k1
              (triggerGrain L ((MAX_GRAINS - (rem + 1) : Nat) : Int) pv s)
            PoolOk t ∧
            (∀ x, x < MAX_GRAINS - (rem + 1) → t.g_grains x = s.g_grains x) ∧
            (∀ x, MAX_GRAINS - (rem + 1) ≤ x → x < MAX_GRAINS → (s.g_grains x).active = true →
              t.g_grains x = s.g_grains x) ∧
            (∀ x, MAX_GRAINS - (rem + 1) ≤ x → x < MAX_GRAINS → (s.g_grains x).active = false →
              ((t.g_grains x).active = true ↔
                gen + freeBelow s.g_grains x < n + freeBelow s.g_grains (MAX_GRAINS - (rem + 1)))) ∧
            t.g_params = s.g_params ∧ t.g_grainBufferReady = s.g_grainBufferReady ∧
            t.g_deja_vu_step = s.g_deja_vu_step ∧ t.g_deja_vu_buffer = s.g_deja_vu_buffer := by
          intro pv k1
          have hok1 := triggerGrain_poolOk L _ pv s hok hi0 hfree
          obtain ⟨hg1, -, -⟩ := triggerGrain_free_slot L _ pv s hok hi0 hfree
          obtain ⟨hf1, hf2, hf3, hf4, -, -⟩ :=
            triggerGrain_frame L ((MAX_GRAINS - (rem + 1) : Nat) : Int) pv s
          obtain ⟨iok, ia, ib, ic, id1, id2, id3, id4⟩ :=
            ih (gen + 1) k1 (triggerGrain L ((MAX_GRAINS - (rem + 1) : Nat) : Int) pv s)
              (by omega) hok1
          have hact1 := triggerGrainFields_active L pv s
          have hfb := freeBelow_update s.g_grains (MAX_GRAINS - (rem + 1)) _ hact1 hfree
          rw [hg1, hnext] at ia ib ic
          refine ⟨iok, ?_, ?_, ?_, by rw [id1, hf1], by rw [id2, hf2], by rw [id3, hf3],
            by rw [id4, hf4]⟩
          · intro x hx
            rw [ia x (by omega), Function.update_noteq (by omega)]
          · intro x hx1 hx2 hxa
            have hne : x ≠ MAX_GRAINS - (rem + 1) := by
              intro he
              rw [he, hfree] at hxa
              exact Bool.noConfusion hxa
            have hupd : Function.update s.g_grains (MAX_GRAINS - (rem + 1))
                (triggerGrainFields L pv s).1 x = s.g_grains x := Function.update_noteq hne _ _
            rw [ib x (by omega) hx2 (by rw [hupd]; exact hxa), hupd]
          · intro x hx1 hx2 hxf
            by_cases he : x = MAX_GRAINS - (rem + 1)
            · rw [he, ia _ (by omega), Function.update_same]
              constructor
              · intro _
                omega
              · intro _
                exact hact1
            · have hupd : Function.update s.g_grains (MAX_GRAINS - (rem + 1))
                  (triggerGrainFields L pv s).1 x = s.g_grains x := Function.update_noteq he _ _
              rw [ic x (by omega) hx2 (by rw [hupd]; exact hxf)]
              have h1 := hfb x
              have h2 := hfb (MAX_GRAINS - (rem + 1) + 1)
              have h3 := freeBelow_succ s.g_grains (MAX_GRAINS - (rem + 1))
              rw [hfree] at h3
              simp only [Bool.false_eq_true, if_false] at h3
              rw [if_pos (by omega)] at h1
              rw [if_pos (by omega)] at h2
              omega
        by_cases hg0 : gen > 0
        · rw [if_pos hg0]
          exact key _ _
        · rw [if_neg hg0]
          exact key _ _
      · rw [if_neg hfree]
        have hact : (s.g_grains (MAX_GRAINS - (rem + 1))).active = true := by
          simpa using hfree
        obtain ⟨iok, ia, ib, ic, id1, id2, id3, id4⟩ := ih gen k s (by omega) hok
        rw [hnext] at ia ib ic
        refine ⟨iok, ?_, ?_, ?_, id1, id2, id3, id4⟩
        · intro x hx
          exact ia x (by omega)
        · intro x hx1 hx2 hxa
          by_cases he : x = MAX_GRAINS - (rem + 1)
          · rw [he]
            exact ia _ (by omega)
          · exact ib x (by omega) hx2 hxa
        · intro x hx1 hx2 hxf
          have hne : x ≠ MAX_GRAINS - (rem + 1) := by
            intro he
            rw [he, hact] at hxf
            exact Bool.noConfusion hxf
          rw [ic x (by omega) hx2 hxf]
          have h3 := freeBelow_succ s.g_grains (MAX_GRAINS - (rem + 1))
          rw [hact] at h3
          simp only [if_true] at h3
          omega
    · rw [if_neg hgen]
      refine ⟨hok, fun _ _ => rfl, fun _ _ _ _ => rfl, ?_, rfl, rfl, rfl, rfl⟩
      intro x hx1 hx2 hxf
      rw [hxf]
      have := freeBelow_mono s.g_grains _ _ hx1
      constructor
      · intro hf
        exact Bool.noConfusion hf
      · intro hlt
        omega

/-- Counting form: if the active slots are untouched and a free slot becomes
active exactly when fewer than `n` free slots precede it, the number of active
slots below `k` grows by `min n (free slots below k)`. -/
theorem activeBelow_after_spawn (g g' : Nat → Grain) (n k : Nat)
    (hb : ∀ x, x < k → (g x).active = true → g' x = g x)
    (hc : ∀ x, x < k → (g x).active = false → ((g' x).active = true ↔ freeBelow g x < n)) :
    activeBelow g' k = activeBelow g k + min n (freeBelow g k) := by
  induction k with
  | zero => simp [activeBelow, freeBelow]
  | succ k ih =>
    have ih2 := ih (fun x hx => hb x (by omega)) (fun x hx => hc x (by omega))
    rw [activeBelow_succ, activeBelow_succ, freeBelow_succ, ih2]
    by_cases ha : (g k).active = true
    · rw [hb k (by omega) ha, if_pos ha, if_pos ha]
      omega
    · have hf : (g k).active = false := by simpa using ha
      have hiff := hc k (by omega) hf
      rw [if_neg ha, if_neg ha]
      by_cases hlt : freeBelow g k < n
      · rw [if_pos (hiff.mpr hlt)]
        omega
      · rw [if_neg (fun h => hlt (hiff.mp h))]
        omega

/-- The shape of `handleDejaVuTrigger` when the buffer is ready: the spawn loop
runs from slot 0 on a state with the same pool, and the step counter is
advanced afterwards. -/
theorem handleDejaVuTrigger_shape (L : Luts) (rnd : Nat → Nat) (now_ms : Nat) (s : State)
    (hready : s.g_grainBufferReady = true) :
    ∃ (p : ParamSnapshot) (s1 : State) (k : Nat), SamePool s s1 ∧
      s1.g_grainBufferReady = true ∧
      handleDejaVuTrigger L rnd now_ms s =
        { spawnGrains L rnd p
            (toUInt8 (1 + ((rnd (if decide (rnd 0 % 32768 < toUInt32 s.g_params.deja_vu_q15) = true
              then 1 else 4) % 3 : Nat) : Int)))
            MAX_GRAINS 0 k s1 with
          g_deja_vu_step :=
            Int.tmod ((spawnGrains L rnd p
              (toUInt8 (1 + ((rnd (if decide (rnd 0 % 32768 < toUInt32 s.g_params.deja_vu_q15) = true
                then 1 else 4) % 3 : Nat) : Int)))
              MAX_GRAINS 0 k s1).g_deja_vu_step + 1) (DEJA_VU_BUFFER_SIZE : Int) } := by
  unfold handleDejaVuTrigger
  rw [if_neg (by simp [hready])]
  refine ⟨_, _, _, ?_, ?_, rfl⟩
  · split_ifs <;> exact ⟨rfl, rfl, rfl⟩
  · split_ifs <;> exact hready

theorem requested_grains (r : Nat) : toUInt8 (1 + ((r % 3 : Nat) : Int)) = 1 + r % 3 := by
  unfold toUInt8
  omega

/-- The effect of one trigger event on the pool when the buffer is ready. -/
theorem handleDejaVuTrigger_pool (L : Luts) (rnd : Nat → Nat) (now_ms : Nat) (s : State)
    (hready : s.g_grainBufferReady = true) (hok : PoolOk s) :
    PoolOk (handleDejaVuTrigger L rnd now_ms s) ∧
    (∀ x, x < MAX_GRAINS → (s.g_grains x).active = true →
      (handleDejaVuTrigger L rnd now_ms s).g_grains x = s.g_grains x) ∧
    (∀ x, x < MAX_GRAINS → (s.g_grains x).active = false →
      (((handleDejaVuTrigger L rnd now_ms s).g_grains x).active = true ↔
        freeBelow s.g_grains x <
          1 + rnd (if rnd 0 % 32768 < toUInt32 s.g_params.deja_vu_q15 then 1 else 4) % 3)) := by
  obtain ⟨p, s1, k, hsame, -, heq⟩ := handleDejaVuTrigger_shape L rnd now_ms s hready
  simp only [decide_eq_true_eq] at heq
  rw [heq, requested_grains]
  have hn : 1 + rnd (if rnd 0 % 32768 < toUInt32 s.g_params.deja_vu_q15
      then 1 else 4) % 3 ≤ 255 := by omega
  obtain ⟨sok, -, sb, sc, -⟩ :=
    spawnGrains_spec L rnd p _ hn MAX_GRAINS 0 k s1 (le_refl _) (hok.of_samePool hsame)
  obtain ⟨hg, -, -⟩ := hsame
  rw [hg] at sb sc
  have hz : freeBelow s.g_grains (MAX_GRAINS - MAX_GRAINS) = 0 := by
    simp [freeBelow]
  refine ⟨sok.of_samePool ⟨rfl, rfl, rfl⟩, ?_, ?_⟩
  · intro x hx ha
    exact sb x (by omega) hx ha
  · intro x hx hf
    have := sc x (by omega) hx hf
    rw [hz, Nat.add_zero, Nat.zero_add] at this
    exact this

/-- Every reachable state satisfies the pool invariant. -/
theorem Reachable.pool_invariant {L : Luts} {s : State} (h : Reachable L s) : PoolOk s := by
  induction h with
  | init s hinit => exact hinit.establishes_invariant
  | trigger s rnd now_ms _ ih =>
    by_cases hready : s.g_grainBufferReady = true
    · exact (handleDejaVuTrigger_pool L rnd now_ms s hready ih).1
    · unfold handleDejaVuTrigger
      rw [if_pos (by simpa using hready)]
      exact ih
  | render s wetL wetR _ ih => exact renderAllGrains_poolOk L wetL wetR s ih
  | other s t _ hst ih => exact ih.of_samePool hst

/-- C8: in every state reachable from the initial pool (all grains reset, active
count 0) by `handleDejaVuTrigger` and `renderAllGrains` calls, the first
`g_activeGrainCount` entries of the active-index list are pairwise distinct,
each is a valid slot index below 10, and `g_activeGrainCount` equals the number
of grain slots whose active flag is true. -/
theorem active_list_invariant (L : Luts) (s : State) (h : Reachable L s) :
    (activeList s).Nodup ∧
    (∀ x ∈ activeList s, x < 10) ∧
    s.g_activeGrainCount = activeBelow s.g_grains 10 :=
  h.pool_invariant.list_form

/-- Witness for C8: `spawnDemo` is reachable by one trigger event and has two
active grains. -/
theorem active_list_invariant_witness :
    Reachable flatLuts spawnDemo ∧
    spawnDemo.g_activeGrainCount = 2 ∧
    (activeList spawnDemo).Nodup ∧
    (∀ x ∈ activeList spawnDemo, x < 10) ∧
    spawnDemo.g_activeGrainCount = activeBelow spawnDemo.g_grains 10 :=
  have hr : Reachable flatLuts spawnDemo :=
    Reachable.trigger readyState (fun _ => 1) 0
      (Reachable.init readyState ⟨rfl, fun _ _ => rfl⟩)
  ⟨hr, by decide, active_list_invariant flatLuts spawnDemo hr⟩

/-- C9: the active-grain count never exceeds the pool capacity 10 in a
reachable state, and a trigger event handled with the buffer ready that requests
`n = 1 + r % 3` grains (`r` the draw made for the count) when `f` pool slots are
inactive activates exactly `min n f` grains: every already-active grain is left
unchanged, an inactive slot becomes active exactly when fewer than `n` inactive
slots precede it, and the number of active slots and the active count both grow
by `min n f`. -/
theorem trigger_fills_lowest_free_slots (L : Luts) (rnd : Nat → Nat) (now_ms : Nat) (s : State)
    (h : Reachable L s) :
    s.g_activeGrainCount ≤ 10 ∧
    (s.g_grainBufferReady = true →
      (∀ x, x < 10 → (s.g_grains x).active = true →
        (handleDejaVuTrigger L rnd now_ms s).g_grains x = s.g_grains x) ∧
      (∀ x, x < 10 → (s.g_grains x).active = false →
        (((handleDejaVuTrigger L rnd now_ms s).g_grains x).active = true ↔
          freeBelow s.g_grains x <
            1 + rnd (if rnd 0 % 32768 < toUInt32 s.g_params.deja_vu_q15 then 1 else 4) % 3)) ∧
      activeBelow (handleDejaVuTrigger L rnd now_ms s).g_grains 10 =
        activeBelow s.g_grains 10 +
          min (1 + rnd (if rnd 0 % 32768 < toUInt32 s.g_params.deja_vu_q15 then 1 else 4) % 3)
            (freeBelow s.g_grains 10) ∧
      (handleDejaVuTrigger L rnd now_ms s).g_activeGrainCount =
        s.g_activeGrainCount +
          min (1 + rnd (if rnd 0 % 32768 < toUInt32 s.g_params.deja_vu_q15 then 1 else 4) % 3)
            (freeBelow s.g_grains 10)) := by
  have hok := h.pool_invariant
  refine ⟨hok.1, ?_⟩
  intro hready
  obtain ⟨hok2, hb, hc⟩ := handleDejaVuTrigger_pool L rnd now_ms s hready hok
  have hcount := activeBelow_after_spawn s.g_grains (handleDejaVuTrigger L rnd now_ms s).g_grains
    (1 + rnd (if rnd 0 % 32768 < toUInt32 s.g_params.deja_vu_q15 then 1 else 4) % 3) 10 hb hc
  refine ⟨hb, hc, hcount, ?_⟩
  have e1 := hok.list_form.2.2
  have e2 := hok2.list_form.2.2
  simp only [MAX_GRAINS] at e1 e2
  rw [e2, e1, hcount]

/-- Witness for C9: with nine active grains and one free slot, an event that
requests three grains activates exactly one, and the count goes from 9 to 10. -/
theorem trigger_fills_lowest_free_slots_witness :
    Reachable flatLuts nearlyFullDemo ∧
    nearlyFullDemo.g_grainBufferReady = true ∧
    nearlyFullDemo.g_activeGrainCount = 9 ∧
    freeBelow nearlyFullDemo.g_grains 10 = 1 ∧
    nearlyFullDemo.g_activeGrainCount ≤ 10 ∧
    (handleDejaVuTrigger flatLuts (fun _ => 2) 0 nearlyFullDemo).g_activeGrainCount =
      nearlyFullDemo.g_activeGrainCount +
        min (1 + (fun _ => 2) (if (fun _ => 2) 0 % 32768 <
          toUInt32 nearlyFullDemo.g_params.deja_vu_q15 then 1 else 4) % 3)
          (freeBelow nearlyFullDemo.g_grains 10) ∧
    (handleDejaVuTrigger flatLuts (fun _ => 2) 0 nearlyFullDemo).g_activeGrainCount = 10 :=
  have hr : Reachable flatLuts nearlyFullDemo :=
    Reachable.trigger _ (fun _ => 2) 0
      (Reachable.trigger _ (fun _ => 2) 0
        (Reachable.trigger readyState (fun _ => 2) 0
          (Reachable.init readyState ⟨rfl, fun _ _ => rfl⟩)))
  have hready : nearlyFullDemo.g_grainBufferReady = true := by decide
  have h := trigger_fills_lowest_free_slots flatLuts (fun _ => 2) 0 nearlyFullDemo hr
  ⟨hr, hready, by decide, by decide, h.1, (h.2 hready).2.2.2, by decide⟩

/-! ## Grain position theorems -/

theorem toUInt16_of_lt (x : Int) (h0 : 0 ≤ x) (h1 : x < 65536) : (toUInt16 x : Int) = x := by
  unfold toUInt16
  omega

theorem toInt32_of_range (x : Int) (h0 : -2147483648 ≤ x) (h1 : x ≤ 2147483647) :
    toInt32 x = x := by
  unfold toInt32
  omega

theorem shiftRight16 (x : Int) : x >>> (16 : Nat) = x / 65536 := by
  rw [Int.shiftRight_eq_div_pow]
  norm_num

theorem constrain_range (a lo hi : Int) (h : lo ≤ hi) :
    lo ≤ constrain a lo hi ∧ constrain a lo hi ≤ hi := by
  unfold constrain
  split_ifs <;> omega

theorem toInt16_of_range (x : Int) (h0 : -32768 ≤ x) (h1 : x ≤ 32767) : toInt16 x = x := by
  unfold toInt16
  omega

/-- The length computed by `calculateGrainLength` lies in `[3737, 32767]`. -/
theorem calculateGrainLength_range (L : Luts) (base_size texture : Int) (s : State) :
    3737 ≤ (calculateGrainLength L base_size texture s).1 ∧
    (calculateGrainLength L base_size texture s).1 ≤ 32767 := by
  simp only [calculateGrainLength, MIN_SIZE_Q15, MAX_GRAIN_SIZE, MIN_GRAIN_SIZE]
  generalize base_size +
    (toInt32 (texture * L.g_random_lut_q15 (s.g_random_index % RANDOM_LUT_SIZE)) >>> (15 : Nat))
      >>> (1 : Nat) = a
  obtain ⟨h1, h2⟩ := constrain_range a 3277 32767 (by decide)
  rw [toInt16_of_range _ (by omega) (by omega), Nat.shiftRight_eq_div_pow]
  generalize constrain a 3277 32767 = c at h1 h2
  obtain ⟨k, rfl⟩ : ∃ k : Nat, c = (k : Int) := ⟨c.toNat, by omega⟩
  have e1 : toUInt32 ((32768 - 512) * (k : Int)) = 32256 * k := by
    unfold toUInt32
    omega
  rw [e1]
  have e2 : 3225 ≤ 32256 * k / 2 ^ 15 ∧ 32256 * k / 2 ^ 15 ≤ 32255 := by
    norm_num
    omega
  generalize 32256 * k / 2 ^ 15 = q at e2
  unfold toUInt16
  omega

/-- The speed computed by `calculateGrainSpeed` lies in `[16384, 262144]`. -/
theorem calculateGrainSpeed_range (L : Luts) (base_pitch : ℚ) (texture : Int) (s : State) :
    16384 ≤ (calculateGrainSpeed L base_pitch texture s).1 ∧
    (calculateGrainSpeed L base_pitch texture s).1 ≤ 262144 := by
  have h : ∃ x, (calculateGrainSpeed L base_pitch texture s).1 =
      constrain x (1 * 2 ^ 14) (4 * 2 ^ 16) := ⟨_, rfl⟩
  obtain ⟨x, hx⟩ := h
  rw [hx]
  have := constrain_range x (1 * 2 ^ 14) (4 * 2 ^ 16) (by norm_num)
  norm_num at this
  exact this

/-- The fields computed by `triggerGrain`, as functions of the intermediate
results. -/
theorem triggerGrainFields_values (L : Luts) (p : ParamSnapshot) (s : State) :
    ∃ (s1 s2 s4 : State),
      (triggerGrainFields L p s).1.length = (calculateGrainLength L p.size_q15 p.texture_q15 s).1 ∧
      (triggerGrainFields L p s).1.speed_q16 = (calculateGrainSpeed L p.pitch_f p.texture_q15 s2).1 ∧
      (triggerGrainFields L p s).1.position_q16 =
        (if s4.g_params.mode = .MODE_REVERSE then
          toInt32 ((((calculateGrainLength L p.size_q15 p.texture_q15 s).1 : Int) - 1) * 2 ^ 16)
        else 0) ∧
      s4.g_params = s.g_params ∧
      (triggerGrainFields L p s).1.startPos =
        (calculateGrainStartPosition L p.position_q15 p.texture_q15 s1).1 ∧
      s1.g_grainWritePos = s.g_grainWritePos :=
  ⟨_, _, _, rfl, rfl, rfl, rfl, rfl, rfl⟩

/-- Every grain made by `triggerGrain` is well formed. -/
theorem triggerGrainFields_grainOk (L : Luts) (p : ParamSnapshot) (s : State) :
    GrainOk (triggerGrainFields L p s).1 := by
  obtain ⟨s1, s2, s4, hlen, hspeed, hpos, -, -, -⟩ := triggerGrainFields_values L p s
  obtain ⟨hl1, hl2⟩ := calculateGrainLength_range L p.size_q15 p.texture_q15 s
  obtain ⟨hs1, hs2⟩ := calculateGrainSpeed_range L p.pitch_f p.texture_q15 s2
  unfold GrainOk
  rw [hlen, hspeed, hpos]
  generalize (calculateGrainLength L p.size_q15 p.texture_q15 s).1 = len at hl1 hl2
  refine ⟨by omega, hs2, hl2, ?_, ?_⟩
  · split_ifs
    · unfold toInt32
      omega
    · exact le_refl _
  · split_ifs
    · unfold toInt32
      omega
    · omega

/-- The integer position read by `renderGrain` for a well-formed grain. -/
theorem pos_int_of_grainOk (g : Grain) (h : GrainOk g) :
    (toUInt16 (g.position_q16 >>> (16 : Nat)) : Int) = g.position_q16 / 65536 ∧
    0 ≤ g.position_q16 / 65536 ∧ g.position_q16 / 65536 < 32771 := by
  obtain ⟨_, _, hl, hp0, hp1⟩ := h
  have hl2 : (g.length : Int) ≤ 32767 := by exact_mod_cast hl
  rw [shiftRight16]
  have h0 : 0 ≤ g.position_q16 / 65536 := by omega
  have h1 : g.position_q16 / 65536 < 32771 := by omega
  exact ⟨toUInt16_of_lt _ h0 (by omega), h0, h1⟩

/-- The grain returned by `renderGrain` when the position is past the end. -/
theorem renderGrain_past_end (L : Luts) (s : State) (g : Grain)
    (h : toUInt16 (g.position_q16 >>> (16 : Nat)) ≥ g.length) :
    renderGrain L s g = (0, { g with active := false }) := by
  unfold renderGrain
  simp only
  rw [if_pos h]

/-- The grain returned by `renderGrain` when the position is inside the
fragment: the position advanced by the signed speed, and the flag cleared if the
new position is negative. -/
theorem renderGrain_inside (L : Luts) (s : State) (g : Grain)
    (h : ¬ toUInt16 (g.position_q16 >>> (16 : Nat)) ≥ g.length) :
    (renderGrain L s g).2 =
      (if toInt32 (g.position_q16 +
          (if s.g_params.mode = .MODE_REVERSE then toInt32 (-g.speed_q16) else g.speed_q16)) < 0
        then
          { g with
            position_q16 := toInt32 (g.position_q16 +
              (if s.g_params.mode = .MODE_REVERSE then toInt32 (-g.speed_q16) else g.speed_q16))
            active := false }
        else
          { g with
            position_q16 := toInt32 (g.position_q16 +
              (if s.g_params.mode = .MODE_REVERSE then toInt32 (-g.speed_q16)
                else g.speed_q16)) }) := by
  unfold renderGrain
  simp only
  rw [if_neg h]

/-- C10 (amended): one render call on a well-formed grain.
In both modes a grain that is active afterwards is well formed again, has a
non-negative position, and had its integer position inside `[0, length)` when
the sample was read.  In reverse mode the integer position afterwards is inside
`[0, length)` again, and the flag is cleared on the very call whose advance
takes the position below zero.  In forward mode (no 32-bit overflow of the
addition) the call whose advance takes the position to `length` or beyond
leaves the flag as it was; a call that finds the integer position at `length`
or beyond clears the flag, returns 0 and leaves the position alone. -/
theorem render_position_bounds (L : Luts) (s : State) (g : Grain) (hok : GrainOk g) :
    ((renderGrain L s g).2.active = true →
      GrainOk (renderGrain L s g).2 ∧ g.active = true ∧
      0 ≤ g.position_q16 >>> (16 : Nat) ∧ g.position_q16 >>> (16 : Nat) < (g.length : Int) ∧
      0 ≤ (renderGrain L s g).2.position_q16) ∧
    (s.g_params.mode = .MODE_REVERSE →
      ((renderGrain L s g).2.active = true →
        0 ≤ (renderGrain L s g).2.position_q16 >>> (16 : Nat) ∧
        (renderGrain L s g).2.position_q16 >>> (16 : Nat) < ((renderGrain L s g).2.length : Int)) ∧
      (g.active = true → g.position_q16 >>> (16 : Nat) < (g.length : Int) →
        ((renderGrain L s g).2.active = false ↔ g.position_q16 - g.speed_q16 < 0))) ∧
    (s.g_params.mode = .MODE_GRANULAR →
      (g.position_q16 >>> (16 : Nat) < (g.length : Int) →
        g.position_q16 + g.speed_q16 ≤ 2147483647 →
        (renderGrain L s g).2.active = g.active ∧
        (renderGrain L s g).2.position_q16 = g.position_q16 + g.speed_q16) ∧
      ((g.length : Int) ≤ g.position_q16 >>> (16 : Nat) →
        (renderGrain L s g).2.active = false ∧ (renderGrain L s g).1 = 0 ∧
        (renderGrain L s g).2.position_q16 = g.position_q16)) := by
  obtain ⟨hpi, hpi0, hpi1⟩ := pos_int_of_grainOk g hok
  obtain ⟨hs0, hs1, hl, hp0, hp1⟩ := hok
  have hl2 : (g.length : Int) ≤ 32767 := by exact_mod_cast hl
  have hsh := shiftRight16 g.position_q16
  have hguard : toUInt16 (g.position_q16 >>> (16 : Nat)) ≥ g.length ↔
      (g.length : Int) ≤ g.position_q16 / 65536 := by
    rw [← hpi]
    exact ⟨fun h => by exact_mod_cast h, fun h => by exact_mod_cast h⟩
  by_cases hin : toUInt16 (g.position_q16 >>> (16 : Nat)) ≥ g.length
  · -- past the end: flag cleared, nothing read
    have hr := renderGrain_past_end L s g hin
    have hge := hguard.mp hin
    rw [hr]
    refine ⟨?_, ?_, ?_⟩
    · intro h
      exact Bool.noConfusion h
    · intro _
      refine ⟨fun h => Bool.noConfusion h, ?_⟩
      intro _ hlt
      rw [hsh] at hlt
      omega
    · intro _
      refine ⟨?_, ?_⟩
      · intro hlt
        rw [hsh] at hlt
        omega
      · intro _
        exact ⟨rfl, rfl, rfl⟩
  · -- inside the fragment
    have hlt : g.position_q16 / 65536 < (g.length : Int) := by
      have := mt hguard.mpr hin
      omega
    have hr := renderGrain_inside L s g hin
    have hneg : toInt32 (-g.speed_q16) = -g.speed_q16 := toInt32_of_range _ (by omega) (by omega)
    cases hm : s.g_params.mode with
    | MODE_REVERSE =>
      rw [hm] at hr
      simp only [if_true, hneg] at hr
      have hadv : toInt32 (g.position_q16 + -g.speed_q16) = g.position_q16 - g.speed_q16 := by
        rw [toInt32_of_range _ (by omega) (by omega)]
        ring
      rw [hadv] at hr
      by_cases hb : g.position_q16 - g.speed_q16 < 0
      · rw [if_pos hb] at hr
        rw [hr]
        refine ⟨fun h => Bool.noConfusion h, ?_, ?_⟩
        · intro _
          exact ⟨fun h => Bool.noConfusion h, fun _ _ => ⟨fun _ => hb, fun _ => rfl⟩⟩
        · intro h
          exact PlayMode.noConfusion h
      · rw [if_neg hb] at hr
        rw [hr]
        have hsh2 := shiftRight16 (g.position_q16 - g.speed_q16)
        refine ⟨?_, ?_, ?_⟩
        · intro ha
          refine ⟨⟨hs0, hs1, hl, by show 0 ≤ g.position_q16 - g.speed_q16; omega,
            by show g.position_q16 - g.speed_q16 < ((g.length : Int) + 4) * 65536; omega⟩, ha, ?_, ?_, ?_⟩
          · rw [hsh]; exact hpi0
          · rw [hsh]; exact hlt
          · show 0 ≤ g.position_q16 - g.speed_q16
            omega
        · intro _
          refine ⟨?_, ?_⟩
          · intro _
            show 0 ≤ (g.position_q16 - g.speed_q16) >>> (16 : Nat) ∧
              (g.position_q16 - g.speed_q16) >>> (16 : Nat) < (g.length : Int)
            rw [hsh2]
            constructor <;> omega
          · intro ha _
            show g.active = false ↔ _
            rw [ha]
            exact ⟨fun h => Bool.noConfusion h, fun h => absurd h hb⟩
        · intro h
          exact PlayMode.noConfusion h
    | MODE_GRANULAR =>
      rw [hm] at hr
      simp only [reduceCtorEq, if_false] at hr
      refine ⟨?_, ?_, ?_⟩
      · intro ha
        by_cases hb : toInt32 (g.position_q16 + g.speed_q16) < 0
        · rw [if_pos hb] at hr
          rw [hr] at ha
          exact Bool.noConfusion ha
        · rw [if_neg hb] at hr
          have hno : g.position_q16 + g.speed_q16 ≤ 2147483647 := by
            by_contra hcon
            apply hb
            unfold toInt32
            omega
          have hadv : toInt32 (g.position_q16 + g.speed_q16) = g.position_q16 + g.speed_q16 :=
            toInt32_of_range _ (by omega) hno
          rw [hadv] at hr
          rw [hr] at ha ⊢
          refine ⟨⟨hs0, hs1, hl, by show 0 ≤ g.position_q16 + g.speed_q16; omega,
            by show g.position_q16 + g.speed_q16 < ((g.length : Int) + 4) * 65536; omega⟩, ha, ?_, ?_, ?_⟩
          · rw [hsh]; exact hpi0
          · rw [hsh]; exact hlt
          · show 0 ≤ g.position_q16 + g.speed_q16
            omega
      · intro h
        exact PlayMode.noConfusion h
      · intro _
        refine ⟨?_, ?_⟩
        · intro _ hno
          have hadv : toInt32 (g.position_q16 + g.speed_q16) = g.position_q16 + g.speed_q16 :=
            toInt32_of_range _ (by omega) hno
          rw [hadv, if_neg (by omega)] at hr
          rw [hr]
          exact ⟨rfl, rfl⟩
        · intro hge
          rw [hsh] at hge
          omega

/-- Counterexample to C10 as stated: a forward grain of length 4000 whose
integer position is 3999 (inside the fragment) is still active after the
render call that advances it, with integer position 4000, outside
`[0, length)`; the flag was not cleared on the call whose advance left the
range. -/
theorem forward_grain_overruns_length :
    (readyState.g_params.mode = .MODE_GRANULAR ∧ lastSampleGrain.active = true ∧
      0 ≤ lastSampleGrain.position_q16 >>> (16 : Nat) ∧
      lastSampleGrain.position_q16 >>> (16 : Nat) < (lastSampleGrain.length : Int)) ∧
    (renderGrain flatLuts readyState lastSampleGrain).2.active = true ∧
    ¬ ((renderGrain flatLuts readyState lastSampleGrain).2.position_q16 >>> (16 : Nat) <
        ((renderGrain flatLuts readyState lastSampleGrain).2.length : Int)) := by
  decide

/-- Witness for C10 (amended): the forward step on `lastSampleGrain` keeps the
flag while the position reaches the length, and the reverse step on
`reverseEndGrain` (play mode of `demoState` is reverse) clears the flag on the
call whose advance goes below zero. -/
theorem render_position_bounds_witness :
    GrainOk lastSampleGrain ∧
    readyState.g_params.mode = .MODE_GRANULAR ∧
    (renderGrain flatLuts readyState lastSampleGrain).2.active = lastSampleGrain.active ∧
    (renderGrain flatLuts readyState lastSampleGrain).2.position_q16 =
      lastSampleGrain.position_q16 + lastSampleGrain.speed_q16 ∧
    GrainOk reverseEndGrain ∧
    demoState.g_params.mode = .MODE_REVERSE ∧
    reverseEndGrain.position_q16 - reverseEndGrain.speed_q16 < 0 ∧
    (renderGrain flatLuts demoState reverseEndGrain).2.active = false :=
  have hok : GrainOk lastSampleGrain := by
    unfold GrainOk
    decide
  have hok2 : GrainOk reverseEndGrain := by
    unfold GrainOk
    decide
  have hfwd := ((render_position_bounds flatLuts readyState lastSampleGrain hok).2.2 rfl).1
    (by decide) (by decide)
  have hrev := ((render_position_bounds flatLuts demoState reverseEndGrain hok2).2.1 rfl).2
    (by decide) (by decide)
  ⟨hok, rfl, hfwd.1, hfwd.2, hok2, rfl, by decide, hrev.mpr (by decide)⟩

/-! ## Input queue theorems -/

/-- C16: `AudioRingBuffer.write` on a full queue (the slot after the write
position is the read position) returns false and leaves the data, the write
position and the read position unchanged; on a non-full queue it stores the
sample at the write position, advances the write position by one modulo 4096,
leaves the read position and returns true; `read` on an empty queue returns
false and changes neither the queue nor the caller's sample.  Consequently a
block of one frame delivered by `a2dp_data_callback` to a full queue is
dropped. -/
theorem ring_buffer_write_read (rb : AudioRingBuffer) (sample old : Int) :
    ((rb.writePos + 1) % 4096 = rb.readPos →
      (rb.write sample).1 = false ∧ (rb.write sample).2 = rb) ∧
    ((rb.writePos + 1) % 4096 ≠ rb.readPos →
      (rb.write sample).1 = true ∧
      (rb.write sample).2.data = Function.update rb.data rb.writePos sample ∧
      (rb.write sample).2.data rb.writePos = sample ∧
      (rb.write sample).2.writePos = (rb.writePos + 1) % 4096 ∧
      (rb.write sample).2.readPos = rb.readPos) ∧
    (rb.readPos = rb.writePos →
      (rb.read old).1 = false ∧ (rb.read old).2.1 = old ∧ (rb.read old).2.2 = rb) ∧
    ((rb.writePos + 1) % 4096 = rb.readPos →
      ∀ (samples : Nat → Int) (st : State), st.g_ringBuffer = rb →
        (a2dp_data_callback samples 4 st).g_ringBuffer = rb) := by
  have hnext : toUInt16 (((rb.writePos + 1) % RING_BUFFER_SIZE : Nat) : Int)
      = (rb.writePos + 1) % 4096 := by
    unfold toUInt16 RING_BUFFER_SIZE
    omega
  refine ⟨?_, ?_, ?_, ?_⟩
  · intro h
    unfold AudioRingBuffer.write
    simp only [hnext]
    rw [if_pos h]
    exact ⟨rfl, rfl⟩
  · intro h
    unfold AudioRingBuffer.write
    simp only [hnext]
    rw [if_neg h]
    exact ⟨rfl, rfl, Function.update_same _ _ _, rfl, rfl⟩
  · intro h
    unfold AudioRingBuffer.read
    rw [if_pos h]
    exact ⟨rfl, rfl, rfl⟩
  · intro h samples st hst
    have hw : ∀ x, (rb.write x).2 = rb := by
      intro x
      unfold AudioRingBuffer.write
      simp only [hnext]
      rw [if_pos h]
    simp only [a2dp_data_callback, hst]
    show a2dpLoop samples 1 1 rb = rb
    simp only [a2dpLoop, hw]

/-- Witness for C16: a write to `fullQueue` is rejected, a write to
`emptyQueue` wraps the write position to 0, and a read of `emptyQueue` fails. -/
theorem ring_buffer_write_read_witness :
    (fullQueue.writePos + 1) % 4096 = fullQueue.readPos ∧
    (fullQueue.write 5).1 = false ∧ (fullQueue.write 5).2 = fullQueue ∧
    (emptyQueue.writePos + 1) % 4096 ≠ emptyQueue.readPos ∧
    (emptyQueue.write 5).1 = true ∧
    (emptyQueue.write 5).2.data emptyQueue.writePos = 5 ∧
    (emptyQueue.write 5).2.writePos = 0 ∧
    emptyQueue.readPos = emptyQueue.writePos ∧
    (emptyQueue.read 9).1 = false ∧ (emptyQueue.read 9).2.1 = 9 :=
  have hf : (fullQueue.writePos + 1) % 4096 = fullQueue.readPos := by decide
  have he : (emptyQueue.writePos + 1) % 4096 ≠ emptyQueue.readPos := by decide
  have h1 := (ring_buffer_write_read fullQueue 5 0).1 hf
  have h2 := (ring_buffer_write_read emptyQueue 5 0).2.1 he
  have h3 := (ring_buffer_write_read emptyQueue 5 9).2.2.1 rfl
  ⟨hf, h1.1, h1.2, he, h2.1, h2.2.2.1, by rw [h2.2.2.2.1]; decide, rfl, h3.1, h3.2.1⟩

/-! ## Sample pipeline theorems -/

/-- The render loop writes nothing but the grain pool, the active-index list and
the active count. -/
theorem renderLoop_frame (L : Luts) (n : Nat) :
    ∀ (i : Nat) (s : State) (wetL wetR : Int), ∃ g idx c,
      (renderLoop L n i (s, wetL, wetR)).1 =
        { s with g_grains := g, g_activeGrainIndices := idx, g_activeGrainCount := c } := by
  induction n with
  | zero =>
    intro i s wetL wetR
    exact ⟨s.g_grains, s.g_activeGrainIndices, s.g_activeGrainCount, rfl⟩
  | succ n ih =>
    intro i s wetL wetR
    rw [renderLoop]
    by_cases hi : i < s.g_activeGrainCount
    · rw [if_pos hi]
      simp only
      by_cases ha : (renderGrain L s (s.g_grains (s.g_activeGrainIndices i))).2.active = true
      · rw [if_pos ha]
        obtain ⟨g, idx, c, h⟩ := ih (i + 1) _ _ _
        exact ⟨g, idx, c, by rw [h]⟩
      · rw [if_neg ha]
        obtain ⟨g, idx, c, h⟩ := ih i _ _ _
        exact ⟨g, idx, c, by rw [h]⟩
    · rw [if_neg hi]
      exact ⟨s.g_grains, s.g_activeGrainIndices, s.g_activeGrainCount, rfl⟩

/-- The function `renderAllGrains` writes nothing but the grain pool, the
active-index list and the active count. -/
theorem renderAllGrains_frame (L : Luts) (wetL wetR : Int) (s : State) : ∃ g idx c,
    (renderAllGrains L wetL wetR s).1 =
      { s with g_grains := g, g_activeGrainIndices := idx, g_activeGrainCount := c } := by
  unfold renderAllGrains
  split_ifs
  · exact ⟨s.g_grains, s.g_activeGrainIndices, s.g_activeGrainCount, rfl⟩
  · exact renderLoop_frame L _ _ _ _ _

/-- With the buffer not ready, `renderAllGrains` returns its arguments. -/
theorem renderAllGrains_not_ready (L : Luts) (wetL wetR : Int) (s : State)
    (h : s.g_grainBufferReady = false) : renderAllGrains L wetL wetR s = (s, wetL, wetR) := by
  unfold renderAllGrains
  rw [if_pos (Or.inl h)]

/-- What `storeInput` writes. -/
theorem storeInput_fields (x : Int) (s : State) :
    (storeInput x s).g_grainWritePos = (s.g_grainWritePos + 1) % 32768 ∧
    (storeInput x s).g_grainBufferReady =
      (if s.g_grainBufferReady = false ∧ (s.g_grainWritePos + 1) % 32768 > 16384 then true
        else s.g_grainBufferReady) ∧
    (storeInput x s).g_grainBuffer =
      Function.update s.g_grainBuffer s.g_grainWritePos (toInt16 (mixedInput x s)) ∧
    (storeInput x s).g_params = s.g_params := by
  have hnext : toUInt16 (((s.g_grainWritePos + 1) % GRAIN_BUFFER_SIZE : Nat) : Int)
      = (s.g_grainWritePos + 1) % 32768 := by
    unfold toUInt16 GRAIN_BUFFER_SIZE
    omega
  have e : GRAIN_BUFFER_SIZE / 2 = 16384 := by decide
  unfold storeInput
  simp only [hnext, e]
  split_ifs <;> exact ⟨rfl, rfl, rfl, rfl⟩

/-- The state returned by `processAudioSample` is the state after the render
pass with the feedback line and the staging buffer written. -/
theorem processAudioSample_state (L : Luts) (x : Int) (s : State) : ∃ fb fbp ib ibp,
    (processAudioSample L x s).1 =
      { (renderAllGrains L 0 0 (storeInput x s)).1 with
        feedbackBuffer := fb, fbWritePos := fbp, i2s_buffer := ib, i2s_buffer_pos := ibp } := by
  unfold processAudioSample
  simp only
  split_ifs <;> exact ⟨_, _, _, _, rfl⟩

/-- The history, parameter and flag fields after one `processAudioSample`. -/
theorem processAudioSample_fields (L : Luts) (x : Int) (s : State) :
    (processAudioSample L x s).1.g_grainWritePos = (s.g_grainWritePos + 1) % 32768 ∧
    (processAudioSample L x s).1.g_grainBufferReady =
      (if s.g_grainBufferReady = false ∧ (s.g_grainWritePos + 1) % 32768 > 16384 then true
        else s.g_grainBufferReady) ∧
    (processAudioSample L x s).1.g_grainBuffer =
      Function.update s.g_grainBuffer s.g_grainWritePos (toInt16 (mixedInput x s)) ∧
    (processAudioSample L x s).1.g_params = s.g_params := by
  obtain ⟨fb, fbp, ib, ibp, h⟩ := processAudioSample_state L x s
  obtain ⟨g, idx, c, hr⟩ := renderAllGrains_frame L 0 0 (storeInput x s)
  rw [h, hr]
  exact storeInput_fields x s

/-- The output frame of `processAudioSample`. -/
theorem processAudioSample_out (L : Luts) (x : Int) (s : State) :
    (processAudioSample L x s).2.1 =
      blendOutput x (toInt16 (constrain (renderAllGrains L 0 0 (storeInput x s)).2.1 (-32767) 32767))
        (renderAllGrains L 0 0 (storeInput x s)).1.g_params.dryWet_q15 ∧
    (processAudioSample L x s).2.2 =
      blendOutput x (toInt16 (constrain (renderAllGrains L 0 0 (storeInput x s)).2.2 (-32768) 32767))
        (renderAllGrains L 0 0 (storeInput x s)).1.g_params.dryWet_q15 :=
  ⟨rfl, rfl⟩

theorem shiftRight15 (x : Int) : x >>> (15 : Nat) = x / 32768 := by
  rw [Int.shiftRight_eq_div_pow]
  norm_num

/-- Product of a 16-bit sample and a Q15 gain. -/
theorem sample_gain_bounds (x d : Int) (hx0 : -32768 ≤ x) (hx1 : x ≤ 32767)
    (hd0 : 0 ≤ d) (hd1 : d ≤ 32767) :
    -(32768 * 32767) ≤ x * d ∧ x * d ≤ 32767 * 32767 := by
  constructor <;> nlinarith

/-- The write position after a block of samples. -/
theorem processSamples_writePos (L : Luts) (inputs : List Int) :
    ∀ s : State, s.g_grainWritePos < 32768 →
      (processSamples L inputs s).g_grainWritePos =
        (s.g_grainWritePos + inputs.length) % 32768 := by
  induction inputs with
  | nil =>
    intro s hs
    simp only [processSamples, List.foldl_nil, List.length_nil, Nat.add_zero]
    omega
  | cons x xs ih =>
    intro s hs
    have h1 := (processAudioSample_fields L x s).1
    have h2 := ih (processAudioSample L x s).1 (by rw [h1]; omega)
    have e : processSamples L (x :: xs) s = processSamples L xs (processAudioSample L x s).1 := rfl
    rw [e, h2, h1, List.length_cons]
    omega

/-- With zero texture the start offset is the write position minus the base
position, modulo the buffer size. -/
theorem calculateGrainStartPosition_zero_texture (L : Luts) (p : Int) (s : State)
    (hp0 : 0 ≤ p) (hp1 : p ≤ 32767) :
    ((calculateGrainStartPosition L p 0 s).1 : Int) = ((s.g_grainWritePos : Int) - p) % 32768 := by
  have e0 : toInt32 (0 * L.g_random_lut_q15 (s.g_random_index % RANDOM_LUT_SIZE)) >>> (15 : Nat)
      = 0 := by
    rw [zero_mul]
    decide
  have e1 : toInt32 (truncf (((0 : Int) : ℚ) * POSITION_TEXTURE_SCALE)) = 0 := by
    have : truncf (((0 : Int) : ℚ) * POSITION_TEXTURE_SCALE) = 0 := by
      simp [truncf]
    rw [this]
    decide
  have e2 : toInt16 (constrain (p + 0) 0 32767) = p := by
    unfold constrain
    rw [if_neg (by omega), if_neg (by omega), toInt16_of_range _ (by omega) (by omega)]
    omega
  obtain ⟨k, rfl⟩ : ∃ k : Nat, p = (k : Int) := ⟨p.toNat, by omega⟩
  have e3 : toUInt32 ((GRAIN_BUFFER_SIZE : Int) * (k : Int)) >>> (15 : Nat) = k := by
    rw [Nat.shiftRight_eq_div_pow]
    unfold toUInt32 GRAIN_BUFFER_SIZE
    norm_num
    omega
  simp only [calculateGrainStartPosition, e0, e1, e2, e3]
  unfold toUInt32 toUInt16 GRAIN_BUFFER_SIZE
  omega

/-- The grain stored by `triggerGrain` in a valid slot. -/
theorem triggerGrain_grain (L : Luts) (i : Nat) (p : ParamSnapshot) (s : State)
    (hi : i < MAX_GRAINS) :
    (triggerGrain L (i : Int) p s).g_grains i = (triggerGrainFields L p s).1 := by
  have h1 : ¬ ((i : Int) < 0 ∨ (i : Int) ≥ (MAX_GRAINS : Int)) := by
    simp only [MAX_GRAINS] at hi ⊢
    omega
  obtain ⟨hfg, -⟩ := triggerGrainFields_frame L p s
  unfold triggerGrain
  rw [if_neg h1]
  simp only [triggerGrainRegister, Int.toNat_ofNat, hfg]
  split_ifs <;> exact Function.update_same _ _ _

/-- Inside the fragment `renderGrain` returns the windowed sample read at
`grainReadIndex`. -/
theorem renderGrain_sample (L : Luts) (s : State) (g : Grain)
    (h : grainPosInt g < g.length) :
    (renderGrain L s g).1 = grainWindowedSample L s g := by
  have h2 : ¬ toUInt16 (g.position_q16 >>> (16 : Nat)) ≥ g.length := by
    unfold grainPosInt at h
    omega
  unfold renderGrain
  simp only
  rw [if_neg h2]
  rfl

/-- C12: starting from write position 0, after `n` calls of
`processAudioSample` the history write position is `n mod 32768`; a grain
triggered (in forward mode) at write position `w` with base position `p` in
`0..32767` and zero texture gets the start offset `(w - p) mod 32768`, and its
first forward-mode render call reads the history buffer at exactly that index. -/
theorem write_position_and_start_offset (L : Luts) (inputs : List Int) (s t u : State)
    (i : Nat) (params : ParamSnapshot) :
    (s.g_grainWritePos = 0 →
      (processSamples L inputs s).g_grainWritePos = inputs.length % 32768) ∧
    (0 ≤ params.position_q15 → params.position_q15 ≤ 32767 →
      params.texture_q15 = 0 → i < 10 → t.g_params.mode = .MODE_GRANULAR →
      (((triggerGrain L (i : Int) params t).g_grains i).startPos : Int) =
        ((t.g_grainWritePos : Int) - params.position_q15) % 32768 ∧
      (u.g_params.mode = .MODE_GRANULAR →
        (grainReadIndex u ((triggerGrain L (i : Int) params t).g_grains i) : Int) =
          ((t.g_grainWritePos : Int) - params.position_q15) % 32768 ∧
        (renderGrain L u ((triggerGrain L (i : Int) params t).g_grains i)).1 =
          grainWindowedSample L u ((triggerGrain L (i : Int) params t).g_grains i))) := by
  constructor
  · intro h0
    have := processSamples_writePos L inputs s (by omega)
    rw [this, h0, Nat.zero_add]
  · intro hp0 hp1 htex hi hmode
    rw [triggerGrain_grain L i params t hi]
    obtain ⟨s1, s2, s4, hlen, -, hpos, hpar, hstart, hwp⟩ := triggerGrainFields_values L params t
    have hst : (((triggerGrainFields L params t).1.startPos : Nat) : Int) =
        ((t.g_grainWritePos : Int) - params.position_q15) % 32768 := by
      rw [hstart, htex, calculateGrainStartPosition_zero_texture L _ s1 hp0 hp1, hwp]
    have hposz : (triggerGrainFields L params t).1.position_q16 = 0 := by
      rw [hpos, hpar, hmode]
      rfl
    have hlen2 := (calculateGrainLength_range L params.size_q15 params.texture_q15 t).1
    refine ⟨hst, ?_⟩
    intro hu
    have hpi : grainPosInt (triggerGrainFields L params t).1 = 0 := by
      unfold grainPosInt
      rw [hposz]
      decide
    constructor
    · unfold grainReadIndex grainReadOffset
      rw [hu, hpi]
      simp only [reduceCtorEq, if_false]
      unfold toUInt16 GRAIN_BUFFER_SIZE
      omega
    · apply renderGrain_sample
      rw [hpi, hlen]
      omega

/-- Witness for C12: 20000 samples from write position 0 leave the write
position at 20000, and a grain triggered there with base position 5000 and zero
texture starts at, and first reads, index 15000. -/
theorem write_position_and_start_offset_witness :
    initialState.g_grainWritePos = 0 ∧
    (processSamples flatLuts (List.replicate 20000 0) initialState).g_grainWritePos = 20000 ∧
    written20000.g_grainWritePos = 20000 ∧ lookback5000.position_q15 = 5000 ∧
    ((triggerGrain flatLuts ((0 : Nat) : Int) lookback5000 written20000).g_grains 0).startPos
      = 15000 ∧
    grainReadIndex readyState
      ((triggerGrain flatLuts ((0 : Nat) : Int) lookback5000 written20000).g_grains 0) = 15000 :=
  have h := write_position_and_start_offset flatLuts (List.replicate 20000 0) initialState
    written20000 readyState 0 lookback5000
  have h2 := h.2 (by decide) (by decide) rfl (by decide) rfl
  ⟨rfl, by rw [h.1 rfl, List.length_replicate], rfl, rfl,
    by have := h2.1; simp only [written20000, lookback5000] at this ⊢; omega,
    by have := (h2.2 rfl).1; simp only [written20000, lookback5000] at this ⊢; omega⟩

/-- The spawn loop leaves the ready flag, the live parameters and the history
buffer alone. -/
theorem spawnGrains_frame (L : Luts) (rnd : Nat → Nat) (p : ParamSnapshot) (n rem : Nat) :
    ∀ (gen k : Nat) (s : State),
      (spawnGrains L rnd p n rem gen k s).g_grainBufferReady = s.g_grainBufferReady ∧
      (spawnGrains L rnd p n rem gen k s).g_params = s.g_params ∧
      (spawnGrains L rnd p n rem gen k s).g_grainBuffer = s.g_grainBuffer ∧
      (spawnGrains L rnd p n rem gen k s).g_grainWritePos = s.g_grainWritePos := by
  induction rem with
  | zero =>
    intro gen k s
    exact ⟨rfl, rfl, rfl, rfl⟩
  | succ rem ih =>
    intro gen k s
    rw [spawnGrains]
    simp only
    split_ifs
    · obtain ⟨a, b, c, d⟩ := ih (toUInt8 ((gen : Int) + 1)) (k + 2)
        (triggerGrain L ((MAX_GRAINS - (rem + 1) : Nat) : Int)
          { p with
            pitch_f := p.pitch_f + ((toInt16 (((rnd k % 4001 : Nat) : Int) - 2000) : Int) : ℚ) / 1000
            position_q15 := toInt16 (constrain (p.position_q15 +
              toInt16 (((rnd (k + 1) % 6553 : Nat) : Int) - 3276)) 0 32767) } s)
      obtain ⟨f1, f2, -, -, f5, f6⟩ := triggerGrain_frame L ((MAX_GRAINS - (rem + 1) : Nat) : Int)
        { p with
          pitch_f := p.pitch_f + ((toInt16 (((rnd k % 4001 : Nat) : Int) - 2000) : Int) : ℚ) / 1000
          position_q15 := toInt16 (constrain (p.position_q15 +
            toInt16 (((rnd (k + 1) % 6553 : Nat) : Int) - 3276)) 0 32767) } s
      exact ⟨by rw [a, f2], by rw [b, f1], by rw [c, f5], by rw [d, f6]⟩
    · obtain ⟨a, b, c, d⟩ := ih (toUInt8 ((gen : Int) + 1)) k
        (triggerGrain L ((MAX_GRAINS - (rem + 1) : Nat) : Int) p s)
      obtain ⟨f1, f2, -, -, f5, f6⟩ :=
        triggerGrain_frame L ((MAX_GRAINS - (rem + 1) : Nat) : Int) p s
      exact ⟨by rw [a, f2], by rw [b, f1], by rw [c, f5], by rw [d, f6]⟩
    · exact ih gen k s
    · exact ⟨rfl, rfl, rfl, rfl⟩

/-- The function `handleDejaVuTrigger` never changes the ready flag. -/
theorem handleDejaVuTrigger_ready (L : Luts) (rnd : Nat → Nat) (now_ms : Nat) (s : State) :
    (handleDejaVuTrigger L rnd now_ms s).g_grainBufferReady = s.g_grainBufferReady := by
  by_cases hready : s.g_grainBufferReady = true
  · obtain ⟨p, s1, k, -, h1, heq⟩ := handleDejaVuTrigger_shape L rnd now_ms s hready
    rw [heq]
    show (spawnGrains L rnd p _ MAX_GRAINS 0 k s1).g_grainBufferReady = _
    rw [(spawnGrains_frame L rnd p _ MAX_GRAINS 0 k s1).1, h1, hready]
  · unfold handleDejaVuTrigger
    rw [if_pos (by simpa using hready)]

/-- The ready flag and the write position after a block of samples that starts
at write position 0 with the flag clear. -/
theorem processSamples_ready (L : Luts) (inputs : List Int) (s : State)
    (hw : s.g_grainWritePos = 0) (hr : s.g_grainBufferReady = false) :
    (processSamples L inputs s).g_grainWritePos = inputs.length % 32768 ∧
    ((processSamples L inputs s).g_grainBufferReady = true ↔ inputs.length > 16384) := by
  induction inputs using List.reverseRecOn with
  | nil =>
    simp [processSamples, hw, hr]
  | append_singleton xs x ih =>
    obtain ⟨ihw, ihr⟩ := ih
    have e : processSamples L (xs ++ [x]) s =
        (processAudioSample L x (processSamples L xs s)).1 := by
      simp [processSamples, List.foldl_append]
    obtain ⟨f1, f2, -, -⟩ := processAudioSample_fields L x (processSamples L xs s)
    rw [e, f1, f2, ihw, List.length_append, List.length_singleton]
    refine ⟨by omega, ?_⟩
    by_cases hlen : xs.length > 16384
    · have ht := ihr.mpr hlen
      rw [ht]
      simp only [Bool.true_eq_false, false_and, if_false, true_iff]
      omega
    · have hf : (processSamples L xs s).g_grainBufferReady = false := by
        cases hb : (processSamples L xs s).g_grainBufferReady with
        | false => rfl
        | true => exact absurd (ihr.mp hb) hlen
      rw [hf]
      have hmod : (xs.length % 32768 + 1) % 32768 = xs.length + 1 := by omega
      rw [hmod]
      by_cases h2 : xs.length + 1 > 16384
      · rw [if_pos ⟨rfl, h2⟩]
        exact ⟨fun _ => h2, fun _ => rfl⟩
      · rw [if_neg (fun hh => h2 hh.2)]
        exact ⟨fun hh => Bool.noConfusion hh, fun hh => absurd hh h2⟩

/-- The blend with a silent wet channel is the dry path alone. -/
theorem blendOutput_dry (x w : Int) (hx0 : -32768 ≤ x) (hx1 : x ≤ 32767)
    (hw0 : 0 ≤ w) (hw1 : w ≤ 32767) :
    blendOutput x 0 w = (x * (32767 - w)) >>> (15 : Nat) := by
  obtain ⟨b0, b1⟩ := sample_gain_bounds x (32767 - w) hx0 hx1 (by omega) (by omega)
  unfold blendOutput
  simp only [zero_mul]
  rw [toInt16_of_range (32767 - w) (by omega) (by omega)]
  generalize x * (32767 - w) = e at b0 b1
  have z : toInt32 0 = 0 := by decide
  rw [z, toInt32_of_range e (by omega) (by omega), add_zero,
    toInt32_of_range e (by omega) (by omega), shiftRight15]
  unfold constrain
  rw [if_neg (by omega), if_neg (by omega), toInt16_of_range _ (by omega) (by omega)]

/-- C13: from a state with write position 0 and the ready flag clear, the flag
is set after `n` processed samples exactly when `n > 16384` (clear during the
first 16384 samples, set by the sample that moves the write position past 16384,
set ever after); `processAudioSample`, `renderAllGrains` and
`handleDejaVuTrigger` never clear it.  While the flag is clear `renderAllGrains`
adds nothing to the accumulators and `handleDejaVuTrigger` changes no state, and
a sample processed with the flag still clear gives, for a 16-bit input and a
dry/wet value in `0..32767`, both outputs equal to
`(input * (32767 - dryWet)) >> 15`. -/
theorem warm_up_guard (L : Luts) (inputs : List Int) (rnd : Nat → Nat) (now_ms : Nat)
    (wetL wetR x : Int) (s t : State) :
    (s.g_grainWritePos = 0 → s.g_grainBufferReady = false →
      ((processSamples L inputs s).g_grainBufferReady = true ↔ inputs.length > 16384)) ∧
    (t.g_grainBufferReady = true →
      (processAudioSample L x t).1.g_grainBufferReady = true ∧
      (renderAllGrains L wetL wetR t).1.g_grainBufferReady = true ∧
      (handleDejaVuTrigger L rnd now_ms t).g_grainBufferReady = true) ∧
    (t.g_grainBufferReady = false →
      renderAllGrains L wetL wetR t = (t, wetL, wetR) ∧
      handleDejaVuTrigger L rnd now_ms t = t) ∧
    ((processAudioSample L x t).1.g_grainBufferReady = false →
      -32768 ≤ x → x ≤ 32767 → 0 ≤ t.g_params.dryWet_q15 → t.g_params.dryWet_q15 ≤ 32767 →
      (processAudioSample L x t).2.1 = (x * (32767 - t.g_params.dryWet_q15)) >>> (15 : Nat) ∧
      (processAudioSample L x t).2.2 = (x * (32767 - t.g_params.dryWet_q15)) >>> (15 : Nat)) := by
  refine ⟨?_, ?_, ?_, ?_⟩
  · intro hw hr
    exact (processSamples_ready L inputs s hw hr).2
  · intro ht
    refine ⟨?_, ?_, ?_⟩
    · rw [(processAudioSample_fields L x t).2.1, ht]
      simp
    · obtain ⟨g, idx, c, h⟩ := renderAllGrains_frame L wetL wetR t
      rw [h]
      exact ht
    · rw [handleDejaVuTrigger_ready, ht]
  · intro ht
    refine ⟨renderAllGrains_not_ready L wetL wetR t ht, ?_⟩
    unfold handleDejaVuTrigger
    rw [if_pos ht]
  · intro hnr hx0 hx1 hw0 hw1
    obtain ⟨fb, fbp, ib, ibp, hst⟩ := processAudioSample_state L x t
    obtain ⟨g, idx, c, hfr⟩ := renderAllGrains_frame L 0 0 (storeInput x t)
    have hs2 : (storeInput x t).g_grainBufferReady = false := by
      rw [hst, hfr] at hnr
      exact hnr
    have hrender := renderAllGrains_not_ready L 0 0 (storeInput x t) hs2
    obtain ⟨o1, o2⟩ := processAudioSample_out L x t
    rw [o1, o2, hrender]
    have hpar := (storeInput_fields x t).2.2.2
    have c1 : toInt16 (constrain 0 (-32767) 32767) = 0 := by decide
    have c2 : toInt16 (constrain 0 (-32768) 32767) = 0 := by decide
    simp only [c1, c2, hpar]
    exact ⟨blendOutput_dry x _ hx0 hx1 hw0 hw1, blendOutput_dry x _ hx0 hx1 hw0 hw1⟩

/-- Witness for C13: 16384 samples leave the flag clear and 16385 set it; in
`demoState` (flag clear, dry/wet 7000) a trigger changes nothing and the input
1000 gives the output `(1000 * 25767) >> 15 = 786` on both channels. -/
theorem warm_up_guard_witness :
    initialState.g_grainWritePos = 0 ∧ initialState.g_grainBufferReady = false ∧
    ¬ (processSamples flatLuts (List.replicate 16384 0) initialState).g_grainBufferReady = true ∧
    (processSamples flatLuts (List.replicate 16385 0) initialState).g_grainBufferReady = true ∧
    demoState.g_grainBufferReady = false ∧
    handleDejaVuTrigger flatLuts (fun _ => 0) 0 demoState = demoState ∧
    (processAudioSample flatLuts 1000 demoState).1.g_grainBufferReady = false ∧
    (processAudioSample flatLuts 1000 demoState).2.1 = 786 ∧
    (processAudioSample flatLuts 1000 demoState).2.2 = 786 :=
  have h1 := (warm_up_guard flatLuts (List.replicate 16384 0) (fun _ => 0) 0 0 0 1000
    initialState demoState).1 rfl rfl
  have h2 := (warm_up_guard flatLuts (List.replicate 16385 0) (fun _ => 0) 0 0 0 1000
    initialState demoState).1 rfl rfl
  have h3 := (warm_up_guard flatLuts [] (fun _ => 0) 0 0 0 1000 initialState demoState).2.2
  have hnr : (processAudioSample flatLuts 1000 demoState).1.g_grainBufferReady = false := by
    decide
  have h4 := h3.2 hnr (by decide) (by decide) (by decide) (by decide)
  ⟨rfl, rfl,
    fun h => absurd (h1.mp h) (by rw [List.length_replicate]; decide),
    h2.mpr (by rw [List.length_replicate]; decide),
    rfl, (h3.1 rfl).2, hnr,
    by rw [h4.1]; decide, by rw [h4.2]; decide⟩

/-- Every value produced by the blend is a saturated 16-bit sample. -/
theorem blendOutput_range (a b c : Int) :
    -32768 ≤ blendOutput a b c ∧ blendOutput a b c ≤ 32767 := by
  unfold blendOutput toInt16
  simp only
  omega

/-- The sample stored in the history buffer is saturated to `[-32767, 32767]`. -/
theorem mixedInput_range (x : Int) (s : State) :
    -32767 ≤ mixedInput x s ∧ mixedInput x s ≤ 32767 := by
  unfold mixedInput
  simp only
  exact constrain_range _ _ _ (by decide)

/-- C19: for a dry/wet value `w` in `0..32767` the dry gain `32767 - w` (as the
code stores it in an `int16_t`) and the wet gain `w` are both in `0..32767` and
sum to 32767; blending a 16-bit input `x` with the wet sample `x` gives an
output within 1 of `x`; every output sample of `processAudioSample` lies in
`[-32768, 32767]`, and the sample it stores in the history buffer is the mixed
input saturated to `[-32767, 32767]`. -/
theorem dry_wet_unity_gain (L : Luts) (x w : Int) (s : State) :
    (0 ≤ w → w ≤ 32767 →
      0 ≤ toInt16 (32767 - w) ∧ toInt16 (32767 - w) ≤ 32767 ∧ toInt16 (32767 - w) + w = 32767 ∧
      (-32768 ≤ x → x ≤ 32767 → |blendOutput x x w - x| ≤ 1)) ∧
    (-32768 ≤ (processAudioSample L x s).2.1 ∧ (processAudioSample L x s).2.1 ≤ 32767 ∧
      -32768 ≤ (processAudioSample L x s).2.2 ∧ (processAudioSample L x s).2.2 ≤ 32767) ∧
    ((processAudioSample L x s).1.g_grainBuffer s.g_grainWritePos = mixedInput x s ∧
      -32767 ≤ mixedInput x s ∧ mixedInput x s ≤ 32767) := by
  refine ⟨?_, ?_, ?_⟩
  · intro hw0 hw1
    have hd : toInt16 (32767 - w) = 32767 - w := toInt16_of_range _ (by omega) (by omega)
    rw [hd]
    refine ⟨by omega, by omega, by omega, ?_⟩
    intro hx0 hx1
    obtain ⟨b0, b1⟩ := sample_gain_bounds x (32767 - w) hx0 hx1 (by omega) (by omega)
    obtain ⟨c0, c1⟩ := sample_gain_bounds x w hx0 hx1 hw0 hw1
    have hsum : x * (32767 - w) + x * w = x * 32767 := by ring
    unfold blendOutput
    simp only
    rw [hd, toInt32_of_range (x * (32767 - w)) (by omega) (by omega),
      toInt32_of_range (x * w) (by omega) (by omega), hsum,
      toInt32_of_range (x * 32767) (by omega) (by omega), shiftRight15]
    unfold constrain
    rw [if_neg (by omega), if_neg (by omega), toInt16_of_range _ (by omega) (by omega), abs_le]
    constructor <;> omega
  · obtain ⟨o1, o2⟩ := processAudioSample_out L x s
    rw [o1, o2]
    exact ⟨(blendOutput_range _ _ _).1, (blendOutput_range _ _ _).2,
      (blendOutput_range _ _ _).1, (blendOutput_range _ _ _).2⟩
  · obtain ⟨m0, m1⟩ := mixedInput_range x s
    rw [(processAudioSample_fields L x s).2.2.1, Function.update_same,
      toInt16_of_range _ (by omega) (by omega)]
    exact ⟨rfl, m0, m1⟩

/-- Witness for C19: dry/wet 7000 gives the gains 25767 and 7000; blending
-32768 with itself gives -32767. -/
theorem dry_wet_unity_gain_witness :
    (0 : Int) ≤ 7000 ∧ (7000 : Int) ≤ 32767 ∧
    toInt16 (32767 - 7000) = 25767 ∧ toInt16 (32767 - 7000) + 7000 = 32767 ∧
    blendOutput (-32768) (-32768) 7000 = -32767 ∧
    |blendOutput (-32768) (-32768) 7000 - (-32768)| ≤ 1 :=
  have h := (dry_wet_unity_gain flatLuts (-32768) 7000 demoState).1 (by decide) (by decide)
  ⟨by decide, by decide, by decide, h.2.2.1, by decide, h.2.2.2 (by decide) (by decide)⟩

/-! ## Grain rendering theorems -/

/-- The function `renderGrain` reads the state only through the play mode and
the history buffer. -/
theorem renderGrain_congr (L : Luts) (s t : State) (g : Grain)
    (hm : s.g_params.mode = t.g_params.mode) (hb : s.g_grainBuffer = t.g_grainBuffer) :
    renderGrain L s g = renderGrain L t g := by
  unfold renderGrain
  rw [hm, hb]

/-- The grain returned by `renderGrain` depends on the state only through the
play mode. -/
theorem renderGrain_grain_congr (L : Luts) (s t : State) (g : Grain)
    (hm : s.g_params.mode = t.g_params.mode) :
    (renderGrain L s g).2 = (renderGrain L t g).2 := by
  unfold renderGrain
  rw [hm]
  dsimp only
  split_ifs <;> rfl

/-- C14 (amended): for two states with the same play mode and the same history
buffer, whatever their other live parameters, `renderGrain` returns the same
sample and the same grain (position and active flag included); with the same
play mode alone the returned grain is the same. -/
theorem render_ignores_other_parameters (L : Luts) (s t : State) (g : Grain)
    (hm : s.g_params.mode = t.g_params.mode) :
    (renderGrain L s g).2 = (renderGrain L t g).2 ∧
    (s.g_grainBuffer = t.g_grainBuffer →
      (renderGrain L s g).1 = (renderGrain L t g).1 ∧
      (renderGrain L s g).2.position_q16 = (renderGrain L t g).2.position_q16 ∧
      (renderGrain L s g).2.active = (renderGrain L t g).2.active) := by
  refine ⟨renderGrain_grain_congr L s t g hm, ?_⟩
  intro hb
  rw [renderGrain_congr L s t g hm hb]
  exact ⟨rfl, rfl, rfl⟩

/-- Witness for C14 (amended): `demoState` and `reverseReadyState` differ in
every live parameter but the play mode and have the same (zero) history. -/
theorem render_ignores_other_parameters_witness :
    demoState.g_params.mode = reverseReadyState.g_params.mode ∧
    demoState.g_params.position_q15 ≠ reverseReadyState.g_params.position_q15 ∧
    (renderGrain flatLuts demoState lastSampleGrain).2 =
      (renderGrain flatLuts reverseReadyState lastSampleGrain).2 ∧
    (renderGrain flatLuts demoState lastSampleGrain).1 =
      (renderGrain flatLuts reverseReadyState lastSampleGrain).1 :=
  have h := render_ignores_other_parameters flatLuts demoState reverseReadyState lastSampleGrain rfl
  ⟨rfl, by decide, h.1, (h.2 rfl).1⟩

/-- Counterexample to C14 as stated: two states that differ only in the play
mode (same history buffer) render the same in-flight grain, at integer position
0 as a forward trigger leaves it, differently: in forward mode it advances and
stays active, in reverse mode its position goes negative and it is
deactivated. -/
theorem play_mode_change_affects_grain :
    readyState.g_grainBuffer = reverseReadyState.g_grainBuffer ∧
    (renderGrain flatLuts readyState reverseEndGrain).2.active = true ∧
    (renderGrain flatLuts reverseReadyState reverseEndGrain).2.active = false ∧
    (renderGrain flatLuts readyState reverseEndGrain).2.position_q16 = 65536 ∧
    (renderGrain flatLuts reverseReadyState reverseEndGrain).2.position_q16 = -65536 := by
  refine ⟨rfl, ?_, ?_, ?_, ?_⟩ <;> decide

/-- One forward render call at a speed of at most 1.0 advances the position by
at most one sample and keeps it non-negative and below `length + 1` samples. -/
theorem renderGrain_forward_step (L : Luts) (s : State) (g : Grain) (B : Nat)
    (hm : s.g_params.mode = .MODE_GRANULAR)
    (hs0 : 0 < g.speed_q16) (hs1 : g.speed_q16 ≤ 65536) (hl : g.length ≤ 32767)
    (h0 : 0 ≤ g.position_q16) (hB : g.position_q16 ≤ (B : Int) * 65536)
    (hlen : g.position_q16 < ((g.length : Int) + 1) * 65536) :
    (renderGrain L s g).2.speed_q16 = g.speed_q16 ∧
    (renderGrain L s g).2.length = g.length ∧
    0 ≤ (renderGrain L s g).2.position_q16 ∧
    (renderGrain L s g).2.position_q16 ≤ ((B + 1 : Nat) : Int) * 65536 ∧
    (renderGrain L s g).2.position_q16 < ((g.length : Int) + 1) * 65536 := by
  have hpi : (toUInt16 (g.position_q16 >>> (16 : Nat)) : Int) = g.position_q16 / 65536 := by
    rw [shiftRight16]
    unfold toUInt16
    omega
  by_cases hin : toUInt16 (g.position_q16 >>> (16 : Nat)) ≥ g.length
  · have e : (renderGrain L s g).2 = { g with active := false } := by
      unfold renderGrain
      simp only
      rw [if_pos hin]
    rw [e]
    push_cast
    refine ⟨rfl, rfl, h0, ?_, hlen⟩
    show g.position_q16 ≤ _
    omega
  · have e := renderGrain_inside L s g hin
    have hmode : ¬ s.g_params.mode = .MODE_REVERSE := by rw [hm]; decide
    rw [if_neg hmode] at e
    have hlt : g.position_q16 < (g.length : Int) * 65536 := by omega
    have e2 : toInt32 (g.position_q16 + g.speed_q16) = g.position_q16 + g.speed_q16 :=
      toInt32_of_range _ (by omega) (by omega)
    rw [e2, if_neg (by omega)] at e
    rw [e]
    push_cast
    refine ⟨rfl, rfl, ?_, ?_, ?_⟩
    · show 0 ≤ g.position_q16 + g.speed_q16
      omega
    · show g.position_q16 + g.speed_q16 ≤ _
      omega
    · show g.position_q16 + g.speed_q16 < _
      omega

/-- After `k` forward render calls at a speed of at most 1.0 a grain whose
position was at most `B` samples has a position of at most `B + k` samples. -/
theorem renderSeq_forward (L : Luts) (states : List State) :
    ∀ (g : Grain) (B : Nat), (∀ s ∈ states, s.g_params.mode = .MODE_GRANULAR) →
      0 < g.speed_q16 → g.speed_q16 ≤ 65536 → g.length ≤ 32767 →
      0 ≤ g.position_q16 → g.position_q16 ≤ (B : Int) * 65536 →
      g.position_q16 < ((g.length : Int) + 1) * 65536 →
      (renderSeq L states g).length = g.length ∧
      0 ≤ (renderSeq L states g).position_q16 ∧
      (renderSeq L states g).position_q16 ≤ ((B + states.length : Nat) : Int) * 65536 ∧
      (renderSeq L states g).position_q16 < ((g.length : Int) + 1) * 65536 := by
  induction states with
  | nil =>
    intro g B _ _ _ _ h0 hB hlen
    exact ⟨rfl, h0, by simpa using hB, hlen⟩
  | cons s rest ih =>
    intro g B hall hs0 hs1 hl h0 hB hlen
    obtain ⟨e1, e2, e3, e4, e5⟩ := renderGrain_forward_step L s g B
      (hall s (List.mem_cons_self _ _)) hs0 hs1 hl h0 hB hlen
    have hrest : ∀ t ∈ rest, t.g_params.mode = .MODE_GRANULAR :=
      fun t ht => hall t (List.mem_cons_of_mem _ ht)
    have h := ih (renderGrain L s g).2 (B + 1) hrest (by rw [e1]; exact hs0) (by rw [e1]; exact hs1)
      (by rw [e2]; exact hl) e3 e4 (by rw [e2]; exact e5)
    have e : renderSeq L (s :: rest) g = renderSeq L rest (renderGrain L s g).2 := rfl
    rw [e]
    rw [e2] at h
    refine ⟨h.1, h.2.1, ?_, h.2.2.2⟩
    have hlen2 : B + 1 + rest.length = B + (s :: rest).length := by
      rw [List.length_cons]
      omega
    rw [← hlen2]
    exact h.2.2.1

/-- One reverse render call at a speed of at most 1.0 lowers the position by at
most one sample; a position that went below zero stays where it is. -/
theorem renderGrain_reverse_step (L : Luts) (s : State) (g : Grain) (B : Nat)
    (hm : s.g_params.mode = .MODE_REVERSE)
    (hs0 : 0 < g.speed_q16) (hs1 : g.speed_q16 ≤ 65536) (hl : g.length ≤ 32767)
    (h0 : -65536 ≤ g.position_q16) (h1 : g.position_q16 ≤ ((g.length : Int) - 1) * 65536)
    (hB : g.position_q16 < 0 ∨ ((g.length : Int) - 1 - (B : Int)) * 65536 ≤ g.position_q16) :
    (renderGrain L s g).2.speed_q16 = g.speed_q16 ∧
    (renderGrain L s g).2.length = g.length ∧
    -65536 ≤ (renderGrain L s g).2.position_q16 ∧
    (renderGrain L s g).2.position_q16 ≤ ((g.length : Int) - 1) * 65536 ∧
    ((renderGrain L s g).2.position_q16 < 0 ∨
      ((g.length : Int) - 1 - ((B + 1 : Nat) : Int)) * 65536 ≤
        (renderGrain L s g).2.position_q16) := by
  have hpi : (toUInt16 (g.position_q16 >>> (16 : Nat)) : Int) = (g.position_q16 / 65536) % 65536 := by
    rw [shiftRight16]
    unfold toUInt16
    omega
  by_cases hin : toUInt16 (g.position_q16 >>> (16 : Nat)) ≥ g.length
  · have e : (renderGrain L s g).2 = { g with active := false } := by
      unfold renderGrain
      simp only
      rw [if_pos hin]
    rw [e]
    push_cast
    refine ⟨rfl, rfl, h0, h1, ?_⟩
    show g.position_q16 < 0 ∨ _ ≤ g.position_q16
    omega
  · have e := renderGrain_inside L s g hin
    rw [if_pos hm] at e
    have hpos : 0 ≤ g.position_q16 := by
      by_contra hneg
      omega
    have e1 : toInt32 (-g.speed_q16) = -g.speed_q16 := toInt32_of_range _ (by omega) (by omega)
    have e2 : toInt32 (g.position_q16 + -g.speed_q16) = g.position_q16 - g.speed_q16 := by
      rw [toInt32_of_range _ (by omega) (by omega)]
      omega
    rw [e1, e2] at e
    push_cast
    by_cases hneg : g.position_q16 - g.speed_q16 < 0
    · rw [if_pos hneg] at e
      rw [e]
      refine ⟨rfl, rfl, ?_, ?_, ?_⟩
      · show -65536 ≤ g.position_q16 - g.speed_q16
        omega
      · show g.position_q16 - g.speed_q16 ≤ _
        omega
      · left
        exact hneg
    · rw [if_neg hneg] at e
      rw [e]
      refine ⟨rfl, rfl, ?_, ?_, ?_⟩
      · show -65536 ≤ g.position_q16 - g.speed_q16
        omega
      · show g.position_q16 - g.speed_q16 ≤ _
        omega
      · right
        show _ ≤ g.position_q16 - g.speed_q16
        omega

/-- After `k` reverse render calls at a speed of at most 1.0 a grain whose
position was at least `length - 1 - B` samples has a position of at least
`length - 1 - (B + k)` samples, or a negative one. -/
theorem renderSeq_reverse (L : Luts) (states : List State) :
    ∀ (g : Grain) (B : Nat), (∀ s ∈ states, s.g_params.mode = .MODE_REVERSE) →
      0 < g.speed_q16 → g.speed_q16 ≤ 65536 → g.length ≤ 32767 →
      -65536 ≤ g.position_q16 → g.position_q16 ≤ ((g.length : Int) - 1) * 65536 →
      (g.position_q16 < 0 ∨ ((g.length : Int) - 1 - (B : Int)) * 65536 ≤ g.position_q16) →
      (renderSeq L states g).length = g.length ∧
      -65536 ≤ (renderSeq L states g).position_q16 ∧
      (renderSeq L states g).position_q16 ≤ ((g.length : Int) - 1) * 65536 ∧
      ((renderSeq L states g).position_q16 < 0 ∨
        ((g.length : Int) - 1 - ((B + states.length : Nat) : Int)) * 65536 ≤
          (renderSeq L states g).position_q16) := by
  induction states with
  | nil =>
    intro g B _ _ _ _ h0 h1 hB
    exact ⟨rfl, h0, h1, by simpa using hB⟩
  | cons s rest ih =>
    intro g B hall hs0 hs1 hl h0 h1 hB
    obtain ⟨e1, e2, e3, e4, e5⟩ := renderGrain_reverse_step L s g B
      (hall s (List.mem_cons_self _ _)) hs0 hs1 hl h0 h1 hB
    have hrest : ∀ t ∈ rest, t.g_params.mode = .MODE_REVERSE :=
      fun t ht => hall t (List.mem_cons_of_mem _ ht)
    have h := ih (renderGrain L s g).2 (B + 1) hrest (by rw [e1]; exact hs0) (by rw [e1]; exact hs1)
      (by rw [e2]; exact hl) e3 (by rw [e2]; exact e4) (by rw [e2]; exact e5)
    have e : renderSeq L (s :: rest) g = renderSeq L rest (renderGrain L s g).2 := rfl
    rw [e]
    rw [e2] at h
    have hlen2 : B + 1 + rest.length = B + (s :: rest).length := by
      rw [List.length_cons]
      omega
    rw [hlen2] at h
    exact h

/-- At +12 semitones and zero texture the speed read from `octaveLuts` is 2.0. -/
theorem calculateGrainSpeed_octave (s : State) :
    (calculateGrainSpeed octaveLuts 12 0 s).1 = 131072 := by
  have e1 : constrainf (((12 : ℚ) + ((0 : Int) : ℚ) / 32767 * PITCH_TEXTURE_VARIANCE *
      ((octaveLuts.g_random_lut_q15 (s.g_random_index % RANDOM_LUT_SIZE) : Int) : ℚ) / 32767
      + PITCH_RANGE_SEMITONES_HALF) * PITCH_LUT_SCALE) 0 ((PITCH_LUT_SIZE : ℚ) - 2) = 192 := by
    unfold constrainf PITCH_RANGE_SEMITONES_HALF PITCH_LUT_SCALE PITCH_RANGE_SEMITONES
      PITCH_LUT_SIZE PITCH_TEXTURE_VARIANCE
    norm_num
  have e2 : truncf (192 : ℚ) = 192 := by
    unfold truncf
    norm_num
  have e3 : truncf (((192 : ℚ) - ((192 : Int) : ℚ)) * 256) = 0 := by
    unfold truncf
    norm_num
  unfold calculateGrainSpeed
  simp only [mul_div_assoc] at e1 ⊢
  simp only [e1, e2, e3]
  decide

/-- The rounded value is within one half of the argument. -/
theorem roundEven_sub_le (t : ℚ) : |(roundEven t : ℚ) - t| ≤ 1 / 2 := by
  have h1 := Int.floor_le t
  have h2 := Int.lt_floor_add_one t
  unfold roundEven
  split_ifs with a b c
  · rw [abs_le]
    constructor <;> linarith
  · push_cast
    rw [abs_le]
    constructor <;> linarith
  · rw [abs_le]
    constructor <;> linarith
  · push_cast
    rw [abs_le]
    constructor <;> linarith

/-- Integers are rounded to themselves. -/
theorem roundEven_intCast (n : Int) : roundEven (n : ℚ) = n := by
  unfold roundEven
  rw [Int.floor_intCast, sub_self, if_pos (by norm_num)]

/-- Rounding does not pass an integer above the argument. -/
theorem roundEven_le (t : ℚ) (N : Int) (h : t ≤ N) : roundEven t ≤ N := by
  have h1 := Int.floor_le t
  have hf : ⌊t⌋ ≤ N := by
    have : (⌊t⌋ : ℚ) ≤ N := le_trans h1 h
    exact_mod_cast this
  rcases eq_or_lt_of_le hf with he | hl
  · have ht : t = N := le_antisymm h (by rw [← he]; exact h1)
    rw [ht, roundEven_intCast]
  · unfold roundEven
    split_ifs <;> omega

/-- Rounding does not pass an integer below the argument. -/
theorem le_roundEven (t : ℚ) (N : Int) (h : (N : ℚ) ≤ t) : N ≤ roundEven t := by
  have hf : N ≤ ⌊t⌋ := Int.le_floor.mpr h
  unfold roundEven
  split_ifs <;> omega

/-- A value strictly within one half of an integer is rounded to it. -/
theorem roundEven_eq (t : ℚ) (m : Int) (h : |t - m| < 1 / 2) : roundEven t = m := by
  rw [abs_lt] at h
  have h3 := roundEven_sub_le t
  rw [abs_le] at h3
  have h4 : ((roundEven t - m : Int) : ℚ) < 1 := by
    push_cast
    linarith [h.1, h.2, h3.1, h3.2]
  have h5 : (-1 : ℚ) < ((roundEven t - m : Int) : ℚ) := by
    push_cast
    linarith [h.1, h.2, h3.1, h3.2]
  have h6 : roundEven t - m < 1 := by exact_mod_cast h4
  have h7 : -1 < roundEven t - m := by exact_mod_cast h5
  omega

/-- The rounding exponent is at least `-126` and the value lies below the next
power of two. -/
theorem f32Exponent_spec (x : ℚ) :
    -126 ≤ f32Exponent x ∧ |x| < 2 ^ (f32Exponent x + 1) := by
  unfold f32Exponent
  refine ⟨le_max_right _ _, ?_⟩
  have h := Int.lt_zpow_succ_log_self (b := 2) (by norm_num) |x|
  have h2 : ((2 : ℕ) : ℚ) ^ (Int.log 2 |x| + 1) ≤ (2 : ℚ) ^ (max (Int.log 2 |x|) (-126) + 1) := by
    push_cast
    apply zpow_le_zpow_right₀ (by norm_num)
    have := le_max_left (Int.log 2 |x|) (-126)
    omega
  exact lt_of_lt_of_le h h2

/-- The rounding exponent of a non-zero value below `2 ^ (B + 1)` is at most
`B`. -/
theorem f32Exponent_le (x : ℚ) (B : Int) (hx : x ≠ 0) (hB : -126 ≤ B)
    (h : |x| < 2 ^ (B + 1)) : f32Exponent x ≤ B := by
  unfold f32Exponent
  apply max_le _ hB
  have hpos : 0 < |x| := abs_pos.mpr hx
  have := (Int.lt_zpow_iff_log_lt (b := 2) (by norm_num) hpos (x := B + 1)).mp
    (by push_cast; exact h)
  omega

/-- The rounding exponent of a value of at least `2 ^ e` is at least `e`. -/
theorem le_f32Exponent (x : ℚ) (e : Int) (h : 2 ^ e ≤ |x|) : e ≤ f32Exponent x := by
  have hpos : 0 < |x| := lt_of_lt_of_le (zpow_pos (by norm_num) e) h
  have := (Int.zpow_le_iff_le_log (b := 2) (by norm_num) hpos (x := e)).mp
    (by push_cast; exact h)
  unfold f32Exponent
  exact le_trans this (le_max_left _ _)

/-- Zero is a `float`. -/
theorem f32_zero : f32 0 = 0 := by
  unfold f32
  rw [zero_div]
  have : roundEven (0 : ℚ) = 0 := roundEven_intCast 0
  rw [this]
  simp

/-- The distance of a value to its `float` is at most half a unit in the last
place: `2 ^ (B - 24)` for a value below `2 ^ (B + 1)`. -/
theorem f32_abs_error (x : ℚ) (B : Int) (hB : -126 ≤ B) (h : |x| < 2 ^ (B + 1)) :
    |f32 x - x| ≤ 2 ^ (B - 24) := by
  by_cases hx : x = 0
  · rw [hx, f32_zero, sub_zero, abs_zero]
    exact le_of_lt (zpow_pos (by norm_num) _)
  have he := f32Exponent_le x B hx hB h
  have hu : (0 : ℚ) < 2 ^ (f32Exponent x - 23) := zpow_pos (by norm_num) _
  have hr := roundEven_sub_le (x / 2 ^ (f32Exponent x - 23))
  have e1 : f32 x - x =
      ((roundEven (x / 2 ^ (f32Exponent x - 23)) : ℚ) - x / 2 ^ (f32Exponent x - 23)) *
        2 ^ (f32Exponent x - 23) := by
    unfold f32
    field_simp
  rw [e1, abs_mul, abs_of_pos hu]
  have h2 : (2 : ℚ) ^ (B - 24) = 1 / 2 * 2 ^ (B - 23) := by
    have : B - 23 = (B - 24) + 1 := by ring
    rw [this, zpow_add₀ (by norm_num), zpow_one]
    ring
  rw [h2]
  have h3 : (2 : ℚ) ^ (f32Exponent x - 23) ≤ 2 ^ (B - 23) :=
    zpow_le_zpow_right₀ (by norm_num) (by omega)
  exact mul_le_mul hr h3 (le_of_lt hu) (by norm_num)

/-- A multiple `N * 2 ^ j` of a power of two becomes an integer when divided by
a smaller power of two. -/
theorem zpow_quotient_int (N j e : Int) (h : e ≤ j) :
    ∃ M : Int, (N : ℚ) * 2 ^ j / 2 ^ e = (M : ℚ) := by
  obtain ⟨n, hn⟩ : ∃ n : Nat, j - e = n := ⟨(j - e).toNat, by omega⟩
  refine ⟨N * 2 ^ n, ?_⟩
  have hj : j = e + n := by omega
  rw [hj, zpow_add₀ (by norm_num), zpow_natCast]
  push_cast
  field_simp
  ring

/-- Rounding to `float` does not pass a multiple `N * 2 ^ j` of a power of two
above the value, when the value is below `2 ^ (j + 24)`. -/
theorem f32_le_of_le (x : ℚ) (N j : Int) (hj : -149 ≤ j) (hx : |x| < 2 ^ (j + 24))
    (h : x ≤ (N : ℚ) * 2 ^ j) : f32 x ≤ (N : ℚ) * 2 ^ j := by
  have hu : (0 : ℚ) < 2 ^ (f32Exponent x - 23) := zpow_pos (by norm_num) _
  by_cases hx0 : x = 0
  · rw [hx0, f32_zero]
    rw [hx0] at h
    exact h
  have he : f32Exponent x ≤ j + 23 := by
    by_cases hj2 : j + 23 < -126
    · have := f32Exponent_le x (-126) hx0 (le_refl _)
        (lt_of_lt_of_le hx (zpow_le_zpow_right₀ (by norm_num) (by omega)))
      omega
    · exact f32Exponent_le x (j + 23) hx0 (by omega) (by
        have : j + 23 + 1 = j + 24 := by ring
        rw [this]
        exact hx)
  obtain ⟨M, hM⟩ := zpow_quotient_int N j (f32Exponent x - 23) (by omega)
  have hle : x / 2 ^ (f32Exponent x - 23) ≤ (M : ℚ) := by
    rw [← hM]
    exact div_le_div_of_nonneg_right h (le_of_lt hu)
  have hr := roundEven_le _ M hle
  have hr2 : (roundEven (x / 2 ^ (f32Exponent x - 23)) : ℚ) ≤ (M : ℚ) := by exact_mod_cast hr
  unfold f32
  calc (roundEven (x / 2 ^ (f32Exponent x - 23)) : ℚ) * 2 ^ (f32Exponent x - 23)
      ≤ (M : ℚ) * 2 ^ (f32Exponent x - 23) := mul_le_mul_of_nonneg_right hr2 (le_of_lt hu)
    _ = (N : ℚ) * 2 ^ j := by
      rw [← hM]
      field_simp

/-- Rounding to `float` does not pass a multiple `N * 2 ^ j` of a power of two
below the value, when the value is below `2 ^ (j + 24)`. -/
theorem le_f32_of_le (x : ℚ) (N j : Int) (hj : -149 ≤ j) (hx : |x| < 2 ^ (j + 24))
    (h : (N : ℚ) * 2 ^ j ≤ x) : (N : ℚ) * 2 ^ j ≤ f32 x := by
  have hu : (0 : ℚ) < 2 ^ (f32Exponent x - 23) := zpow_pos (by norm_num) _
  by_cases hx0 : x = 0
  · rw [hx0, f32_zero]
    rw [hx0] at h
    exact h
  have he : f32Exponent x ≤ j + 23 := by
    by_cases hj2 : j + 23 < -126
    · have := f32Exponent_le x (-126) hx0 (le_refl _)
        (lt_of_lt_of_le hx (zpow_le_zpow_right₀ (by norm_num) (by omega)))
      omega
    · exact f32Exponent_le x (j + 23) hx0 (by omega) (by
        have : j + 23 + 1 = j + 24 := by ring
        rw [this]
        exact hx)
  obtain ⟨M, hM⟩ := zpow_quotient_int N j (f32Exponent x - 23) (by omega)
  have hle : (M : ℚ) ≤ x / 2 ^ (f32Exponent x - 23) := by
    rw [← hM]
    exact div_le_div_of_nonneg_right h (le_of_lt hu)
  have hr := le_roundEven _ M hle
  have hr2 : (M : ℚ) ≤ (roundEven (x / 2 ^ (f32Exponent x - 23)) : ℚ) := by exact_mod_cast hr
  unfold f32
  calc (N : ℚ) * 2 ^ j = (M : ℚ) * 2 ^ (f32Exponent x - 23) := by
        rw [← hM]
        field_simp
    _ ≤ (roundEven (x / 2 ^ (f32Exponent x - 23)) : ℚ) * 2 ^ (f32Exponent x - 23) :=
        mul_le_mul_of_nonneg_right hr2 (le_of_lt hu)

/-- A value `m * 2 ^ k` with a significand `m` of at most 24 bits and an
exponent `k` of at least `-149` is a `float`. -/
theorem f32_dyadic (m k : Int) (hm : |m| < 2 ^ 24) (hk : -149 ≤ k) :
    f32 ((m : ℚ) * 2 ^ k) = (m : ℚ) * 2 ^ k := by
  have hmq : |(m : ℚ)| < 2 ^ (24 : Int) := by
    have h1 : ((|m| : Int) : ℚ) < ((2 ^ 24 : Int) : ℚ) := by exact_mod_cast hm
    rw [Int.cast_abs] at h1
    have h2 : ((2 ^ 24 : Int) : ℚ) = 2 ^ (24 : Int) := by norm_num
    rw [h2] at h1
    exact h1
  have hlt : |(m : ℚ) * 2 ^ k| < 2 ^ (k + 24) := by
    rw [abs_mul, abs_of_pos (zpow_pos (by norm_num : (0 : ℚ) < 2) k)]
    calc |(m : ℚ)| * 2 ^ k < 2 ^ (24 : Int) * 2 ^ k :=
          mul_lt_mul_of_pos_right hmq (zpow_pos (by norm_num) k)
      _ = 2 ^ (k + 24) := by rw [← zpow_add₀ (by norm_num)]; congr 1; ring
  exact le_antisymm (f32_le_of_le _ m k hk hlt (le_refl _)) (le_f32_of_le _ m k hk hlt (le_refl _))

/-- An integer of at most 24 bits is a `float`. -/
theorem f32_intCast (m : Int) (hm : |m| < 2 ^ 24) : f32 (m : ℚ) = m := by
  have := f32_dyadic m 0 hm (by norm_num)
  simpa using this

/-- Evaluation of a rounding: a value in the binade `[2 ^ e, 2 ^ (e + 1))`
whose quotient by the unit `2 ^ (e - 23)` is strictly within one half of the
integer `m` is rounded to `m * 2 ^ (e - 23)`. -/
theorem f32_eval (x : ℚ) (e m : Int) (he : -126 ≤ e) (h1 : 2 ^ e ≤ |x|)
    (h2 : |x| < 2 ^ (e + 1)) (hm : |x / 2 ^ (e - 23) - m| < 1 / 2) :
    f32 x = (m : ℚ) * 2 ^ (e - 23) := by
  have hx : x ≠ 0 := by
    intro h0
    rw [h0, abs_zero] at h1
    exact absurd h1 (not_le.mpr (zpow_pos (by norm_num) e))
  have hE : f32Exponent x = e :=
    le_antisymm (f32Exponent_le x e hx he h2) (le_f32Exponent x e h1)
  unfold f32
  rw [hE, roundEven_eq _ m hm]

/-! ## Soft-takeover target theorems -/

/-- The two clamping steps of `enablePitchSoftTakeover` are the clamp to
`[0, 1]`. -/
theorem clamp_unit (v : ℚ) :
    (if (if v < 0 then 0 else v) > 1 then 1 else (if v < 0 then 0 else v)) = max 0 (min 1 v) := by
  by_cases h0 : v < 0
  · rw [if_pos h0, if_neg (by norm_num), min_eq_right (by linarith), max_eq_left (by linarith)]
  · rw [if_neg h0]
    by_cases h1 : v > 1
    · rw [if_pos h1, min_eq_left (by linarith), max_eq_right (by norm_num)]
    · rw [if_neg h1, min_eq_right (by linarith), max_eq_right (by linarith)]

/-- The draw `randomFloat r` lies in `[0, 1]`. -/
theorem randomFloat_range (r : Nat) : 0 ≤ randomFloat r ∧ randomFloat r ≤ 1 := by
  unfold randomFloat
  have h : r % 4294967296 ≤ 4294967295 := by omega
  have h2 : ((r % 4294967296 : Nat) : ℚ) ≤ 4294967295 := by exact_mod_cast h
  constructor
  · positivity
  · rw [div_le_one (by norm_num)]
    exact h2

/-- A pitch drawn by the randomisers lies in `[-20, 7]`. -/
theorem random_pitch_range (r : Nat) :
    -20 ≤ PITCH_RANDOM_MIN + PITCH_RANDOM_RANGE * randomFloat r ∧
    PITCH_RANDOM_MIN + PITCH_RANDOM_RANGE * randomFloat r ≤ 7 := by
  obtain ⟨h0, h1⟩ := randomFloat_range r
  unfold PITCH_RANDOM_RANGE PITCH_RANDOM_MAX PITCH_RANDOM_MIN
  constructor <;> nlinarith

/-- What `enablePitchSoftTakeover` stores. -/
theorem enablePitchSoftTakeover_fields (p : ℚ) (s : State) :
    (enablePitchSoftTakeover p s).g_soft_takeover_active_pitch = true ∧
    (enablePitchSoftTakeover p s).g_soft_takeover_target_pitch =
      max 0 (min 1 (f32 (f32 (p / 48) + 1 / 2))) ∧
    (enablePitchSoftTakeover p s).g_params = s.g_params := by
  refine ⟨rfl, ?_, rfl⟩
  rw [← clamp_unit]
  simp only [enablePitchSoftTakeover, isfinite, PITCH_RANGE_SEMITONES, Bool.not_true,
    Bool.false_eq_true, if_false]

/-- The `float` nearest to a value in `[-1/2, 1/2]` lies in `[-1/2, 1/2]` and
within `2 ^ -25` of the value. -/
theorem f32_half_range (x : ℚ) (h0 : -(1 / 2) ≤ x) (h1 : x ≤ 1 / 2) :
    -(1 / 2) ≤ f32 x ∧ f32 x ≤ 1 / 2 ∧ |f32 x - x| ≤ 1 / 33554432 := by
  have habs : |x| ≤ 1 / 2 := abs_le.mpr ⟨h0, h1⟩
  have hlt : |x| < 2 ^ ((-1 : Int) + 24) := lt_of_le_of_lt habs (by norm_num)
  have hu := f32_le_of_le x 1 (-1) (by norm_num) hlt (by norm_num; linarith)
  have hl := le_f32_of_le x (-1) (-1) (by norm_num) hlt (by norm_num; linarith)
  have he := f32_abs_error x (-1) (by norm_num) (lt_of_le_of_lt habs (by norm_num))
  norm_num at hu hl he
  exact ⟨by linarith, by linarith, he⟩

/-- The `float` nearest to a value in `[0, 1]` lies in `[0, 1]` and within
`2 ^ -24` of the value. -/
theorem f32_unit_range (x : ℚ) (h0 : 0 ≤ x) (h1 : x ≤ 1) :
    0 ≤ f32 x ∧ f32 x ≤ 1 ∧ |f32 x - x| ≤ 1 / 16777216 := by
  have habs : |x| ≤ 1 := abs_le.mpr ⟨by linarith, h1⟩
  have hlt : |x| < 2 ^ ((0 : Int) + 24) := lt_of_le_of_lt habs (by norm_num)
  have hu := f32_le_of_le x 1 0 (by norm_num) hlt (by norm_num; linarith)
  have hl := le_f32_of_le x 0 0 (by norm_num) hlt (by norm_num; linarith)
  have he := f32_abs_error x 0 (by norm_num) (lt_of_le_of_lt habs (by norm_num))
  norm_num at hu hl he
  exact ⟨hl, hu, he⟩

/-- The target that `enablePitchSoftTakeover` computes in binary32 for a pitch
`p` in `[-24, 24]` lies in `[0, 1]`, within `3 / 2 ^ 25` of `p / 48 + 1 / 2`;
mapped back to a pitch it is within `9 / 2 ^ 21` of `p` in exact arithmetic and
within `7 / 2 ^ 20` in the binary32 arithmetic of the pot mapping. -/
theorem takeover_target_bounds (p : ℚ) (h0 : -24 ≤ p) (h1 : p ≤ 24) :
    0 ≤ f32 (f32 (p / 48) + 1 / 2) ∧ f32 (f32 (p / 48) + 1 / 2) ≤ 1 ∧
    |f32 (f32 (p / 48) + 1 / 2) - (p / 48 + 1 / 2)| ≤ 3 / 33554432 ∧
    |(f32 (f32 (p / 48) + 1 / 2) - 1 / 2) * 48 - p| ≤ 9 / 2097152 ∧
    |potPitchFloat (f32 (f32 (p / 48) + 1 / 2)) - p| ≤ 7 / 1048576 := by
  obtain ⟨a0, a1, ae⟩ := f32_half_range (p / 48) (by linarith) (by linarith)
  generalize f32 (p / 48) = a at a0 a1 ae
  obtain ⟨t0, t1, te⟩ := f32_unit_range (a + 1 / 2) (by linarith) (by linarith)
  generalize f32 (a + 1 / 2) = t at t0 t1 te
  rw [abs_le] at ae te
  have hT : |t - (p / 48 + 1 / 2)| ≤ 3 / 33554432 := by
    rw [abs_le]
    constructor <;> linarith [ae.1, ae.2, te.1, te.2]
  have hE : |(t - 1 / 2) * 48 - p| ≤ 9 / 2097152 := by
    rw [abs_le] at hT ⊢
    constructor <;> linarith [hT.1, hT.2]
  refine ⟨t0, t1, hT, hE, ?_⟩
  unfold potPitchFloat PITCH_RANGE_SEMITONES
  obtain ⟨b0, b1, be⟩ := f32_half_range (t - 1 / 2) (by linarith) (by linarith)
  generalize f32 (t - 1 / 2) = b at b0 b1 be
  have hb48 : |b * 48| < 2 ^ ((4 : Int) + 1) := by
    rw [abs_lt]
    constructor <;> norm_num <;> linarith
  have ce := f32_abs_error (b * 48) 4 (by norm_num) hb48
  generalize f32 (b * 48) = c at ce
  have h20 : (2 : ℚ) ^ ((4 : Int) - 24) = 1 / 1048576 := by norm_num
  rw [h20] at ce
  rw [abs_le] at be ce hE ⊢
  constructor <;> linarith [be.1, be.2, ce.1, ce.2, hE.1, hE.2]

/-- A successful `loadSnapshot` copies the pitch of the slot and arms the soft
takeover with the target computed from it. -/
theorem loadSnapshot_takeover (slot : Int) (s : State) (h0 : 0 ≤ slot) (h1 : slot < 4)
    (hinit : s.g_snapshots_initialized slot.toNat = true) :
    (loadSnapshot slot s).g_params.pitch_f = (s.g_snapshots slot.toNat).pitch_f ∧
    (loadSnapshot slot s).g_soft_takeover_active_pitch = true ∧
    (loadSnapshot slot s).g_soft_takeover_target_pitch =
      max 0 (min 1 (f32 (f32 ((s.g_snapshots slot.toNat).pitch_f / 48) + 1 / 2))) := by
  have hg : ¬ (slot < 0 ∨ slot ≥ 4 ∨ s.g_snapshots_initialized slot.toNat = false) := by
    rw [hinit]
    simp only [Bool.true_eq_false, or_false, not_or, not_lt, ge_iff_le, not_le]
    exact ⟨h0, h1⟩
  have hshape : ∃ t : State, loadSnapshot slot s =
      invalidateDisplayCache (enablePitchSoftTakeover t.g_params.pitch_f t) ∧
      t.g_params.pitch_f = (s.g_snapshots slot.toNat).pitch_f := by
    unfold loadSnapshot
    rw [if_neg hg]
    exact ⟨_, rfl, rfl⟩
  obtain ⟨t, ht, hp⟩ := hshape
  obtain ⟨e1, e2, e3⟩ := enablePitchSoftTakeover_fields t.g_params.pitch_f t
  rw [ht, ← hp]
  refine ⟨?_, e1, e2⟩
  show (enablePitchSoftTakeover t.g_params.pitch_f t).g_params.pitch_f = _
  rw [e3]

/-- The function `randomizeDejaVuBuffer` arms the soft takeover with the target
computed from the pitch it stores, which lies in `[-20, 7]`. -/
theorem randomizeDejaVuBuffer_takeover (rnd : Nat → Nat) (now_ms : Nat) (s : State) :
    (randomizeDejaVuBuffer rnd now_ms s).g_soft_takeover_active_pitch = true ∧
    (randomizeDejaVuBuffer rnd now_ms s).g_soft_takeover_target_pitch =
      max 0 (min 1 (f32 (f32 ((randomizeDejaVuBuffer rnd now_ms s).g_params.pitch_f / 48)
        + 1 / 2))) ∧
    -20 ≤ (randomizeDejaVuBuffer rnd now_ms s).g_params.pitch_f ∧
    (randomizeDejaVuBuffer rnd now_ms s).g_params.pitch_f ≤ 7 := by
  have hshape : ∃ t : State, randomizeDejaVuBuffer rnd now_ms s =
      invalidateDisplayCache
        { enablePitchSoftTakeover t.g_params.pitch_f t with
          g_randomize_flash_active := true
          g_randomize_flash_start := now_ms } ∧
      t.g_params.pitch_f = PITCH_RANDOM_MIN + PITCH_RANDOM_RANGE * randomFloat (rnd 70) :=
    ⟨_, rfl, rfl⟩
  obtain ⟨t, ht, hp⟩ := hshape
  obtain ⟨e1, e2, e3⟩ := enablePitchSoftTakeover_fields t.g_params.pitch_f t
  obtain ⟨r0, r1⟩ := random_pitch_range (rnd 70)
  have hpitch : (randomizeDejaVuBuffer rnd now_ms s).g_params.pitch_f = t.g_params.pitch_f := by
    rw [ht]
    show (enablePitchSoftTakeover t.g_params.pitch_f t).g_params.pitch_f = _
    rw [e3]
  rw [hpitch]
  refine ⟨?_, ?_, by rw [hp]; exact r0, by rw [hp]; exact r1⟩
  · rw [ht]
    exact e1
  · rw [ht]
    exact e2

/-- The clamp to `[0, 1]` leaves a value of `[0, 1]` alone. -/
theorem clamp_unit_inactive (v : ℚ) (h0 : 0 ≤ v) (h1 : v ≤ 1) : max 0 (min 1 v) = v := by
  rw [min_eq_right h1, max_eq_right h0]

/-- C17 (amended): every successful `loadSnapshot` sets the pitch soft-takeover
flag and stores as target the binary32 value of `p / 48 + 0.5` clamped to
`[0, 1]`, where `p` is the loaded pitch (the pitch of the slot).  For `p` in
`[-24, 24]` the clamp is inactive, the target is within `3 / 2 ^ 25` of
`p / 48 + 0.5`, and the pot mapping `(target - 0.5) * 48` gives back `p` up to
rounding: within `9 / 2 ^ 21` in exact arithmetic and within `7 / 2 ^ 20` as the
pot code computes it in binary32.  The same holds for the pitch chosen by
`randomizeDejaVuBuffer`, which lies in `[-20, 7]`. -/
theorem takeover_target_matches_pitch (slot : Int) (rnd : Nat → Nat) (now_ms : Nat) (s : State) :
    (0 ≤ slot → slot < 4 → s.g_snapshots_initialized slot.toNat = true →
      (loadSnapshot slot s).g_params.pitch_f = (s.g_snapshots slot.toNat).pitch_f ∧
      (loadSnapshot slot s).g_soft_takeover_active_pitch = true ∧
      (loadSnapshot slot s).g_soft_takeover_target_pitch =
        max 0 (min 1 (f32 (f32 ((loadSnapshot slot s).g_params.pitch_f / 48) + 1 / 2))) ∧
      (-24 ≤ (loadSnapshot slot s).g_params.pitch_f →
        (loadSnapshot slot s).g_params.pitch_f ≤ 24 →
        (loadSnapshot slot s).g_soft_takeover_target_pitch =
          f32 (f32 ((loadSnapshot slot s).g_params.pitch_f / 48) + 1 / 2) ∧
        |(loadSnapshot slot s).g_soft_takeover_target_pitch -
          ((loadSnapshot slot s).g_params.pitch_f / 48 + 1 / 2)| ≤ 3 / 33554432 ∧
        |((loadSnapshot slot s).g_soft_takeover_target_pitch - 1 / 2) * 48 -
          (loadSnapshot slot s).g_params.pitch_f| ≤ 9 / 2097152 ∧
        |potPitchFloat (loadSnapshot slot s).g_soft_takeover_target_pitch -
          (loadSnapshot slot s).g_params.pitch_f| ≤ 7 / 1048576)) ∧
    ((randomizeDejaVuBuffer rnd now_ms s).g_soft_takeover_active_pitch = true ∧
      (randomizeDejaVuBuffer rnd now_ms s).g_soft_takeover_target_pitch =
        f32 (f32 ((randomizeDejaVuBuffer rnd now_ms s).g_params.pitch_f / 48) + 1 / 2) ∧
      -20 ≤ (randomizeDejaVuBuffer rnd now_ms s).g_params.pitch_f ∧
      (randomizeDejaVuBuffer rnd now_ms s).g_params.pitch_f ≤ 7 ∧
      |(randomizeDejaVuBuffer rnd now_ms s).g_soft_takeover_target_pitch -
        ((randomizeDejaVuBuffer rnd now_ms s).g_params.pitch_f / 48 + 1 / 2)| ≤ 3 / 33554432 ∧
      |((randomizeDejaVuBuffer rnd now_ms s).g_soft_takeover_target_pitch - 1 / 2) * 48 -
        (randomizeDejaVuBuffer rnd now_ms s).g_params.pitch_f| ≤ 9 / 2097152 ∧
      |potPitchFloat (randomizeDejaVuBuffer rnd now_ms s).g_soft_takeover_target_pitch -
        (randomizeDejaVuBuffer rnd now_ms s).g_params.pitch_f| ≤ 7 / 1048576) := by
  constructor
  · intro h0 h1 hinit
    obtain ⟨e1, e2, e3⟩ := loadSnapshot_takeover slot s h0 h1 hinit
    rw [e1, e3]
    refine ⟨rfl, e2, rfl, ?_⟩
    intro hp0 hp1
    obtain ⟨b0, b1, b2, b3, b4⟩ := takeover_target_bounds _ hp0 hp1
    rw [clamp_unit_inactive _ b0 b1]
    exact ⟨rfl, b2, b3, b4⟩
  · obtain ⟨e1, e2, e3, e4⟩ := randomizeDejaVuBuffer_takeover rnd now_ms s
    obtain ⟨b0, b1, b2, b3, b4⟩ := takeover_target_bounds
      (randomizeDejaVuBuffer rnd now_ms s).g_params.pitch_f (by linarith) (by linarith)
    rw [e2, clamp_unit_inactive _ b0 b1]
    exact ⟨e1, rfl, e3, e4, b2, b3, b4⟩

/-- Witness for C17 (amended): slot 1 of `demoState` is initialised and holds a
pitch of -12 semitones. -/
theorem takeover_target_matches_pitch_witness :
    (loadSnapshot 1 demoState).g_params.pitch_f = (demoState.g_snapshots 1).pitch_f ∧
    (loadSnapshot 1 demoState).g_soft_takeover_active_pitch = true ∧
    |potPitchFloat (loadSnapshot 1 demoState).g_soft_takeover_target_pitch -
      (loadSnapshot 1 demoState).g_params.pitch_f| ≤ 7 / 1048576 :=
  have h := (takeover_target_matches_pitch 1 (fun _ => 0) 0 demoState).1 (by decide) (by decide)
    (by decide)
  have hp : (loadSnapshot 1 demoState).g_params.pitch_f = -12 := h.1
  ⟨h.1, h.2.1, (h.2.2.2 (by rw [hp]; norm_num) (by rw [hp]; norm_num)).2.2.2⟩

/-- Counterexample to C17 as stated: loading a slot whose pitch is 7 semitones
stores the target `10835285 / 2 ^ 24`, the `float` next to `7 / 48 + 0.5`, and
the pot mapping `(target - 0.5) * 48` gives `7340031 / 2 ^ 20`, about 6.999999,
not 7, both in exact arithmetic and in binary32. -/
theorem takeover_target_rounds :
    sevenSemitonesState.g_snapshots_initialized 1 = true ∧
    (loadSnapshot 1 sevenSemitonesState).g_params.pitch_f = 7 ∧
    (loadSnapshot 1 sevenSemitonesState).g_soft_takeover_target_pitch = 10835285 / 16777216 ∧
    ((10835285 : ℚ) / 16777216 - 1 / 2) * 48 = 7340031 / 1048576 ∧
    potPitchFloat (10835285 / 16777216) = 7340031 / 1048576 ∧
    (7340031 : ℚ) / 1048576 ≠ 7 := by
  obtain ⟨e1, -, e3⟩ := loadSnapshot_takeover 1 sevenSemitonesState (by decide) (by decide)
    (by decide)
  have hp : (sevenSemitonesState.g_snapshots (1 : Int).toNat).pitch_f = 7 := rfl
  have f1 : f32 ((7 : ℚ) / 48) = 9786709 / 67108864 := by
    rw [f32_eval (7 / 48) (-3) 9786709 (by norm_num) (by norm_num [abs_of_pos])
      (by norm_num [abs_of_pos]) (by norm_num [abs_lt])]
    norm_num
  have f2 : f32 ((9786709 : ℚ) / 67108864 + 1 / 2) = 10835285 / 16777216 := by
    rw [f32_eval _ (-1) 10835285 (by norm_num) (by norm_num [abs_of_pos])
      (by norm_num [abs_of_pos]) (by norm_num [abs_lt])]
    norm_num
  have f3 : f32 ((10835285 : ℚ) / 16777216 - 1 / 2) = 2446677 / 16777216 := by
    rw [f32_eval _ (-3) 9786708 (by norm_num) (by norm_num [abs_of_pos])
      (by norm_num [abs_of_pos]) (by norm_num [abs_lt])]
    norm_num
  have f4 : f32 ((2446677 : ℚ) / 16777216 * 48) = 7340031 / 1048576 := by
    rw [f32_eval _ 2 14680062 (by norm_num) (by norm_num [abs_of_pos])
      (by norm_num [abs_of_pos]) (by norm_num [abs_lt])]
    norm_num
  refine ⟨rfl, ?_, ?_, by norm_num, ?_, by norm_num⟩
  · rw [e1, hp]
  · rw [e3, hp, f1, f2]
    norm_num
  · unfold potPitchFloat PITCH_RANGE_SEMITONES
    rw [f3, f4]

/-! ## Parameter validity theorems -/

theorem isQ15_draw (r : Nat) : IsQ15 (toInt16 ((r % 32768 : Nat) : Int)) := by
  unfold toInt16
  constructor <;> omega

theorem isQ15_size_draw (r : Nat) : IsQ15 (toInt16 (1000 + ((r % 31767 : Nat) : Int))) := by
  unfold toInt16
  constructor <;> omega

/-- Truncation of a non-negative value scaled into `[0, c]`. -/
theorem truncf_scaled (v : ℚ) (c : Int) (h0 : 0 ≤ v) (h1 : v ≤ 1) (hc : 0 ≤ c) :
    0 ≤ truncf (v * (c : ℚ)) ∧ truncf (v * (c : ℚ)) ≤ c := by
  have hc2 : (0 : ℚ) ≤ (c : ℚ) := by exact_mod_cast hc
  have hx0 : 0 ≤ v * (c : ℚ) := mul_nonneg h0 hc2
  have hx1 : v * (c : ℚ) ≤ (c : ℚ) := by nlinarith
  unfold truncf
  rw [if_pos hx0]
  constructor
  · exact Int.floor_nonneg.mpr hx0
  · have := Int.floor_le (v * (c : ℚ))
    have h3 : ((⌊v * (c : ℚ)⌋ : Int) : ℚ) ≤ (c : ℚ) := le_trans this hx1
    exact_mod_cast h3

/-- A pot value in `[0, 1]` scaled to Q15. -/
theorem isQ15_pot (v : ℚ) (h0 : 0 ≤ v) (h1 : v ≤ 1) : IsQ15 (toInt16 (truncf (v * 32767))) := by
  have h := truncf_scaled v 32767 h0 h1 (by norm_num)
  norm_num at h
  rw [toInt16_of_range _ (by omega) (by omega)]
  exact h

/-- Every entry of the feedback table is a Q15 value. -/
theorem feedback_lut_range (i : Nat) (hi : i ≤ 255) : IsQ15 (g_feedback_lut_q15 i) := by
  have hi2 : ((i : ℚ)) ≤ 255 := by exact_mod_cast hi
  have hi0 : (0 : ℚ) ≤ (i : ℚ) := by positivity
  have hx0 : (0 : ℚ) ≤ (1 / 10 + ((i : ℚ) / ((FEEDBACK_LUT_SIZE : ℚ) - 1)) * (5 / 10)) * 32767 := by
    unfold FEEDBACK_LUT_SIZE
    norm_num
    positivity
  have hx1 : (1 / 10 + ((i : ℚ) / ((FEEDBACK_LUT_SIZE : ℚ) - 1)) * (5 / 10)) * 32767 ≤ 32767 := by
    unfold FEEDBACK_LUT_SIZE
    norm_num
    linarith
  unfold g_feedback_lut_q15 truncf
  simp only
  rw [if_pos hx0]
  have h1 := Int.floor_nonneg.mpr hx0
  have h2 := Int.floor_le ((1 / 10 + ((i : ℚ) / ((FEEDBACK_LUT_SIZE : ℚ) - 1)) * (5 / 10)) * 32767)
  have h3 : ((⌊(1 / 10 + ((i : ℚ) / ((FEEDBACK_LUT_SIZE : ℚ) - 1)) * (5 / 10)) * 32767⌋ : Int) : ℚ)
      ≤ ((32767 : Int) : ℚ) := by
    push_cast
    exact le_trans h2 hx1
  have h4 : ⌊(1 / 10 + ((i : ℚ) / ((FEEDBACK_LUT_SIZE : ℚ) - 1)) * (5 / 10)) * 32767⌋ ≤ 32767 := by
    exact_mod_cast h3
  rw [toInt16_of_range _ (by omega) (by omega)]
  exact ⟨h1, h4⟩

/-- Every entry of the mix table is a Q15 value. -/
theorem mix_lut_range (i : Nat) (hi : i ≤ 255) : IsQ15 (g_mix_lut_q15 i) := by
  unfold g_mix_lut_q15 MIX_LUT_SIZE
  rw [Int.tdiv_eq_ediv (by positivity) (by norm_num)]
  push_cast
  have hb : 0 ≤ (i : Int) * 32767 / (256 - 1) ∧ (i : Int) * 32767 / (256 - 1) ≤ 32767 := by
    constructor <;> omega
  rw [toInt16_of_range _ (by omega) (by omega)]
  exact hb

/-- The slot contents drawn by `initializeSnapshots` are valid. -/
theorem randomSnapshot_valid (rnd : Nat → Nat) (i : Nat) : (randomSnapshot rnd i).Valid := by
  obtain ⟨p0, p1⟩ := random_pitch_range (rnd (64 + 11 * i + 6))
  have hfb : rnd (64 + 11 * i + 5) % FEEDBACK_LUT_SIZE ≤ 255 := by
    unfold FEEDBACK_LUT_SIZE
    omega
  have hloop : (2 : Int) ≤ 2 + ((rnd (64 + 11 * i + 7) % (DEJA_VU_BUFFER_SIZE - 1) : Nat) : Int) ∧
      2 + ((rnd (64 + 11 * i + 7) % (DEJA_VU_BUFFER_SIZE - 1) : Nat) : Int) ≤ 16 := by
    unfold DEJA_VU_BUFFER_SIZE
    omega
  refine ⟨isQ15_draw _, isQ15_size_draw _, isQ15_draw _, isQ15_draw _, isQ15_draw _,
    feedback_lut_range _ hfb, ?_, hloop, ?_, ?_⟩
  · show IsQ15 (if i < 3 then 32767 else 0)
    split_ifs <;> exact ⟨by norm_num, by norm_num⟩
  · show -24 ≤ PITCH_RANDOM_MIN + PITCH_RANDOM_RANGE * randomFloat (rnd (64 + 11 * i + 6))
    linarith
  · show PITCH_RANDOM_MIN + PITCH_RANDOM_RANGE * randomFloat (rnd (64 + 11 * i + 6)) ≤ 24
    linarith

/-- Arming the soft takeover keeps the parameter invariant. -/
theorem enablePitchSoftTakeover_inv (p : ℚ) (s : State) (h : ParamInv s) :
    ParamInv (enablePitchSoftTakeover p s) := h

/-- Invalidating the display cache keeps the parameter invariant. -/
theorem invalidateDisplayCache_inv (s : State) (h : ParamInv s) :
    ParamInv (invalidateDisplayCache s) := h

/-- The function `loadSnapshot` keeps the parameter invariant. -/
theorem loadSnapshot_inv (slot : Int) (s : State) (h : ParamInv s) :
    ParamInv (loadSnapshot slot s) := by
  unfold loadSnapshot
  split_ifs with hg
  · exact h
  · obtain ⟨-, -, hsnap, hstep⟩ := h
    have hslot : slot.toNat < 4 := by omega
    have hinit : s.g_snapshots_initialized slot.toNat = true := by
      by_contra hc
      exact hg (Or.inr (Or.inr (by simpa using hc)))
    obtain ⟨v1, v2, v3, v4, v5, v6, v7, v8, v9⟩ := hsnap slot.toNat hslot hinit
    have hres := constrain_range
      (if (!isfinite (((s.g_snapshots slot.toNat).resolution_index : Int) : ℚ)) = true then 3
        else (s.g_snapshots slot.toNat).resolution_index) 0 6 (by norm_num)
    exact ⟨⟨v1, v2, v3, v4, v5, v6, v7, v8, v9⟩, hres, hsnap, hstep⟩

/-- The function `saveSnapshot` keeps the parameter invariant. -/
theorem saveSnapshot_inv (slot : Int) (now_ms : Nat) (s : State) (h : ParamInv s) :
    ParamInv (saveSnapshot slot now_ms s) := by
  unfold saveSnapshot
  split_ifs with hg
  · exact h
  · obtain ⟨hp, hres, hsnap, hstep⟩ := h
    refine ⟨hp, hres, ?_, hstep⟩
    intro i hi hinit
    by_cases e : i = slot.toNat
    · subst e
      simp only [Function.update_same]
      obtain ⟨v1, v2, v3, v4, v5, v6, v7, v8, v9⟩ := hp
      exact ⟨v1, v2, v3, v4, v5, v6, v7, v8, v9⟩
    · simp only [Function.update_noteq e] at hinit ⊢
      exact hsnap i hi hinit

/-- The function `randomizeDejaVuBuffer` establishes valid parameters and keeps
the parameter invariant. -/
theorem randomizeDejaVuBuffer_inv (rnd : Nat → Nat) (now_ms : Nat) (s : State) (h : ParamInv s) :
    ParamInv (randomizeDejaVuBuffer rnd now_ms s) := by
  obtain ⟨-, -, hsnap, -⟩ := h
  obtain ⟨p0, p1⟩ := random_pitch_range (rnd 70)
  have hfb : rnd 69 % FEEDBACK_LUT_SIZE ≤ 255 := by
    unfold FEEDBACK_LUT_SIZE
    omega
  have hloop : (2 : Int) ≤ 2 + ((rnd 71 % (DEJA_VU_BUFFER_SIZE - 1) : Nat) : Int) ∧
      2 + ((rnd 71 % (DEJA_VU_BUFFER_SIZE - 1) : Nat) : Int) ≤ 16 := by
    unfold DEJA_VU_BUFFER_SIZE
    omega
  have hres : (0 : Int) ≤ ((rnd 74 % 7 : Nat) : Int) ∧ ((rnd 74 % 7 : Nat) : Int) ≤ 6 := by omega
  have hpitch : (-24 : ℚ) ≤ PITCH_RANDOM_MIN + PITCH_RANDOM_RANGE * randomFloat (rnd 70) ∧
      PITCH_RANDOM_MIN + PITCH_RANDOM_RANGE * randomFloat (rnd 70) ≤ 24 :=
    ⟨by linarith, by linarith⟩
  exact ⟨⟨isQ15_draw _, isQ15_size_draw _, isQ15_draw _, isQ15_draw _, isQ15_draw _,
    feedback_lut_range _ hfb,
    ⟨by show (0 : Int) ≤ 32767; norm_num, by show (32767 : Int) ≤ 32767; norm_num⟩,
    hloop, hpitch⟩, hres, hsnap, ⟨le_refl _, by show (0 : Int) < 16; norm_num⟩⟩

/-- After the second loop of `initializeSnapshots` the four slots hold the
drawn values and are marked initialised. -/
theorem initializeSnapshots_shape (rnd : Nat → Nat) (s : State) :
    ∃ t : State, initializeSnapshots rnd s =
        enablePitchSoftTakeover (loadSnapshot 0 t).g_params.pitch_f (loadSnapshot 0 t) ∧
      t.g_params = s.g_params ∧
      t.g_current_resolution_index = s.g_current_resolution_index ∧
      t.g_deja_vu_step = s.g_deja_vu_step ∧
      (∀ i : Nat, i < 4 → t.g_snapshots i = randomSnapshot rnd i) ∧
      (∀ i : Nat, i < 4 → t.g_snapshots_initialized i = true) ∧
      t.g_grains = s.g_grains ∧ t.g_activeGrainIndices = s.g_activeGrainIndices ∧
      t.g_activeGrainCount = s.g_activeGrainCount ∧
      t.g_beat_interval_us = s.g_beat_interval_us ∧
      t.g_next_internal_trigger_time_us = s.g_next_internal_trigger_time_us ∧
      t.g_next_raw_beat_time_us = s.g_next_raw_beat_time_us := by
  refine ⟨_, rfl, rfl, rfl, rfl, ?_, ?_, rfl, rfl, rfl, rfl, rfl, rfl⟩
  · intro i hi
    interval_cases i <;> rfl
  · intro i hi
    interval_cases i <;> rfl

/-- The function `initializeSnapshots` keeps the parameter invariant. -/
theorem initializeSnapshots_inv (rnd : Nat → Nat) (s : State) (h : ParamInv s) :
    ParamInv (initializeSnapshots rnd s) := by
  obtain ⟨t, ht, hp, hr, hst, hsn, hin, -⟩ := initializeSnapshots_shape rnd s
  rw [ht]
  apply enablePitchSoftTakeover_inv
  apply loadSnapshot_inv
  obtain ⟨h1, h2, -, h4⟩ := h
  refine ⟨by rw [hp]; exact h1, by rw [hr]; exact h2, ?_, by rw [hst]; exact h4⟩
  intro i hi _
  rw [hsn i hi]
  exact randomSnapshot_valid rnd i

/-- The tail of `case 4` keeps the parameter invariant: the pitch is clamped to
`[-24, 24]`. -/
theorem applyPitchPot_inv (v : ℚ) (s : State) (h : ParamInv s) : ParamInv (applyPitchPot v s) := by
  obtain ⟨⟨v1, v2, v3, v4, v5, v6, v7, v8, -⟩, hres, hsnap, hstep⟩ := h
  have hp := applyPitchPot_pitch v s
  refine ⟨⟨v1, v2, v3, v4, v5, v6, v7, v8, ?_, ?_⟩, hres, hsnap, hstep⟩
  · rw [hp]
    exact le_max_left _ _
  · rw [hp]
    exact max_le (by norm_num) (min_le_left _ _)

/-- The body of `case 4` keeps the parameter invariant. -/
theorem potCase4_inv (v : ℚ) (s : State) (h : ParamInv s) : ParamInv (potCase4 v s) := by
  unfold potCase4
  dsimp only
  split_ifs
  · exact h
  · exact applyPitchPot_inv v _ h
  · exact applyPitchPot_inv v s h

/-- The switch of `updateParametersFromPots` keeps the parameter invariant for
a pot value in `[0, 1]`. -/
theorem potSwitch_inv (i : Nat) (adc : Int) (v : ℚ) (s : State) (hv0 : 0 ≤ v) (hv1 : v ≤ 1)
    (h : ParamInv s) : ParamInv (potSwitch i adc v s) := by
  have hq := isQ15_pot v hv0 hv1
  have h255 := truncf_scaled v 255 hv0 hv1 (by norm_num)
  have hidxF : (truncf (v * ((FEEDBACK_LUT_SIZE : ℚ) - 1))).toNat ≤ 255 := by
    have e : ((FEEDBACK_LUT_SIZE : ℚ) - 1) = ((255 : Int) : ℚ) := by
      unfold FEEDBACK_LUT_SIZE
      norm_num
    rw [e]
    omega
  have hidxM : (truncf (v * ((MIX_LUT_SIZE : ℚ) - 1))).toNat ≤ 255 := by
    have e : ((MIX_LUT_SIZE : ℚ) - 1) = ((255 : Int) : ℚ) := by
      unfold MIX_LUT_SIZE
      norm_num
    rw [e]
    omega
  rcases i with _ | _ | _ | _ | _ | _ | i
  · obtain ⟨⟨-, v2, v3, v4, v5, v6, v7, v8, v9⟩, hres, hsnap, hstep⟩ := h
    exact ⟨⟨hq, v2, v3, v4, v5, v6, v7, v8, v9⟩, hres, hsnap, hstep⟩
  · obtain ⟨⟨v1, -, v3, v4, v5, v6, v7, v8, v9⟩, hres, hsnap, hstep⟩ := h
    exact ⟨⟨v1, hq, v3, v4, v5, v6, v7, v8, v9⟩, hres, hsnap, hstep⟩
  · obtain ⟨⟨v1, v2, -, v4, v5, v6, v7, v8, v9⟩, hres, hsnap, hstep⟩ := h
    exact ⟨⟨v1, v2, hq, v4, v5, v6, v7, v8, v9⟩, hres, hsnap, hstep⟩
  · obtain ⟨⟨v1, v2, v3, v4, v5, v6, v7, v8, v9⟩, hres, hsnap, hstep⟩ := h
    show ParamInv (match s.g_pot4_mode with
      | .MODE_TEXTURE => _
      | .MODE_SPREAD => _
      | .MODE_FEEDBACK => _
      | .MODE_LOOP_LENGTH => _
      | .MODE_CLK_RESOLUTION => _)
    split
    · exact ⟨⟨v1, v2, v3, hq, v5, v6, v7, v8, v9⟩, hres, hsnap, hstep⟩
    · exact ⟨⟨v1, v2, v3, v4, hq, v6, v7, v8, v9⟩, hres, hsnap, hstep⟩
    · exact ⟨⟨v1, v2, v3, v4, v5, feedback_lut_range _ hidxF, v7, v8, v9⟩, hres, hsnap, hstep⟩
    · exact ⟨⟨v1, v2, v3, v4, v5, v6, v7, constrain_range _ 2 16 (by norm_num), v9⟩,
        hres, hsnap, hstep⟩
    · exact ⟨⟨v1, v2, v3, v4, v5, v6, v7, v8, v9⟩, constrain_range _ 0 6 (by norm_num),
        hsnap, hstep⟩
  · exact potCase4_inv v s h
  · obtain ⟨⟨v1, v2, v3, v4, v5, v6, -, v8, v9⟩, hres, hsnap, hstep⟩ := h
    have hm := mix_lut_range _ hidxM
    show ParamInv
      { s with
        g_params :=
          { s.g_params with
            dryWet_q15 := g_mix_lut_q15 (truncf (v * ((MIX_LUT_SIZE : ℚ) - 1))).toNat } }
    exact ⟨⟨v1, v2, v3, v4, v5, v6, hm, v8, v9⟩, hres, hsnap, hstep⟩
  · exact h

/-- One pot iteration keeps the parameter invariant, whatever the readings. -/
theorem potIteration_inv (analogRead : Nat → Nat → Nat) (i : Nat) (s : State) (h : ParamInv s) :
    ParamInv (potIteration analogRead i s) := by
  unfold potIteration
  simp only [isfinite, Bool.not_true, Bool.false_eq_true, if_false]
  by_cases hc : |smoothedAdc analogRead i - s.last_adc_values i| > ADC_CHANGE_THRESHOLD
  · rw [if_pos hc]
    apply potSwitch_inv
    · rw [clamp_unit]
      exact le_max_left _ _
    · rw [clamp_unit]
      exact max_le (by norm_num) (min_le_left _ _)
    · exact h
  · rw [if_neg hc]
    exact h

/-- The function `updateParametersFromPots` keeps the parameter invariant. -/
theorem updateParametersFromPots_inv (analogRead : Nat → Nat → Nat) (s : State)
    (h : ParamInv s) : ParamInv (updateParametersFromPots analogRead s) := by
  unfold updateParametersFromPots
  generalize List.range 6 = l
  induction l generalizing s with
  | nil => exact h
  | cons i rest ih => exact ih _ (potIteration_inv analogRead i s h)

/-- Triggering a grain leaves the snapshot slots and the resolution index
alone. -/
theorem triggerGrain_control (L : Luts) (idx : Int) (p : ParamSnapshot) (s : State) :
    (triggerGrain L idx p s).g_snapshots = s.g_snapshots ∧
    (triggerGrain L idx p s).g_snapshots_initialized = s.g_snapshots_initialized ∧
    (triggerGrain L idx p s).g_current_resolution_index = s.g_current_resolution_index ∧
    (triggerGrain L idx p s).g_beat_interval_us = s.g_beat_interval_us ∧
    (triggerGrain L idx p s).g_next_internal_trigger_time_us = s.g_next_internal_trigger_time_us ∧
    (triggerGrain L idx p s).g_next_raw_beat_time_us = s.g_next_raw_beat_time_us := by
  have h : (triggerGrainFields L p s).2.g_snapshots = s.g_snapshots ∧
      (triggerGrainFields L p s).2.g_snapshots_initialized = s.g_snapshots_initialized ∧
      (triggerGrainFields L p s).2.g_current_resolution_index = s.g_current_resolution_index ∧
      (triggerGrainFields L p s).2.g_beat_interval_us = s.g_beat_interval_us ∧
      (triggerGrainFields L p s).2.g_next_internal_trigger_time_us =
        s.g_next_internal_trigger_time_us ∧
      (triggerGrainFields L p s).2.g_next_raw_beat_time_us = s.g_next_raw_beat_time_us :=
    ⟨rfl, rfl, rfl, rfl, rfl, rfl⟩
  unfold triggerGrain
  split_ifs
  · exact ⟨rfl, rfl, rfl, rfl, rfl, rfl⟩
  · simp only [triggerGrainRegister]
    split_ifs <;> exact h

/-- The spawn loop leaves the snapshot slots, the resolution index and the
deja-vu step alone. -/
theorem spawnGrains_control (L : Luts) (rnd : Nat → Nat) (p : ParamSnapshot) (n rem : Nat) :
    ∀ (gen k : Nat) (s : State),
      (spawnGrains L rnd p n rem gen k s).g_snapshots = s.g_snapshots ∧
      (spawnGrains L rnd p n rem gen k s).g_snapshots_initialized = s.g_snapshots_initialized ∧
      (spawnGrains L rnd p n rem gen k s).g_current_resolution_index =
        s.g_current_resolution_index ∧
      (spawnGrains L rnd p n rem gen k s).g_deja_vu_step = s.g_deja_vu_step := by
  induction rem with
  | zero =>
    intro gen k s
    exact ⟨rfl, rfl, rfl, rfl⟩
  | succ rem ih =>
    intro gen k s
    rw [spawnGrains]
    simp only
    split_ifs
    · refine ⟨?_, ?_, ?_, ?_⟩
      · rw [(ih _ _ _).1, (triggerGrain_control L _ _ s).1]
      · rw [(ih _ _ _).2.1, (triggerGrain_control L _ _ s).2.1]
      · rw [(ih _ _ _).2.2.1, (triggerGrain_control L _ _ s).2.2.1]
      · rw [(ih _ _ _).2.2.2, (triggerGrain_frame L _ _ s).2.2.1]
    · refine ⟨?_, ?_, ?_, ?_⟩
      · rw [(ih _ _ _).1, (triggerGrain_control L _ _ s).1]
      · rw [(ih _ _ _).2.1, (triggerGrain_control L _ _ s).2.1]
      · rw [(ih _ _ _).2.2.1, (triggerGrain_control L _ _ s).2.2.1]
      · rw [(ih _ _ _).2.2.2, (triggerGrain_frame L _ _ s).2.2.1]
    · exact ih gen k s
    · exact ⟨rfl, rfl, rfl, rfl⟩

/-- The shape of `handleDejaVuTrigger` when the buffer is ready, with the
parameter fields of the state the spawn loop starts from. -/
theorem handleDejaVuTrigger_control (L : Luts) (rnd : Nat → Nat) (now_ms : Nat) (s : State)
    (hready : s.g_grainBufferReady = true) :
    ∃ (p : ParamSnapshot) (n k : Nat) (s1 : State),
      s1.g_params = s.g_params ∧ s1.g_snapshots = s.g_snapshots ∧
      s1.g_snapshots_initialized = s.g_snapshots_initialized ∧
      s1.g_current_resolution_index = s.g_current_resolution_index ∧
      s1.g_deja_vu_step = s.g_deja_vu_step ∧
      handleDejaVuTrigger L rnd now_ms s =
        { spawnGrains L rnd p n MAX_GRAINS 0 k s1 with
          g_deja_vu_step :=
            Int.tmod ((spawnGrains L rnd p n MAX_GRAINS 0 k s1).g_deja_vu_step + 1)
              (DEJA_VU_BUFFER_SIZE : Int) } := by
  unfold handleDejaVuTrigger
  rw [if_neg (by simp [hready])]
  refine ⟨_, _, _, _, ?_, ?_, ?_, ?_, ?_, rfl⟩ <;> split_ifs <;> rfl

/-- The function `handleDejaVuTrigger` keeps the parameter invariant. -/
theorem handleDejaVuTrigger_inv (L : Luts) (rnd : Nat → Nat) (now_ms : Nat) (s : State)
    (h : ParamInv s) : ParamInv (handleDejaVuTrigger L rnd now_ms s) := by
  by_cases hready : s.g_grainBufferReady = true
  · obtain ⟨p, n, k, s1, e1, e2, e3, e4, e5, heq⟩ :=
      handleDejaVuTrigger_control L rnd now_ms s hready
    obtain ⟨c1, c2, c3, c4⟩ := spawnGrains_control L rnd p n MAX_GRAINS 0 k s1
    obtain ⟨-, f2, -, -⟩ := spawnGrains_frame L rnd p n MAX_GRAINS 0 k s1
    obtain ⟨hp, hres, hsnap, hstep⟩ := h
    rw [heq]
    refine ⟨?_, ?_, ?_, ?_⟩
    · show (spawnGrains L rnd p n MAX_GRAINS 0 k s1).g_params.Valid
      rw [f2, e1]
      exact hp
    · show 0 ≤ (spawnGrains L rnd p n MAX_GRAINS 0 k s1).g_current_resolution_index ∧
        (spawnGrains L rnd p n MAX_GRAINS 0 k s1).g_current_resolution_index ≤ 6
      rw [c3, e4]
      exact hres
    · intro i hi hinit
      have hinit2 : (spawnGrains L rnd p n MAX_GRAINS 0 k s1).g_snapshots_initialized i = true :=
        hinit
      show ((spawnGrains L rnd p n MAX_GRAINS 0 k s1).g_snapshots i).Valid
      rw [c2, e3] at hinit2
      rw [c1, e2]
      exact hsnap i hi hinit2
    · show 0 ≤ Int.tmod ((spawnGrains L rnd p n MAX_GRAINS 0 k s1).g_deja_vu_step + 1)
          (DEJA_VU_BUFFER_SIZE : Int) ∧
        Int.tmod ((spawnGrains L rnd p n MAX_GRAINS 0 k s1).g_deja_vu_step + 1)
          (DEJA_VU_BUFFER_SIZE : Int) < 16
      rw [c4, e5]
      have h16 : ((DEJA_VU_BUFFER_SIZE : Nat) : Int) = 16 := rfl
      rw [h16]
      exact ⟨Int.tmod_nonneg _ (by omega), Int.tmod_lt_of_pos _ (by norm_num)⟩
  · unfold handleDejaVuTrigger
    rw [if_pos (by simpa using hready)]
    exact h

/-- The state in which `setup` calls `initializeSnapshots`. -/
theorem setup_shape (rnd : Nat → Nat) (bt_connected : Bool) :
    ∃ t : State, setup rnd bt_connected initialState = initializeSnapshots rnd t ∧
      t.g_params =
        { texture_q15 := 0, stereoSpread_q15 := 29490, feedback_q15 := g_feedback_lut_q15 51,
          loop_length := 16 } ∧
      t.g_current_resolution_index = 3 ∧
      (∀ i : Nat, t.g_snapshots_initialized i = false) ∧
      t.g_deja_vu_step = 0 :=
  ⟨_, rfl, rfl, rfl, fun _ => rfl, rfl⟩

/-- After `setup` the parameter invariant holds. -/
theorem setup_inv (rnd : Nat → Nat) (bt_connected : Bool) :
    ParamInv (setup rnd bt_connected initialState) := by
  obtain ⟨t, ht, hp, hr, hi, hs⟩ := setup_shape rnd bt_connected
  rw [ht]
  apply initializeSnapshots_inv
  refine ⟨?_, ?_, ?_, ?_⟩
  · rw [hp]
    refine ⟨⟨le_refl _, by norm_num⟩, ⟨le_refl _, by norm_num⟩, ⟨le_refl _, by norm_num⟩,
      ⟨le_refl _, by norm_num⟩, ⟨by norm_num, by norm_num⟩,
      feedback_lut_range 51 (by norm_num), ⟨le_refl _, by norm_num⟩,
      ⟨by norm_num, by norm_num⟩, ⟨by norm_num, by norm_num⟩⟩
  · rw [hr]
    exact ⟨by norm_num, by norm_num⟩
  · intro i _ hinit
    rw [hi i] at hinit
    exact absurd hinit (by decide)
  · rw [hs]
    exact ⟨le_refl _, by norm_num⟩

/-- Every reachable state satisfies the parameter invariant. -/
theorem ParamReachable.inv {L : Luts} {s : State} (h : ParamReachable L s) : ParamInv s := by
  induction h with
  | setup rnd bt => exact setup_inv rnd bt
  | pots analogRead _ ih => exact updateParametersFromPots_inv analogRead _ ih
  | randomize rnd now_ms _ ih => exact randomizeDejaVuBuffer_inv rnd now_ms _ ih
  | snapshots rnd _ ih => exact initializeSnapshots_inv rnd _ ih
  | save slot now_ms _ ih => exact saveSnapshot_inv slot now_ms _ ih
  | load slot _ ih => exact loadSnapshot_inv slot _ ih
  | trigger rnd now_ms _ ih => exact handleDejaVuTrigger_inv L rnd now_ms _ ih

/-- C18: parameter validity is an invariant.  In every state reached after
`setup` by any sequence of `updateParametersFromPots` (any readings),
`randomizeDejaVuBuffer`, `initializeSnapshots`, `saveSnapshot`, `loadSnapshot`
and trigger events, the live position, size, deja-vu, texture, stereo spread,
feedback and dry/wet values are in `0..32767`, the loop length is in `2..16`,
the clock-resolution index is in `0..6` and the pitch is in `[-24, 24]`; the
loop length is not zero, and the ring index `g_deja_vu_step mod loop_length`
lies in `0..15`. -/
theorem parameter_validity_invariant (L : Luts) (s : State) (h : ParamReachable L s) :
    (IsQ15 s.g_params.position_q15 ∧ IsQ15 s.g_params.size_q15 ∧ IsQ15 s.g_params.deja_vu_q15 ∧
      IsQ15 s.g_params.texture_q15 ∧ IsQ15 s.g_params.stereoSpread_q15 ∧
      IsQ15 s.g_params.feedback_q15 ∧ IsQ15 s.g_params.dryWet_q15) ∧
    (2 ≤ s.g_params.loop_length ∧ s.g_params.loop_length ≤ 16) ∧
    (0 ≤ s.g_current_resolution_index ∧ s.g_current_resolution_index ≤ 6) ∧
    (-24 ≤ s.g_params.pitch_f ∧ s.g_params.pitch_f ≤ 24) ∧
    s.g_params.loop_length ≠ 0 ∧
    (0 ≤ Int.tmod s.g_deja_vu_step s.g_params.loop_length ∧
      Int.tmod s.g_deja_vu_step s.g_params.loop_length < (DEJA_VU_BUFFER_SIZE : Int)) := by
  obtain ⟨⟨v1, v2, v3, v4, v5, v6, v7, v8, v9⟩, hres, -, hstep⟩ := h.inv
  refine ⟨⟨v1, v2, v3, v4, v5, v6, v7⟩, v8, hres, v9, by omega, ?_, ?_⟩
  · exact Int.tmod_nonneg _ hstep.1
  · have h1 := Int.tmod_lt_of_pos s.g_deja_vu_step (show 0 < s.g_params.loop_length by omega)
    have h16 : ((DEJA_VU_BUFFER_SIZE : Nat) : Int) = 16 := rfl
    rw [h16]
    omega

/-- Witness for C18: the state right after `setup` with all draws 0. -/
theorem parameter_validity_invariant_witness :
    (2 ≤ (setup (fun _ => 0) false initialState).g_params.loop_length ∧
      (setup (fun _ => 0) false initialState).g_params.loop_length ≤ 16) ∧
    (0 ≤ (setup (fun _ => 0) false initialState).g_current_resolution_index ∧
      (setup (fun _ => 0) false initialState).g_current_resolution_index ≤ 6) ∧
    (-24 ≤ (setup (fun _ => 0) false initialState).g_params.pitch_f ∧
      (setup (fun _ => 0) false initialState).g_params.pitch_f ≤ 24) :=
  have h := parameter_validity_invariant flatLuts (setup (fun _ => 0) false initialState)
    (ParamReachable.setup (fun _ => 0) false)
  ⟨h.2.1, h.2.2.1, h.2.2.2.1⟩

/-! ## Control task theorems -/

theorem SameEngine.trans {s t u : State} (h1 : SameEngine s t) (h2 : SameEngine t u) :
    SameEngine s u :=
  ⟨h2.1.trans h1.1, h2.2.1.trans h1.2.1, h2.2.2.1.trans h1.2.2.1,
    h2.2.2.2.1.trans h1.2.2.2.1, h2.2.2.2.2.1.trans h1.2.2.2.2.1,
    h2.2.2.2.2.2.trans h1.2.2.2.2.2⟩

/-- The debounce only writes the button and its own statics. -/
theorem handleButtonDebounce_engine (b : ButtonState) (pin : Nat) (reading : Bool)
    (t_edge t_check : Nat) (s : State) :
    SameEngine s (handleButtonDebounce b pin reading t_edge t_check s).2.2 := by
  unfold handleButtonDebounce
  dsimp only
  split_ifs <;> exact ⟨rfl, rfl, rfl, rfl, rfl, rfl⟩

theorem loadSnapshot_engine (slot : Int) (s : State) : SameEngine s (loadSnapshot slot s) := by
  unfold loadSnapshot
  split_ifs <;> exact ⟨rfl, rfl, rfl, rfl, rfl, rfl⟩

theorem saveSnapshot_engine (slot : Int) (now_ms : Nat) (s : State) :
    SameEngine s (saveSnapshot slot now_ms s) := by
  unfold saveSnapshot
  split_ifs <;> exact ⟨rfl, rfl, rfl, rfl, rfl, rfl⟩

theorem randomizeDejaVuBuffer_engine (rnd : Nat → Nat) (now_ms : Nat) (s : State) :
    SameEngine s (randomizeDejaVuBuffer rnd now_ms s) :=
  ⟨rfl, rfl, rfl, rfl, rfl, rfl⟩

theorem initializeSnapshots_engine (rnd : Nat → Nat) (s : State) :
    SameEngine s (initializeSnapshots rnd s) := by
  obtain ⟨t, ht, -, -, -, -, -, e1, e2, e3, e4, e5, e6⟩ := initializeSnapshots_shape rnd s
  rw [ht]
  have h1 : SameEngine s t := ⟨e1, e2, e3, e4, e5, e6⟩
  have h2 : SameEngine t (loadSnapshot 0 t) := loadSnapshot_engine 0 t
  exact h1.trans h2

theorem potSwitch_engine (i : Nat) (adc : Int) (v : ℚ) (s : State) :
    SameEngine s (potSwitch i adc v s) := by
  rcases i with _ | _ | _ | _ | _ | _ | i
  · exact ⟨rfl, rfl, rfl, rfl, rfl, rfl⟩
  · exact ⟨rfl, rfl, rfl, rfl, rfl, rfl⟩
  · exact ⟨rfl, rfl, rfl, rfl, rfl, rfl⟩
  · show SameEngine s (match s.g_pot4_mode with
      | .MODE_TEXTURE => _
      | .MODE_SPREAD => _
      | .MODE_FEEDBACK => _
      | .MODE_LOOP_LENGTH => _
      | .MODE_CLK_RESOLUTION => _)
    split <;> exact ⟨rfl, rfl, rfl, rfl, rfl, rfl⟩
  · show SameEngine s (potCase4 v s)
    unfold potCase4 applyPitchPot
    dsimp only
    split_ifs <;> exact ⟨rfl, rfl, rfl, rfl, rfl, rfl⟩
  · show SameEngine s
      { s with
        g_params :=
          { s.g_params with
            dryWet_q15 := g_mix_lut_q15 (truncf (v * ((MIX_LUT_SIZE : ℚ) - 1))).toNat } }
    exact ⟨rfl, rfl, rfl, rfl, rfl, rfl⟩
  · exact ⟨rfl, rfl, rfl, rfl, rfl, rfl⟩

theorem potIteration_engine (analogRead : Nat → Nat → Nat) (i : Nat) (s : State) :
    SameEngine s (potIteration analogRead i s) := by
  unfold potIteration
  dsimp only
  by_cases hc : |smoothedAdc analogRead i - s.last_adc_values i| > ADC_CHANGE_THRESHOLD
  · rw [if_pos hc]
    exact potSwitch_engine i _ _ _
  · rw [if_neg hc]
    exact ⟨rfl, rfl, rfl, rfl, rfl, rfl⟩

theorem updateParametersFromPots_engine (analogRead : Nat → Nat → Nat) (s : State) :
    SameEngine s (updateParametersFromPots analogRead s) := by
  unfold updateParametersFromPots
  generalize List.range 6 = l
  induction l generalizing s with
  | nil => exact ⟨rfl, rfl, rfl, rfl, rfl, rfl⟩
  | cons i rest ih => exact (potIteration_engine analogRead i s).trans (ih _)

theorem updatePot4Button_engine (reading : Bool) (millis : Nat → Nat) (s : State) :
    SameEngine s (updatePot4Button reading millis s) := by
  have h := handleButtonDebounce_engine s.g_pot4_button POT4_BUTTON_PIN reading (millis 0)
    (millis 1) s
  unfold updatePot4Button
  dsimp only
  split_ifs <;> exact h

theorem updateModeButton_engine (reading : Bool) (millis : Nat → Nat) (rnd : Nat → Nat)
    (s : State) : SameEngine s (updateModeButton reading millis rnd s) := by
  have h := handleButtonDebounce_engine s.g_mode_button MODE_BUTTON_PIN reading (millis 0)
    (millis 1) s
  unfold updateModeButton
  dsimp only
  generalize handleButtonDebounce s.g_mode_button MODE_BUTTON_PIN reading (millis 0) (millis 1) s
    = r at h ⊢
  obtain ⟨b1, b2, b3, b4, b5, b6⟩ := h
  split_ifs
  · exact ⟨b1, b2, b3, b4, b5, b6⟩
  · exact ⟨b1, b2, b3, b4, b5, b6⟩
  · obtain ⟨a1, a2, a3, a4, a5, a6⟩ := initializeSnapshots_engine rnd
      { r.2.2 with g_mode_button := notePressStart r.2.1 (millis 2) }
    exact ⟨a1.trans b1, a2.trans b2, a3.trans b3, a4.trans b4, a5.trans b5, a6.trans b6⟩
  · exact ⟨b1, b2, b3, b4, b5, b6⟩

theorem snapshotButtonIteration_engine (reading : Nat → Bool) (millis : Nat → Nat → Nat)
    (i : Nat) (s : State) : SameEngine s (snapshotButtonIteration reading millis i s) := by
  have h := handleButtonDebounce_engine (s.g_snapshot_button i) (snapshotPin i) (reading i)
    (millis i 0) (millis i 1) s
  unfold snapshotButtonIteration
  dsimp only
  generalize handleButtonDebounce (s.g_snapshot_button i) (snapshotPin i) (reading i)
    (millis i 0) (millis i 1) s = r at h ⊢
  obtain ⟨b1, b2, b3, b4, b5, b6⟩ := h
  split_ifs
  · obtain ⟨a1, a2, a3, a4, a5, a6⟩ := saveSnapshot_engine (i : Int) (millis i 4)
      { r.2.2 with
        g_snapshot_button :=
          Function.update r.2.2.g_snapshot_button i (notePressStart r.2.1 (millis i 2)) }
    exact ⟨a1.trans b1, a2.trans b2, a3.trans b3, a4.trans b4, a5.trans b5, a6.trans b6⟩
  · obtain ⟨a1, a2, a3, a4, a5, a6⟩ := loadSnapshot_engine (i : Int)
      { r.2.2 with
        g_snapshot_button :=
          Function.update r.2.2.g_snapshot_button i (notePressStart r.2.1 (millis i 2)) }
    exact ⟨a1.trans b1, a2.trans b2, a3.trans b3, a4.trans b4, a5.trans b5, a6.trans b6⟩
  · exact ⟨b1, b2, b3, b4, b5, b6⟩

theorem updateSnapshotButtons_engine (reading : Nat → Bool) (millis : Nat → Nat → Nat)
    (s : State) : SameEngine s (updateSnapshotButtons reading millis s) := by
  unfold updateSnapshotButtons
  generalize List.range 4 = l
  induction l generalizing s with
  | nil => exact ⟨rfl, rfl, rfl, rfl, rfl, rfl⟩
  | cons i rest ih => exact (snapshotButtonIteration_engine reading millis i s).trans (ih _)

theorem updateMainButton_engine (L : Luts) (reading : Bool) (millis : Nat → Nat) (now_us : Nat)
    (rnd : Nat → Nat) (s : State) (hshort : mainButtonShortRelease reading millis s = false) :
    SameEngine s (updateMainButton L reading millis now_us rnd s) := by
  have h := handleButtonDebounce_engine s.g_button BUTTON_PIN reading (millis 0) (millis 1) s
  unfold mainButtonShortRelease at hshort
  simp only [decide_eq_false_iff_not, not_and] at hshort
  unfold updateMainButton
  dsimp only
  generalize handleButtonDebounce s.g_button BUTTON_PIN reading (millis 0) (millis 1) s
    = r at h hshort ⊢
  obtain ⟨b1, b2, b3, b4, b5, b6⟩ := h
  split_ifs with c1 c2 c3
  · exact absurd c2 (hshort c1.1 c1.2)
  · exact absurd c2 (hshort c1.1 c1.2)
  · obtain ⟨a1, a2, a3, a4, a5, a6⟩ := randomizeDejaVuBuffer_engine rnd (millis 4)
      { r.2.2 with g_button := notePressStart r.2.1 (millis 2) }
    exact ⟨a1.trans b1, a2.trans b2, a3.trans b3, a4.trans b4, a5.trans b5, a6.trans b6⟩
  · exact ⟨b1, b2, b3, b4, b5, b6⟩

/-- C15 (amended): `updatePot4Button`, `updateModeButton`,
`updateSnapshotButtons` and `updateParametersFromPots`, for every pin level,
pot reading, clock value and random draw, leave the grain pool, the
active-index list and count, the beat interval and both clock schedules
unchanged; `updateMainButton` does so on every call that is not the release of
a short press. -/
theorem control_task_frame (L : Luts) (s : State) (reading : Bool) (readings : Nat → Bool)
    (millis : Nat → Nat) (millis4 : Nat → Nat → Nat) (now_us : Nat) (rnd : Nat → Nat)
    (analogRead : Nat → Nat → Nat) :
    SameEngine s (updatePot4Button reading millis s) ∧
    SameEngine s (updateModeButton reading millis rnd s) ∧
    SameEngine s (updateSnapshotButtons readings millis4 s) ∧
    SameEngine s (updateParametersFromPots analogRead s) ∧
    (mainButtonShortRelease reading millis s = false →
      SameEngine s (updateMainButton L reading millis now_us rnd s)) :=
  ⟨updatePot4Button_engine reading millis s, updateModeButton_engine reading millis rnd s,
    updateSnapshotButtons_engine readings millis4 s, updateParametersFromPots_engine analogRead s,
    updateMainButton_engine L reading millis now_us rnd s⟩

/-- Witness for C15 (amended): in `pressedState` the main button is released
after a long press (pressed at 900, released at 2000). -/
theorem control_task_frame_witness :
    mainButtonShortRelease true (fun _ => 2000) pressedState = false ∧
    SameEngine pressedState
      (updateMainButton flatLuts true (fun _ => 2000) 5000000 (fun _ => 1) pressedState) :=
  ⟨by decide,
    (control_task_frame flatLuts pressedState true (fun _ => true) (fun _ => 2000)
      (fun _ _ => 2000) 5000000 (fun _ => 1) (fun _ _ => 0)).2.2.2.2 (by decide)⟩

/-- Counterexample to C15 as stated: in `pressedState` the release of a short
press of the main button (pressed at 900, released at 1100) makes
`updateMainButton` re-arm both clock schedules and spawn two grains. -/
theorem main_button_tap_writes_engine :
    mainButtonShortRelease true (fun _ => 1100) pressedState = true ∧
    pressedState.g_next_internal_trigger_time_us = 0 ∧
    pressedState.g_next_raw_beat_time_us = 0 ∧
    pressedState.g_activeGrainCount = 0 ∧
    (pressedState.g_grains 0).active = false ∧
    (updateMainButton flatLuts true (fun _ => 1100) 5000000 (fun _ => 1)
      pressedState).g_next_internal_trigger_time_us = 5000000 ∧
    (updateMainButton flatLuts true (fun _ => 1100) 5000000 (fun _ => 1)
      pressedState).g_next_raw_beat_time_us = 5000000 ∧
    (updateMainButton flatLuts true (fun _ => 1100) 5000000 (fun _ => 1)
      pressedState).g_activeGrainCount = 2 ∧
    ((updateMainButton flatLuts true (fun _ => 1100) 5000000 (fun _ => 1)
      pressedState).g_grains 0).active = true := by
  refine ⟨?_, ?_, ?_, ?_, ?_, ?_, ?_, ?_, ?_⟩ <;> decide

/-! ## Deja-vu step theorems -/

/-- A trigger event handled with the buffer ready advances the step counter by
one modulo the ring capacity and leaves the live parameters alone. -/
theorem handleDejaVuTrigger_step (L : Luts) (rnd : Nat → Nat) (now_ms : Nat) (s : State)
    (hready : s.g_grainBufferReady = true) :
    (handleDejaVuTrigger L rnd now_ms s).g_deja_vu_step =
      Int.tmod (s.g_deja_vu_step + 1) (DEJA_VU_BUFFER_SIZE : Int) ∧
    (handleDejaVuTrigger L rnd now_ms s).g_params = s.g_params := by
  obtain ⟨p, n, k, s1, e1, -, -, -, e5, heq⟩ := handleDejaVuTrigger_control L rnd now_ms s hready
  obtain ⟨-, -, -, c4⟩ := spawnGrains_control L rnd p n MAX_GRAINS 0 k s1
  obtain ⟨-, f2, -, -⟩ := spawnGrains_frame L rnd p n MAX_GRAINS 0 k s1
  rw [heq]
  constructor
  · show Int.tmod ((spawnGrains L rnd p n MAX_GRAINS 0 k s1).g_deja_vu_step + 1) _ = _
    rw [c4, e5]
  · show (spawnGrains L rnd p n MAX_GRAINS 0 k s1).g_params = _
    rw [f2, e1]

/-- C24: for every trigger event handled while the history buffer is ready, the
step counter afterwards is `(previous step + 1) % 16` in C arithmetic, whatever
the draws (replay decision, requested count) and the pool contents; for a
previous step in `0..15` this is `(previous step + 1) mod 16`, again in
`0..15`. -/
theorem step_advances_once_per_event (L : Luts) (rnd : Nat → Nat) (now_ms : Nat) (s : State)
    (hready : s.g_grainBufferReady = true) :
    (handleDejaVuTrigger L rnd now_ms s).g_deja_vu_step = Int.tmod (s.g_deja_vu_step + 1) 16 ∧
    (0 ≤ s.g_deja_vu_step →
      (handleDejaVuTrigger L rnd now_ms s).g_deja_vu_step = (s.g_deja_vu_step + 1) % 16 ∧
      0 ≤ (handleDejaVuTrigger L rnd now_ms s).g_deja_vu_step ∧
      (handleDejaVuTrigger L rnd now_ms s).g_deja_vu_step < 16) := by
  have h := (handleDejaVuTrigger_step L rnd now_ms s hready).1
  have h16 : ((DEJA_VU_BUFFER_SIZE : Nat) : Int) = 16 := rfl
  rw [h16] at h
  refine ⟨h, ?_⟩
  intro h0
  rw [h, Int.tmod_eq_emod (by omega) (by norm_num)]
  refine ⟨rfl, ?_, ?_⟩ <;> omega

/-- Witness for C24: an event in `fullPoolState`, where no slot is free and no
grain is spawned, takes the step counter from 15 to 0. -/
theorem step_advances_once_per_event_witness :
    fullPoolState.g_activeGrainCount = 10 ∧
    (handleDejaVuTrigger flatLuts (fun _ => 1) 0 fullPoolState).g_activeGrainCount = 10 ∧
    fullPoolState.g_deja_vu_step = 15 ∧
    (handleDejaVuTrigger flatLuts (fun _ => 1) 0 fullPoolState).g_deja_vu_step = (15 + 1) % 16 :=
  ⟨rfl, by decide, rfl,
    ((step_advances_once_per_event flatLuts (fun _ => 1) 0 fullPoolState rfl).2
      (by decide)).1⟩

/-- C27 (amended): with the loop length `l` in `2..16` and the step counter in
`0..15`, the ring index used by the event after one handled with the buffer
ready is `(index + 1) mod l` as long as the step counter does not wrap (step
below 15) or `l` divides 16; when the step counter wraps from 15 to 0 the next
index is 0, whatever `l`.  The loop length is unchanged by the event. -/
theorem ring_index_successor (L : Luts) (rnd : Nat → Nat) (now_ms : Nat) (s : State)
    (hready : s.g_grainBufferReady = true)
    (hl0 : 2 ≤ s.g_params.loop_length) (hl1 : s.g_params.loop_length ≤ 16)
    (hs0 : 0 ≤ s.g_deja_vu_step) (hs1 : s.g_deja_vu_step < 16) :
    (handleDejaVuTrigger L rnd now_ms s).g_params.loop_length = s.g_params.loop_length ∧
    (s.g_deja_vu_step < 15 →
      ringIndex (handleDejaVuTrigger L rnd now_ms s) =
        (ringIndex s + 1) % s.g_params.loop_length) ∧
    (16 % s.g_params.loop_length = 0 →
      ringIndex (handleDejaVuTrigger L rnd now_ms s) =
        (ringIndex s + 1) % s.g_params.loop_length) ∧
    (s.g_deja_vu_step = 15 → ringIndex (handleDejaVuTrigger L rnd now_ms s) = 0) := by
  obtain ⟨hstep, hpar⟩ := handleDejaVuTrigger_step L rnd now_ms s hready
  have h16 : ((DEJA_VU_BUFFER_SIZE : Nat) : Int) = 16 := rfl
  rw [h16, Int.tmod_eq_emod (by omega) (by norm_num)] at hstep
  have hidx : ringIndex (handleDejaVuTrigger L rnd now_ms s) =
      ((s.g_deja_vu_step + 1) % 16) % s.g_params.loop_length := by
    unfold ringIndex
    rw [hstep, hpar, Int.tmod_eq_emod (by omega) (by omega)]
  have hidx0 : ringIndex s = s.g_deja_vu_step % s.g_params.loop_length := by
    unfold ringIndex
    rw [Int.tmod_eq_emod hs0 (by omega)]
  refine ⟨by rw [hpar], ?_, ?_, ?_⟩
  · intro h15
    have e : (s.g_deja_vu_step + 1) % 16 = s.g_deja_vu_step + 1 :=
      Int.emod_eq_of_lt (by omega) (by omega)
    rw [hidx, hidx0, e, Int.emod_add_emod]
  · intro hdiv
    rw [hidx, hidx0, Int.emod_emod_of_dvd _ (Int.dvd_of_emod_eq_zero hdiv), Int.emod_add_emod]
  · intro h15
    rw [hidx, h15]
    simp

/-- Witness for C27 (amended): `loopThreeState`, loop length 3 and step 15. -/
theorem ring_index_successor_witness :
    ringIndex (handleDejaVuTrigger flatLuts (fun _ => 1) 0 loopThreeState) = 0 :=
  (ring_index_successor flatLuts (fun _ => 1) 0 loopThreeState rfl (by decide) (by decide)
    (by decide) (by decide)).2.2.2 rfl

/-- Counterexample to C27 as stated: with loop length 3 and the step counter at
15, the event uses ring index `15 mod 3 = 0` and the next event uses ring index
0 again, not `(0 + 1) mod 3 = 1`. -/
theorem ring_index_restarts_at_wrap :
    loopThreeState.g_grainBufferReady = true ∧
    loopThreeState.g_params.loop_length = 3 ∧
    ringIndex loopThreeState = 0 ∧
    (handleDejaVuTrigger flatLuts (fun _ => 1) 0 loopThreeState).g_params.loop_length = 3 ∧
    ringIndex (handleDejaVuTrigger flatLuts (fun _ => 1) 0 loopThreeState) = 0 ∧
    (ringIndex loopThreeState + 1) % 3 = 1 := by
  have h := handleDejaVuTrigger_step flatLuts (fun _ => 1) 0 loopThreeState rfl
  refine ⟨rfl, rfl, by decide, by rw [h.2]; rfl, ?_, by decide⟩
  unfold ringIndex
  rw [h.1, h.2]
  decide

/-! ## Grain length theorems -/

/-- The clamp `constrain` is monotone in its first argument. -/
theorem constrain_mono (a b lo hi : Int) (h : a ≤ b) (hlh : lo ≤ hi) :
    constrain a lo hi ≤ constrain b lo hi := by
  unfold constrain
  split_ifs <;> omega

/-- C26: `calculateGrainLength` returns, for every base size, texture and
random-table value, a length within `[3737, 32767]`, hence within
`[MIN_GRAIN_SIZE, MAX_GRAIN_SIZE] = [512, 32768]` and below `2 ^ 16`; for a fixed
texture and random value (the same state and tables) the length is
non-decreasing in the base size. -/
theorem grain_length_range_and_monotone (L : Luts) (base1 base2 texture : Int) (s : State) :
    (3737 ≤ (calculateGrainLength L base1 texture s).1 ∧
      (calculateGrainLength L base1 texture s).1 ≤ 32767) ∧
    (MIN_GRAIN_SIZE ≤ ((calculateGrainLength L base1 texture s).1 : Int) ∧
      ((calculateGrainLength L base1 texture s).1 : Int) ≤ MAX_GRAIN_SIZE) ∧
    (calculateGrainLength L base1 texture s).1 < 65536 ∧
    (base1 ≤ base2 →
      (calculateGrainLength L base1 texture s).1 ≤ (calculateGrainLength L base2 texture s).1) := by
  obtain ⟨r1, r2⟩ := calculateGrainLength_range L base1 texture s
  refine ⟨⟨r1, r2⟩, ⟨?_, ?_⟩, by omega, ?_⟩
  · unfold MIN_GRAIN_SIZE
    omega
  · unfold MAX_GRAIN_SIZE
    omega
  · intro hb
    simp only [calculateGrainLength, MIN_SIZE_Q15, MAX_GRAIN_SIZE, MIN_GRAIN_SIZE]
    generalize (toInt32 (texture * L.g_random_lut_q15 (s.g_random_index % RANDOM_LUT_SIZE))
      >>> (15 : Nat)) >>> (1 : Nat) = c
    obtain ⟨h1, h2⟩ := constrain_range (base1 + c) 3277 32767 (by decide)
    obtain ⟨h3, h4⟩ := constrain_range (base2 + c) 3277 32767 (by decide)
    have hm := constrain_mono (base1 + c) (base2 + c) 3277 32767 (by omega) (by decide)
    rw [toInt16_of_range _ (by omega) (by omega), toInt16_of_range _ (by omega) (by omega),
      Nat.shiftRight_eq_div_pow, Nat.shiftRight_eq_div_pow]
    generalize constrain (base1 + c) 3277 32767 = c1 at h1 h2 hm
    generalize constrain (base2 + c) 3277 32767 = c2 at h3 h4 hm
    obtain ⟨k1, rfl⟩ : ∃ k : Nat, c1 = (k : Int) := ⟨c1.toNat, by omega⟩
    obtain ⟨k2, rfl⟩ : ∃ k : Nat, c2 = (k : Int) := ⟨c2.toNat, by omega⟩
    have e1 : toUInt32 ((32768 - 512) * (k1 : Int)) = 32256 * k1 := by
      unfold toUInt32
      omega
    have e2 : toUInt32 ((32768 - 512) * (k2 : Int)) = 32256 * k2 := by
      unfold toUInt32
      omega
    rw [e1, e2]
    have hk : k1 ≤ k2 := by omega
    have e3 : 32256 * k1 / 2 ^ 15 ≤ 32256 * k2 / 2 ^ 15 :=
      Nat.div_le_div_right (Nat.mul_le_mul_left _ hk)
    have e4 : 32256 * k2 / 2 ^ 15 ≤ 32255 := by
      norm_num
      omega
    generalize 32256 * k1 / 2 ^ 15 = q1 at e3
    generalize 32256 * k2 / 2 ^ 15 = q2 at e3 e4
    unfold toUInt16
    omega

/-- Witness for C26: base sizes 1000 and 20000 with zero texture. -/
theorem grain_length_range_and_monotone_witness :
    (calculateGrainLength flatLuts 1000 0 readyState).1 ≤
      (calculateGrainLength flatLuts 20000 0 readyState).1 :=
  (grain_length_range_and_monotone flatLuts 1000 20000 0 readyState).2.2.2 (by decide)

/-! ## Position advance theorems -/

/-- Forward render calls that all read inside the fragment and do not overflow
add the speed to the position once per call and change nothing else. -/
theorem renderSeq_forward_exact (L : Luts) (states : List State) :
    ∀ g : Grain, (∀ s ∈ states, s.g_params.mode = .MODE_GRANULAR) →
      0 < g.speed_q16 → 0 ≤ g.position_q16 → g.length ≤ 32767 →
      (states.length = 0 ∨
        (g.position_q16 + (states.length : Int) * g.speed_q16 - g.speed_q16) / 65536
          < (g.length : Int)) →
      g.position_q16 + (states.length : Int) * g.speed_q16 ≤ 2147483647 →
      renderSeq L states g =
        { g with position_q16 := g.position_q16 + (states.length : Int) * g.speed_q16 } := by
  induction states with
  | nil =>
    intro g _ _ _ _ _ _
    show g = _
    simp
  | cons s rest ih =>
    intro g hall hs0 hp0 hl hin hov
    have hm : (0 : Int) ≤ (rest.length : Int) * g.speed_q16 :=
      mul_nonneg (by omega) (le_of_lt hs0)
    rw [List.length_cons] at hin hov
    push_cast at hin hov
    have hexp : ((rest.length : Int) + 1) * g.speed_q16 =
        (rest.length : Int) * g.speed_q16 + g.speed_q16 := by ring
    rw [hexp] at hin hov
    generalize hmd : (rest.length : Int) * g.speed_q16 = m at hm hin hov
    have hin1 : (g.position_q16 + m) / 65536 < (g.length : Int) := by
      rcases hin with h | h
      · exact h.elim
      · have e : g.position_q16 + (m + g.speed_q16) - g.speed_q16 = g.position_q16 + m := by ring
        rw [e] at h
        exact h
    have hpi : ¬ toUInt16 (g.position_q16 >>> (16 : Nat)) ≥ g.length := by
      rw [shiftRight16]
      unfold toUInt16
      omega
    have e := renderGrain_inside L s g hpi
    have hmode : ¬ s.g_params.mode = .MODE_REVERSE := by
      rw [hall s (List.mem_cons_self _ _)]
      decide
    rw [if_neg hmode, toInt32_of_range _ (by omega) (by omega), if_neg (by omega)] at e
    have hrest : ∀ t ∈ rest, t.g_params.mode = .MODE_GRANULAR :=
      fun t ht => hall t (List.mem_cons_of_mem _ ht)
    have hstep : renderSeq L (s :: rest) g = renderSeq L rest (renderGrain L s g).2 := rfl
    rw [hstep, e]
    rw [ih { g with position_q16 := g.position_q16 + g.speed_q16 } hrest hs0
      (by show 0 ≤ g.position_q16 + g.speed_q16; omega) hl
      (by
        show rest.length = 0 ∨
          (g.position_q16 + g.speed_q16 + (rest.length : Int) * g.speed_q16 - g.speed_q16) / 65536
            < (g.length : Int)
        right
        rw [hmd]
        have e2 : g.position_q16 + g.speed_q16 + m - g.speed_q16 = g.position_q16 + m := by ring
        rw [e2]
        exact hin1)
      (by
        show g.position_q16 + g.speed_q16 + (rest.length : Int) * g.speed_q16 ≤ 2147483647
        rw [hmd]
        omega)]
    show ({ g with
      position_q16 := g.position_q16 + g.speed_q16 + (rest.length : Int) * g.speed_q16 } : Grain)
      = { g with position_q16 := g.position_q16 + (((rest.length + 1 : Nat) : Int)) * g.speed_q16 }
    have e3 : g.position_q16 + g.speed_q16 + (rest.length : Int) * g.speed_q16 =
        g.position_q16 + (((rest.length + 1 : Nat) : Int)) * g.speed_q16 := by
      push_cast
      ring
    rw [e3]

/-- The fields of the grain `longOctaveGrain`: the longest length at speed
2.0. -/
theorem longOctaveGrain_fields :
    longOctaveGrain.active = true ∧ longOctaveGrain.length = 32767 ∧
    longOctaveGrain.speed_q16 = 131072 ∧ longOctaveGrain.position_q16 = 0 := by
  have hg0 : longOctaveGrain = (triggerGrainFields octaveLuts longOctave written20000).1 :=
    triggerGrain_grain octaveLuts 0 longOctave written20000 (by decide)
  obtain ⟨s1, s2, s4, hlen, hspeed, hpos, hpar, -, -⟩ :=
    triggerGrainFields_values octaveLuts longOctave written20000
  refine ⟨?_, ?_, ?_, ?_⟩
  · rw [hg0]
    rfl
  · rw [hg0, hlen]
    decide
  · rw [hg0, hspeed]
    exact calculateGrainSpeed_octave s2
  · rw [hg0, hpos, hpar]
    rfl

/-- C28 (amended): one forward render call on a grain with a non-negative
32-bit position, integer position below the length, length at most 32767 and
speed in `[16384, 262144]`.  The sum `position_q16 + speed_q16` is at most
`2 ^ 31 - 1` when `speed_q16 ≤ (32768 - length) * 65536`, in particular for
every length up to 32764 and for every speed up to 1.0; when the sum fits, the
call stores it and keeps the flag; when it does not fit, the stored position is
the sum minus `2 ^ 32`, which is negative, and the call clears the active
flag. -/
theorem position_advance_bound (L : Luts) (s : State) (g : Grain)
    (hm : s.g_params.mode = .MODE_GRANULAR)
    (hp0 : 0 ≤ g.position_q16) (hp1 : g.position_q16 ≤ 2147483647)
    (hin : grainPosInt g < g.length) (hl : g.length ≤ 32767)
    (hs0 : 16384 ≤ g.speed_q16) (hs1 : g.speed_q16 ≤ 262144) :
    (g.speed_q16 ≤ (32768 - (g.length : Int)) * 65536 →
      g.position_q16 + g.speed_q16 ≤ 2147483647) ∧
    (g.length ≤ 32764 → g.position_q16 + g.speed_q16 ≤ 2147483647) ∧
    (g.speed_q16 ≤ 65536 → g.position_q16 + g.speed_q16 ≤ 2147483647) ∧
    (g.position_q16 + g.speed_q16 ≤ 2147483647 →
      (renderGrain L s g).2.position_q16 = g.position_q16 + g.speed_q16 ∧
      (renderGrain L s g).2.active = g.active) ∧
    (2147483647 < g.position_q16 + g.speed_q16 →
      (renderGrain L s g).2.position_q16 = g.position_q16 + g.speed_q16 - 4294967296 ∧
      (renderGrain L s g).2.position_q16 < 0 ∧
      (renderGrain L s g).2.active = false) := by
  have hpi : (grainPosInt g : Int) = g.position_q16 / 65536 := by
    unfold grainPosInt toUInt16
    rw [shiftRight16]
    omega
  have hlt : g.position_q16 / 65536 < (g.length : Int) := by omega
  have hin2 : ¬ toUInt16 (g.position_q16 >>> (16 : Nat)) ≥ g.length := by
    unfold grainPosInt at hin
    omega
  have e := renderGrain_inside L s g hin2
  have hmode : ¬ s.g_params.mode = .MODE_REVERSE := by rw [hm]; decide
  rw [if_neg hmode] at e
  refine ⟨by omega, by omega, by omega, ?_, ?_⟩
  · intro hfit
    rw [toInt32_of_range _ (by omega) hfit, if_neg (by omega)] at e
    rw [e]
    exact ⟨rfl, rfl⟩
  · intro hov
    have e2 : toInt32 (g.position_q16 + g.speed_q16) =
        g.position_q16 + g.speed_q16 - 4294967296 := by
      unfold toInt32
      omega
    rw [e2, if_pos (by omega)] at e
    rw [e]
    exact ⟨rfl, by show g.position_q16 + g.speed_q16 - 4294967296 < 0; omega, rfl⟩

/-- Witness for C28 (amended): the grain `lastSampleGrain` (length 4000, speed
1.0, integer position 3999). -/
theorem position_advance_bound_witness :
    lastSampleGrain.position_q16 + lastSampleGrain.speed_q16 ≤ 2147483647 ∧
    (renderGrain flatLuts readyState lastSampleGrain).2.position_q16 =
      lastSampleGrain.position_q16 + lastSampleGrain.speed_q16 :=
  have h := position_advance_bound flatLuts readyState lastSampleGrain rfl (by decide) (by decide)
    (by decide) (by decide) (by decide) (by decide)
  ⟨h.1 (by decide), (h.2.2.2.1 (h.1 (by decide))).1⟩

/-- Counterexample to C28 as stated: the grain triggered with the largest size
(length 32767) at +12 semitones (speed 2.0) is, after 16383 forward render
calls, still active with integer position 32766 below its length; the next
call computes `position_q16 + speed_q16 = 2 ^ 31`, which exceeds `2 ^ 31 - 1`,
stores the wrapped position `-2 ^ 31` and clears the flag. -/
theorem position_advance_overflows :
    (renderSeq octaveLuts (List.replicate 16383 readyState) longOctaveGrain).active = true ∧
    (renderSeq octaveLuts (List.replicate 16383 readyState) longOctaveGrain).length = 32767 ∧
    (renderSeq octaveLuts (List.replicate 16383 readyState) longOctaveGrain).speed_q16 = 131072 ∧
    grainPosInt (renderSeq octaveLuts (List.replicate 16383 readyState) longOctaveGrain) = 32766 ∧
    (renderSeq octaveLuts (List.replicate 16383 readyState) longOctaveGrain).position_q16 +
      (renderSeq octaveLuts (List.replicate 16383 readyState) longOctaveGrain).speed_q16
      = 2147483648 ∧
    (renderGrain octaveLuts readyState
      (renderSeq octaveLuts (List.replicate 16383 readyState) longOctaveGrain)).2.position_q16
      = -2147483648 ∧
    (renderGrain octaveLuts readyState
      (renderSeq octaveLuts (List.replicate 16383 readyState) longOctaveGrain)).2.active
      = false := by
  obtain ⟨ha, hlen, hsp, hpos⟩ := longOctaveGrain_fields
  have hall : ∀ s ∈ List.replicate 16383 readyState, s.g_params.mode = .MODE_GRANULAR := by
    intro s hs
    rw [List.eq_of_mem_replicate hs]
    rfl
  have hseq := renderSeq_forward_exact octaveLuts (List.replicate 16383 readyState)
    longOctaveGrain hall (by rw [hsp]; norm_num) (by rw [hpos]) (by rw [hlen])
    (by right; rw [List.length_replicate, hpos, hsp, hlen]; norm_num)
    (by rw [List.length_replicate, hpos, hsp]; norm_num)
  have hval : longOctaveGrain.position_q16 +
      ((List.replicate 16383 readyState).length : Int) * longOctaveGrain.speed_q16
      = 2147352576 := by
    rw [List.length_replicate, hpos, hsp]
    norm_num
  rw [hval] at hseq
  rw [hseq]
  have hin : ¬ toUInt16 ((2147352576 : Int) >>> (16 : Nat)) ≥ longOctaveGrain.length := by
    rw [hlen]
    decide
  have e := renderGrain_inside octaveLuts readyState
    { longOctaveGrain with position_q16 := 2147352576 } hin
  have hmode : ¬ readyState.g_params.mode = .MODE_REVERSE := by decide
  have hsum : toInt32 ((2147352576 : Int) + longOctaveGrain.speed_q16) = -2147483648 := by
    rw [hsp]
    decide
  rw [if_neg hmode] at e
  have e' : (renderGrain octaveLuts readyState
      { longOctaveGrain with position_q16 := 2147352576 }).2 =
      { longOctaveGrain with position_q16 := -2147483648, active := false } := by
    rw [e]
    show (if toInt32 ((2147352576 : Int) + longOctaveGrain.speed_q16) < 0 then _ else _) = _
    rw [hsum, if_pos (by decide)]
  rw [e']
  refine ⟨ha, hlen, hsp, by decide, ?_, rfl, rfl⟩
  show (2147352576 : Int) + longOctaveGrain.speed_q16 = 2147483648
  rw [hsp]
  norm_num

/-! ## Window index theorems -/

/-- The window index is the 32-bit product shifted right by 25 bits. -/
theorem windowIndex_eq (pos recip : Nat) :
    windowIndex pos recip = (pos * recip) % 4294967296 / 33554432 := by
  unfold windowIndex toUInt32
  rw [Nat.shiftRight_eq_div_pow]
  have e : ((pos : Int) * (recip : Int)) = ((pos * recip : Nat) : Int) := by push_cast; rfl
  rw [e]
  have e2 : (((pos * recip : Nat) : Int) % 4294967296).toNat = (pos * recip) % 4294967296 := by
    omega
  rw [e2]
  unfold toUInt16
  have h : (pos * recip) % 4294967296 / 2 ^ 25 < 128 := by
    norm_num
    omega
  generalize (pos * recip) % 4294967296 / 2 ^ 25 = q at h
  omega

/-- The grain stored by `triggerGrain` carries the reciprocal `reciprocalFor`
of its length, and `renderGrain` looks the window up at `windowIndex`. -/
theorem window_index_in_code (L : Luts) (p : ParamSnapshot) (s : State) (g : Grain) :
    (triggerGrainFields L p s).1.reciprocal_length_q32 =
      reciprocalFor (triggerGrainFields L p s).1.length ∧
    grainWindowedSample L s g =
      toInt16 (toInt32 (s.g_grainBuffer (grainReadIndex s g) *
        L.g_window_lut_q15
          (min (windowIndex (grainPosInt g) g.reciprocal_length_q32) (WINDOW_LUT_SIZE - 1)))
        >>> (15 : Nat)) :=
  ⟨rfl, rfl⟩

/-- The reciprocal selected for a length in `[3737, 32767]` is the quotient of
`2 ^ 32 - 1` by a table length `q` with `Len - 127 ≤ q ≤ Len`. -/
theorem reciprocalFor_eq (Len : Nat) (h0 : 3737 ≤ Len) (h1 : Len ≤ 32767) :
    ∃ q : Nat, Len ≤ q + 127 ∧ q ≤ Len ∧ 0 < q ∧ reciprocalFor Len = 4294967295 / q := by
  have hi : Int.tdiv (((Len : Int) - 512) * (256 - 1)) (32768 - 512) =
      (((Len - 512) * 255 / 32256 : Nat) : Int) := by
    rw [Int.tdiv_eq_ediv (by omega) (by norm_num)]
    push_cast
    omega
  have hi2 : (Len - 512) * 255 / 32256 ≤ 254 := by omega
  have hidx : toUInt16 ((((Len - 512) * 255 / 32256 : Nat) : Int)) = (Len - 512) * 255 / 32256 := by
    unfold toUInt16
    omega
  have hq : ∀ i : Nat, i ≤ 254 →
      toUInt16 (512 + Int.tdiv ((32768 - 512) * (i : Int)) (256 - 1)) = 512 + 32256 * i / 255 := by
    intro i hi
    rw [Int.tdiv_eq_ediv (by omega) (by norm_num)]
    have e1 : ((32768 : Int) - 512) * (i : Int) = ((32256 * i : Nat) : Int) := by
      push_cast
      ring
    have hb : 32256 * i / 255 ≤ 32129 := by omega
    rw [e1]
    unfold toUInt16
    omega
  refine ⟨512 + 32256 * ((Len - 512) * 255 / 32256) / 255, by omega, by omega, by omega, ?_⟩
  unfold reciprocalFor g_reciprocal_lut_q32
  simp only [MIN_GRAIN_SIZE, MAX_GRAIN_SIZE, RECIPROCAL_LUT_SIZE, Nat.cast_ofNat]
  rw [hi, hidx, min_eq_left (by omega), hq _ hi2, if_pos (by omega)]
  unfold toUInt32
  have hlt : (2 ^ 32 - 1) / (512 + 32256 * ((Len - 512) * 255 / 32256) / 255) < 4294967296 := by
    apply Nat.lt_of_le_of_lt (Nat.div_le_self _ _)
    norm_num
  generalize (2 ^ 32 - 1) / (512 + 32256 * ((Len - 512) * 255 / 32256) / 255) = r at hlt
  omega

/-- C29 (amended): for every grain length `Len` in `[3737, 32767]` (the lengths
`calculateGrainLength` returns) with the reciprocal that `triggerGrain` selects
for it, the window index is at most 127 for every integer position; for
positions up to `Len - 127` the 32-bit product does not wrap and the index is
non-decreasing in the position; more generally the index is non-decreasing
over the positions whose product with the reciprocal is below `2 ^ 32`.  (The
reciprocal is that of a table length `q` with `Len - 127 ≤ q ≤ Len`, so beyond
position `q` the product can wrap.) -/
theorem window_index_bounds (Len pos1 pos2 : Nat) (h0 : 3737 ≤ Len) (h1 : Len ≤ 32767) :
    windowIndex pos1 (reciprocalFor Len) ≤ 127 ∧
    (pos2 + 127 ≤ Len → pos2 * reciprocalFor Len < 4294967296) ∧
    (pos1 ≤ pos2 → pos2 + 127 ≤ Len →
      windowIndex pos1 (reciprocalFor Len) ≤ windowIndex pos2 (reciprocalFor Len)) ∧
    (pos1 ≤ pos2 → pos2 * reciprocalFor Len < 4294967296 →
      windowIndex pos1 (reciprocalFor Len) ≤ windowIndex pos2 (reciprocalFor Len)) := by
  obtain ⟨q, hq1, hq2, hq0, hr⟩ := reciprocalFor_eq Len h0 h1
  have hprod : ∀ pos : Nat, pos + 127 ≤ Len → pos * reciprocalFor Len < 4294967296 := by
    intro pos hp
    rw [hr]
    have h2 : pos * (4294967295 / q) ≤ q * (4294967295 / q) :=
      Nat.mul_le_mul_right _ (by omega)
    have h3 : q * (4294967295 / q) ≤ 4294967295 := Nat.mul_div_le _ _
    omega
  have hmono : pos1 ≤ pos2 → pos2 * reciprocalFor Len < 4294967296 →
      windowIndex pos1 (reciprocalFor Len) ≤ windowIndex pos2 (reciprocalFor Len) := by
    intro h12 hb2
    have hb1 : pos1 * reciprocalFor Len ≤ pos2 * reciprocalFor Len :=
      Nat.mul_le_mul_right _ h12
    rw [windowIndex_eq, windowIndex_eq, Nat.mod_eq_of_lt hb2, Nat.mod_eq_of_lt (by omega)]
    exact Nat.div_le_div_right hb1
  refine ⟨?_, hprod pos2, fun h12 hp => hmono h12 (hprod pos2 hp), hmono⟩
  · rw [windowIndex_eq]
    omega

/-- Witness for C29 (amended): length 4000 at positions 1000 and 3000. -/
theorem window_index_bounds_witness :
    windowIndex 1000 (reciprocalFor 4000) ≤ windowIndex 3000 (reciprocalFor 4000) :=
  (window_index_bounds 4000 1000 3000 (by decide) (by decide)).2.2.1 (by decide) (by decide)

/-- Counterexample to C29 as stated: the grain triggered with the smallest base
size has length 3737 and reciprocal 1169016 (that of table length 3674); at
integer position 3674 the window index is 127, and at position 3675, still
below the length, the product `3675 * 1169016` exceeds `2 ^ 32`, wraps, and the
window index falls back to 0. -/
theorem window_index_wraps_near_end :
    ((triggerGrain flatLuts 0 shortGrainParams readyState).g_grains 0).length = 3737 ∧
    ((triggerGrain flatLuts 0 shortGrainParams readyState).g_grains 0).reciprocal_length_q32
      = 1169016 ∧
    (calculateGrainLength flatLuts 0 0 readyState).1 = 3737 ∧
    reciprocalFor 3737 = 1169016 ∧
    windowIndex 3674 1169016 = 127 ∧
    windowIndex 3675 1169016 = 0 ∧
    4294967296 ≤ 3675 * 1169016 := by
  have hg0 : (triggerGrain flatLuts 0 shortGrainParams readyState).g_grains 0 =
      (triggerGrainFields flatLuts shortGrainParams readyState).1 :=
    triggerGrain_grain flatLuts 0 shortGrainParams readyState (by decide)
  obtain ⟨s1, s2, s4, hl, -⟩ := triggerGrainFields_values flatLuts shortGrainParams readyState
  have hlen : (triggerGrainFields flatLuts shortGrainParams readyState).1.length = 3737 := by
    rw [hl]
    decide
  have hrec : reciprocalFor 3737 = 1169016 := by decide
  refine ⟨by rw [hg0, hlen], ?_, by decide, hrec, by decide, by decide, by decide⟩
  rw [hg0, (window_index_in_code flatLuts shortGrainParams readyState {}).1, hlen, hrec]

/-! ## Reverse-mode read order -/

/-- Reverse render calls that all read inside the fragment and stay at a
non-negative position subtract the speed from the position once per call and
change nothing else. -/
theorem renderSeq_reverse_exact (L : Luts) (states : List State) :
    ∀ g : Grain, (∀ s ∈ states, s.g_params.mode = .MODE_REVERSE) →
      0 < g.speed_q16 → g.speed_q16 ≤ 262144 → g.length ≤ 32767 →
      g.position_q16 / 65536 < (g.length : Int) →
      0 ≤ g.position_q16 - (states.length : Int) * g.speed_q16 →
      renderSeq L states g =
        { g with position_q16 := g.position_q16 - (states.length : Int) * g.speed_q16 } := by
  induction states with
  | nil =>
    intro g _ _ _ _ _ _
    show g = _
    simp
  | cons s rest ih =>
    intro g hall hs0 hs1 hl hin hpos
    have hm : (0 : Int) ≤ (rest.length : Int) * g.speed_q16 :=
      mul_nonneg (by omega) (le_of_lt hs0)
    rw [List.length_cons] at hpos
    push_cast at hpos
    have hexp : ((rest.length : Int) + 1) * g.speed_q16 =
        (rest.length : Int) * g.speed_q16 + g.speed_q16 := by ring
    rw [hexp] at hpos
    generalize hmd : (rest.length : Int) * g.speed_q16 = m at hm hpos
    have hpi : ¬ toUInt16 (g.position_q16 >>> (16 : Nat)) ≥ g.length := by
      rw [shiftRight16]
      unfold toUInt16
      omega
    have e := renderGrain_inside L s g hpi
    rw [if_pos (hall s (List.mem_cons_self _ _)),
      toInt32_of_range (-g.speed_q16) (by omega) (by omega),
      toInt32_of_range _ (by omega) (by omega), if_neg (by omega)] at e
    have hrest : ∀ t ∈ rest, t.g_params.mode = .MODE_REVERSE :=
      fun t ht => hall t (List.mem_cons_of_mem _ ht)
    have hstep : renderSeq L (s :: rest) g = renderSeq L rest (renderGrain L s g).2 := rfl
    rw [hstep, e]
    rw [ih { g with position_q16 := g.position_q16 + -g.speed_q16 } hrest hs0 hs1 hl
      (by show (g.position_q16 + -g.speed_q16) / 65536 < (g.length : Int); omega)
      (by
        show 0 ≤ g.position_q16 + -g.speed_q16 - (rest.length : Int) * g.speed_q16
        rw [hmd]
        omega)]
    show ({ g with
      position_q16 := g.position_q16 + -g.speed_q16 - (rest.length : Int) * g.speed_q16 } : Grain)
      = { g with position_q16 := g.position_q16 - (((rest.length + 1 : Nat) : Int)) * g.speed_q16 }
    have e3 : g.position_q16 + -g.speed_q16 - (rest.length : Int) * g.speed_q16 =
        g.position_q16 - (((rest.length + 1 : Nat) : Int)) * g.speed_q16 := by
      push_cast
      ring
    rw [e3]

/-- The position that `triggerGrain` stores: `length - 1` samples in reverse
mode, 0 in forward mode. -/
theorem triggerGrain_position (L : Luts) (i : Nat) (p : ParamSnapshot) (s : State)
    (hi : i < MAX_GRAINS) :
    ((triggerGrain L (i : Int) p s).g_grains i).position_q16 =
      (if s.g_params.mode = .MODE_REVERSE then
        (((triggerGrain L (i : Int) p s).g_grains i).length : Int) * 65536 - 65536
      else 0) := by
  obtain ⟨s1, s2, s4, hlen, -, hpos, hpar, -, -⟩ := triggerGrainFields_values L p s
  obtain ⟨l0, l1⟩ := calculateGrainLength_range L p.size_q15 p.texture_q15 s
  rw [triggerGrain_grain L i p s hi, hpos, hpar, hlen]
  split_ifs
  · rw [toInt32_of_range _ (by omega) (by omega)]
    ring
  · rfl

/-- C21 (behaviour of the code): the history index read by the render call
number `k` (counted from 0, `k < length`) of a grain of speed 1.0, in reverse mode (position started at `length - 1` samples)
and in forward mode (position started at 0): in both modes it is
`(startPos + k) mod 32768`, so a reverse-mode grain reads the fragment from its
first sample to its last, in the same order as a forward grain; only its integer
position (and with it the window index) runs from `length - 1` down to 0. -/
theorem reverse_grain_reads_forward (L : Luts) (states : List State) (u : State) (g0 : Grain)
    (hsp : g0.speed_q16 = 65536) (hl0 : 0 < g0.length) (hl : g0.length ≤ 32767)
    (hk : states.length < g0.length) :
    (g0.position_q16 = (g0.length : Int) * 65536 - 65536 →
      (∀ s ∈ states, s.g_params.mode = .MODE_REVERSE) → u.g_params.mode = .MODE_REVERSE →
      (grainPosInt (renderSeq L states g0) : Int) = (g0.length : Int) - 1 - states.length ∧
      grainReadOffset u (renderSeq L states g0) = states.length ∧
      (grainReadIndex u (renderSeq L states g0) : Int) =
        ((g0.startPos : Int) + states.length) % 32768 ∧
      (renderGrain L u (renderSeq L states g0)).1 =
        grainWindowedSample L u (renderSeq L states g0)) ∧
    (g0.position_q16 = 0 →
      (∀ s ∈ states, s.g_params.mode = .MODE_GRANULAR) → u.g_params.mode = .MODE_GRANULAR →
      (grainPosInt (renderSeq L states g0) : Int) = states.length ∧
      grainReadOffset u (renderSeq L states g0) = states.length ∧
      (grainReadIndex u (renderSeq L states g0) : Int) =
        ((g0.startPos : Int) + states.length) % 32768 ∧
      (renderGrain L u (renderSeq L states g0)).1 =
        grainWindowedSample L u (renderSeq L states g0)) := by
  constructor
  · intro hp hall hu
    have hseq := renderSeq_reverse_exact L states g0 hall (by omega) (by omega) hl (by omega)
      (by rw [hp, hsp]; omega)
    rw [hp, hsp] at hseq
    have hpi : (grainPosInt (renderSeq L states g0) : Int) =
        (g0.length : Int) - 1 - states.length := by
      rw [hseq]
      unfold grainPosInt toUInt16
      rw [shiftRight16]
      show ((((g0.length : Int) * 65536 - 65536 - (states.length : Int) * 65536) / 65536
        % 65536).toNat : Int) = _
      omega
    have hlen : (renderSeq L states g0).length = g0.length := by rw [hseq]
    have hstart : (renderSeq L states g0).startPos = g0.startPos := by rw [hseq]
    have hoff : grainReadOffset u (renderSeq L states g0) = states.length := by
      unfold grainReadOffset
      rw [if_pos hu, hpi, hlen]
      omega
    refine ⟨hpi, hoff, ?_, ?_⟩
    · unfold grainReadIndex
      rw [hoff, hstart]
      unfold toUInt16 GRAIN_BUFFER_SIZE
      omega
    · apply renderGrain_sample
      rw [hlen]
      omega
  · intro hp hall hu
    have hseq := renderSeq_forward_exact L states g0 hall (by omega) (by omega) hl
      (by right; rw [hp, hsp]; omega) (by rw [hp, hsp]; omega)
    rw [hp, hsp] at hseq
    have hpi : (grainPosInt (renderSeq L states g0) : Int) = states.length := by
      rw [hseq]
      unfold grainPosInt toUInt16
      rw [shiftRight16]
      show ((((0 : Int) + (states.length : Int) * 65536) / 65536 % 65536).toNat : Int) = _
      omega
    have hlen : (renderSeq L states g0).length = g0.length := by rw [hseq]
    have hstart : (renderSeq L states g0).startPos = g0.startPos := by rw [hseq]
    have hoff : grainReadOffset u (renderSeq L states g0) = states.length := by
      unfold grainReadOffset
      rw [if_neg (by rw [hu]; decide), hpi]
    refine ⟨hpi, hoff, ?_, ?_⟩
    · unfold grainReadIndex
      rw [hoff, hstart]
      unfold toUInt16 GRAIN_BUFFER_SIZE
      omega
    · apply renderGrain_sample
      rw [hlen]
      omega

/-- Witness for C21: the render calls 0 and 1 of the reverse-mode grain `lastSampleGrain`
(startPos 100, length 4000, speed 1.0, position `length - 1`): they read the
history indices 100 and 101, not 4099 and 4098. -/
theorem reverse_grain_reads_forward_witness :
    grainReadIndex reverseReadyState lastSampleGrain = 100 ∧
    (grainReadIndex reverseReadyState (renderSeq flatLuts [reverseReadyState] lastSampleGrain)
      : Int) = ((100 : Int) + 1) % 32768 ∧
    (lastSampleGrain.startPos + lastSampleGrain.length - 1 - 0) % 32768 = 4099 :=
  ⟨by decide,
    ((reverse_grain_reads_forward flatLuts [reverseReadyState] reverseReadyState lastSampleGrain
      rfl (by decide) (by decide) (by decide)).1 (by decide) (by decide) rfl).2.2.1,
    by decide⟩

/-! ## Trigger event and ring theorems -/

/-- The spawn loop leaves the beat interval and both clock schedules alone. -/
theorem spawnGrains_clock (L : Luts) (rnd : Nat → Nat) (p : ParamSnapshot) (n rem : Nat) :
    ∀ (gen k : Nat) (s : State),
      (spawnGrains L rnd p n rem gen k s).g_beat_interval_us = s.g_beat_interval_us ∧
      (spawnGrains L rnd p n rem gen k s).g_next_internal_trigger_time_us =
        s.g_next_internal_trigger_time_us ∧
      (spawnGrains L rnd p n rem gen k s).g_next_raw_beat_time_us = s.g_next_raw_beat_time_us := by
  induction rem with
  | zero =>
    intro gen k s
    exact ⟨rfl, rfl, rfl⟩
  | succ rem ih =>
    intro gen k s
    rw [spawnGrains]
    simp only
    split_ifs
    · refine ⟨?_, ?_, ?_⟩
      · rw [(ih _ _ _).1, (triggerGrain_control L _ _ s).2.2.2.1]
      · rw [(ih _ _ _).2.1, (triggerGrain_control L _ _ s).2.2.2.2.1]
      · rw [(ih _ _ _).2.2, (triggerGrain_control L _ _ s).2.2.2.2.2]
    · refine ⟨?_, ?_, ?_⟩
      · rw [(ih _ _ _).1, (triggerGrain_control L _ _ s).2.2.2.1]
      · rw [(ih _ _ _).2.1, (triggerGrain_control L _ _ s).2.2.2.2.1]
      · rw [(ih _ _ _).2.2, (triggerGrain_control L _ _ s).2.2.2.2.2]
    · exact ih gen k s
    · exact ⟨rfl, rfl, rfl⟩

/-- A trigger event leaves the beat interval, both clock schedules and the
resolution index alone. -/
theorem handleDejaVuTrigger_clock (L : Luts) (rnd : Nat → Nat) (now_ms : Nat) (s : State) :
    (handleDejaVuTrigger L rnd now_ms s).g_beat_interval_us = s.g_beat_interval_us ∧
    (handleDejaVuTrigger L rnd now_ms s).g_next_internal_trigger_time_us =
      s.g_next_internal_trigger_time_us ∧
    (handleDejaVuTrigger L rnd now_ms s).g_next_raw_beat_time_us = s.g_next_raw_beat_time_us ∧
    (handleDejaVuTrigger L rnd now_ms s).g_current_resolution_index =
      s.g_current_resolution_index := by
  by_cases hready : s.g_grainBufferReady = true
  · have hshape : ∃ (p : ParamSnapshot) (n k : Nat) (s1 : State),
        s1.g_beat_interval_us = s.g_beat_interval_us ∧
        s1.g_next_internal_trigger_time_us = s.g_next_internal_trigger_time_us ∧
        s1.g_next_raw_beat_time_us = s.g_next_raw_beat_time_us ∧
        s1.g_current_resolution_index = s.g_current_resolution_index ∧
        handleDejaVuTrigger L rnd now_ms s =
          { spawnGrains L rnd p n MAX_GRAINS 0 k s1 with
            g_deja_vu_step :=
              Int.tmod ((spawnGrains L rnd p n MAX_GRAINS 0 k s1).g_deja_vu_step + 1)
                (DEJA_VU_BUFFER_SIZE : Int) } := by
      unfold handleDejaVuTrigger
      rw [if_neg (by simp [hready])]
      refine ⟨_, _, _, _, ?_, ?_, ?_, ?_, rfl⟩ <;> split_ifs <;> rfl
    obtain ⟨p, n, k, s1, e1, e2, e3, e4, heq⟩ := hshape
    obtain ⟨c1, c2, c3⟩ := spawnGrains_clock L rnd p n MAX_GRAINS 0 k s1
    obtain ⟨-, -, c4, -⟩ := spawnGrains_control L rnd p n MAX_GRAINS 0 k s1
    rw [heq]
    exact ⟨c1.trans e1, c2.trans e2, c3.trans e3, c4.trans e4⟩
  · unfold handleDejaVuTrigger
    rw [if_pos (by simpa using hready)]
    exact ⟨rfl, rfl, rfl, rfl⟩

/-- The musical-clock poll when it fires and when it does not. -/
theorem pollInternalClock_cases (L : Luts) (rnd : Nat → Nat) (t now_ms : Nat) (s : State) :
    (t ≥ s.g_next_internal_trigger_time_us ∧ s.g_next_internal_trigger_time_us > 0 →
      pollInternalClock L rnd t now_ms s =
        { handleDejaVuTrigger L rnd now_ms s with
          g_next_internal_trigger_time_us :=
            (s.g_next_internal_trigger_time_us +
              scaledInterval s.g_beat_interval_us s.g_current_resolution_index) % 4294967296 }) ∧
    (¬ (t ≥ s.g_next_internal_trigger_time_us ∧ s.g_next_internal_trigger_time_us > 0) →
      pollInternalClock L rnd t now_ms s = s) := by
  obtain ⟨c1, c2, -, c4⟩ := handleDejaVuTrigger_clock L rnd now_ms s
  constructor
  · intro h
    unfold pollInternalClock
    rw [if_pos h]
    simp only
    rw [c1, c2, c4]
    have e : toUInt32 ((s.g_next_internal_trigger_time_us : Int) +
        (scaledInterval s.g_beat_interval_us s.g_current_resolution_index : Int)) =
        (s.g_next_internal_trigger_time_us +
          scaledInterval s.g_beat_interval_us s.g_current_resolution_index) % 4294967296 := by
      unfold toUInt32
      omega
    rw [e]
  · intro h
    unfold pollInternalClock
    rw [if_neg h]

/-- The literal `0.3333333f` is the `float` `5592405 / 2 ^ 24`. -/
theorem g_resolutions_third : g_resolutions 1 = 5592405 / 16777216 := by
  show f32 (3333333 / 10000000) = _
  rw [f32_eval _ (-2) 11184810 (by norm_num) (by norm_num [abs_of_pos])
    (by norm_num [abs_of_pos]) (by norm_num [abs_lt])]
  norm_num

/-- A beat interval below `2 ^ 24` is converted to `float` without rounding. -/
theorem f32_beat (beat : Nat) (hb : beat < 16777216) : f32 (beat : ℚ) = (beat : ℚ) := by
  have h := f32_intCast (beat : Int) (by rw [abs_of_nonneg (by omega)]; norm_num; omega)
  simpa using h

/-- The scaled interval is the floor of the exact quotient whenever rounding
the quotient to `float` does not leave the unit interval above that floor. -/
theorem scaledInterval_eq_floor (beat : Nat) (idx : Int) (hb : beat < 16777216)
    (h0 : 0 ≤ (beat : ℚ) / g_resolutions idx.toNat)
    (hq : (beat : ℚ) / g_resolutions idx.toNat < 4294967296)
    (h1 : (⌊(beat : ℚ) / g_resolutions idx.toNat⌋ : ℚ) ≤
      f32 ((beat : ℚ) / g_resolutions idx.toNat))
    (h2 : f32 ((beat : ℚ) / g_resolutions idx.toNat) <
      (⌊(beat : ℚ) / g_resolutions idx.toNat⌋ : ℚ) + 1) :
    (scaledInterval beat idx : Int) = ⌊(beat : ℚ) / g_resolutions idx.toNat⌋ := by
  unfold scaledInterval
  rw [f32_beat beat hb]
  generalize (beat : ℚ) / g_resolutions idx.toNat = q at *
  have hN0 : 0 ≤ ⌊q⌋ := Int.floor_nonneg.mpr h0
  have hN1 : ⌊q⌋ < 4294967296 := by
    have : (⌊q⌋ : ℚ) < 4294967296 := lt_of_le_of_lt (Int.floor_le q) hq
    exact_mod_cast this
  have hf0 : 0 ≤ f32 q := le_trans (by exact_mod_cast hN0) h1
  have hfl : ⌊f32 q⌋ = ⌊q⌋ := Int.floor_eq_iff.mpr ⟨h1, h2⟩
  unfold truncf
  rw [if_pos hf0, hfl]
  exact toUInt32_of_lt _ hN0 hN1

/-- A quotient that is a `float` is truncated to its floor. -/
theorem scaledInterval_exact (beat : Nat) (idx : Int) (hb : beat < 16777216)
    (h0 : 0 ≤ (beat : ℚ) / g_resolutions idx.toNat)
    (hq : (beat : ℚ) / g_resolutions idx.toNat < 4294967296)
    (hex : f32 ((beat : ℚ) / g_resolutions idx.toNat) = (beat : ℚ) / g_resolutions idx.toNat) :
    (scaledInterval beat idx : Int) = ⌊(beat : ℚ) / g_resolutions idx.toNat⌋ := by
  apply scaledInterval_eq_floor beat idx hb h0 hq
  · rw [hex]
    exact Int.floor_le _
  · rw [hex]
    exact Int.lt_floor_add_one _

/-- A beat interval below `2 ^ 24` scaled by a power of two between `1 / 4` and
`4` is a `float`. -/
theorem f32_beat_scaled (beat : Nat) (k : Int) (hb : beat < 16777216) (hk : -149 ≤ k) :
    f32 ((beat : ℚ) * 2 ^ k) = (beat : ℚ) * 2 ^ k := by
  have h := f32_dyadic (beat : Int) k (by rw [abs_of_nonneg (by omega)]; norm_num; omega) hk
  simpa using h

/-- At the resolutions x1/4, x1/2, x1, x2, x3 and x4 (every table entry but
`0.3333333f`) and for a beat interval below `2 ^ 24` the scaled interval is the
floor of the exact quotient of the beat interval by the table entry. -/
theorem scaledInterval_floor (beat : Nat) (idx : Int) (hb : beat < 16777216)
    (hidx : idx = 0 ∨ idx = 2 ∨ idx = 3 ∨ idx = 4 ∨ idx = 5 ∨ idx = 6) :
    (scaledInterval beat idx : Int) = ⌊(beat : ℚ) / g_resolutions idx.toNat⌋ := by
  have hbq : (beat : ℚ) < 16777216 := by exact_mod_cast hb
  have hb0 : (0 : ℚ) ≤ (beat : ℚ) := Nat.cast_nonneg beat
  rcases hidx with h | h | h | h | h | h
  · subst h
    have e : (beat : ℚ) / g_resolutions (0 : Int).toNat = (beat : ℚ) * 2 ^ (2 : Int) := by
      show (beat : ℚ) / (1 / 4) = _
      norm_num
      ring
    have hx := f32_beat_scaled beat 2 hb (by norm_num)
    rw [← e] at hx
    exact scaledInterval_exact beat 0 hb (by rw [e]; positivity) (by rw [e]; norm_num; linarith) hx
  · subst h
    have e : (beat : ℚ) / g_resolutions (2 : Int).toNat = (beat : ℚ) * 2 ^ (1 : Int) := by
      show (beat : ℚ) / (1 / 2) = _
      norm_num
      ring
    have hx := f32_beat_scaled beat 1 hb (by norm_num)
    rw [← e] at hx
    exact scaledInterval_exact beat 2 hb (by rw [e]; positivity) (by rw [e]; norm_num; linarith) hx
  · subst h
    have e : (beat : ℚ) / g_resolutions (3 : Int).toNat = (beat : ℚ) * 2 ^ (0 : Int) := by
      show (beat : ℚ) / 1 = _
      norm_num
    have hx := f32_beat_scaled beat 0 hb (by norm_num)
    rw [← e] at hx
    exact scaledInterval_exact beat 3 hb (by rw [e]; positivity) (by rw [e]; norm_num; linarith) hx
  · subst h
    have e : (beat : ℚ) / g_resolutions (4 : Int).toNat = (beat : ℚ) * 2 ^ (-1 : Int) := by
      show (beat : ℚ) / 2 = _
      norm_num
      ring
    have hx := f32_beat_scaled beat (-1) hb (by norm_num)
    rw [← e] at hx
    exact scaledInterval_exact beat 4 hb (by rw [e]; positivity) (by rw [e]; norm_num; linarith) hx
  · subst h
    have e : (beat : ℚ) / g_resolutions (5 : Int).toNat = (beat : ℚ) / 3 := rfl
    have hq0 : (0 : ℚ) ≤ (beat : ℚ) / 3 := by positivity
    have hq1 : (beat : ℚ) / 3 < 8388608 := by linarith
    apply scaledInterval_eq_floor beat 5 hb (by rw [e]; exact hq0) (by rw [e]; linarith)
    · rw [e]
      have h := le_f32_of_le ((beat : ℚ) / 3) ⌊(beat : ℚ) / 3⌋ 0 (by norm_num)
        (by rw [abs_of_nonneg hq0]; norm_num; linarith)
        (by simpa using Int.floor_le ((beat : ℚ) / 3))
      simpa using h
    · rw [e]
      have herr := f32_abs_error ((beat : ℚ) / 3) 22 (by norm_num)
        (by rw [abs_of_nonneg hq0]; norm_num; linarith)
      rw [abs_le] at herr
      have h3 : (beat : ℚ) / 3 ≤ (⌊(beat : ℚ) / 3⌋ : ℚ) + 2 / 3 := by
        have hlt := Int.lt_floor_add_one ((beat : ℚ) / 3)
        have h4 : ((beat : Int) : ℚ) < ((3 * ⌊(beat : ℚ) / 3⌋ + 3 : Int) : ℚ) := by
          push_cast
          linarith
        have h5 : (beat : Int) < 3 * ⌊(beat : ℚ) / 3⌋ + 3 := by exact_mod_cast h4
        have h6 : (beat : Int) ≤ 3 * ⌊(beat : ℚ) / 3⌋ + 2 := by omega
        have h7 : ((beat : Int) : ℚ) ≤ ((3 * ⌊(beat : ℚ) / 3⌋ + 2 : Int) : ℚ) := by
          exact_mod_cast h6
        push_cast at h7
        linarith
      have h8 : (2 : ℚ) ^ ((22 : Int) - 24) = 1 / 4 := by norm_num
      rw [h8] at herr
      linarith [herr.2]
  · subst h
    have e : (beat : ℚ) / g_resolutions (6 : Int).toNat = (beat : ℚ) * 2 ^ (-2 : Int) := by
      show (beat : ℚ) / 4 = _
      norm_num
      ring
    have hx := f32_beat_scaled beat (-2) hb (by norm_num)
    rw [← e] at hx
    exact scaledInterval_exact beat 6 hb (by rw [e]; positivity) (by rw [e]; norm_num; linarith) hx

/-- At resolution x1 the scaled interval is the beat interval. -/
theorem scaledInterval_x1 (beat : Nat) (h : beat < 16777216) : scaledInterval beat 3 = beat := by
  have h1 := scaledInterval_floor beat 3 h (by decide)
  have e : (beat : ℚ) / g_resolutions (3 : Int).toNat = ((beat : Int) : ℚ) := by
    show (beat : ℚ) / 1 = _
    simp
  rw [e, Int.floor_intCast] at h1
  exact_mod_cast h1

/-- At the table entry `0.3333333f` the rounded quotient of a beat interval of
3000000 is 9000001, one above the floor of the exact quotient. -/
theorem scaledInterval_third_example :
    scaledInterval 3000000 1 = 9000001 ∧
    ⌊(3000000 : ℚ) / g_resolutions 1⌋ = 9000000 := by
  have hf : f32 ((3000000 : ℚ) / (5592405 / 16777216)) = 9000001 := by
    rw [f32_eval _ 23 9000001 (by norm_num) (by norm_num [abs_of_pos])
      (by norm_num [abs_of_pos]) (by norm_num [abs_lt])]
    norm_num
  constructor
  · unfold scaledInterval
    have hb : f32 ((3000000 : Nat) : ℚ) = 3000000 := by
      have := f32_beat 3000000 (by norm_num)
      simpa using this
    have e : g_resolutions (1 : Int).toNat = 5592405 / 16777216 := g_resolutions_third
    rw [hb, e, hf]
    have ht : truncf (9000001 : ℚ) = 9000001 := by
      unfold truncf
      rw [if_pos (by norm_num)]
      exact Int.floor_eq_iff.mpr ⟨by norm_num, by norm_num⟩
    rw [ht]
    decide
  · rw [g_resolutions_third]
    exact Int.floor_eq_iff.mpr ⟨by norm_num, by norm_num⟩

/-- The schedule of the musical clock after a poll that fires. -/
theorem pollInternalClock_schedule (L : Luts) (rnd : Nat → Nat) (t now_ms : Nat) (s : State)
    (h : t ≥ s.g_next_internal_trigger_time_us ∧ s.g_next_internal_trigger_time_us > 0) :
    (pollInternalClock L rnd t now_ms s).g_next_internal_trigger_time_us =
      (s.g_next_internal_trigger_time_us +
        scaledInterval s.g_beat_interval_us s.g_current_resolution_index) % 4294967296 := by
  rw [(pollInternalClock_cases L rnd t now_ms s).1 h]

/-- C25 (amended): one poll at time `t`.  The musical clock fires (calls
`handleDejaVuTrigger`) iff its schedule `n` is non-zero and `t ≥ n`, and is then
rearmed to `(n + D) mod 2 ^ 32`, where `D = scaledInterval beat resolution` is
the binary32 quotient of the beat interval by the resolution table entry,
truncated toward zero; `D` does not depend on `t`.  For a beat interval below
`2 ^ 24` microseconds `D` is the beat interval at resolution x1 and the floor of
the exact quotient at every table entry except `0.3333333f`.  The raw-beat
clock fires under the same condition on its own schedule and is rearmed to
`(n + beat interval) mod 2 ^ 32`, whatever the resolution index.  A clock that
does not fire leaves the state unchanged; when the sum is below `2 ^ 32` the new
schedule is the sum itself. -/
theorem clock_poll_rearm (L : Luts) (rnd : Nat → Nat) (t now_ms : Nat) (s : State) :
    (t ≥ s.g_next_internal_trigger_time_us ∧ s.g_next_internal_trigger_time_us > 0 →
      (pollInternalClock L rnd t now_ms s).g_next_internal_trigger_time_us =
        (s.g_next_internal_trigger_time_us +
          scaledInterval s.g_beat_interval_us s.g_current_resolution_index) % 4294967296 ∧
      (pollInternalClock L rnd t now_ms s).g_grains =
        (handleDejaVuTrigger L rnd now_ms s).g_grains ∧
      (pollInternalClock L rnd t now_ms s).g_deja_vu_step =
        (handleDejaVuTrigger L rnd now_ms s).g_deja_vu_step ∧
      (pollInternalClock L rnd t now_ms s).g_next_raw_beat_time_us = s.g_next_raw_beat_time_us ∧
      (s.g_next_internal_trigger_time_us +
          scaledInterval s.g_beat_interval_us s.g_current_resolution_index < 4294967296 →
        (pollInternalClock L rnd t now_ms s).g_next_internal_trigger_time_us =
          s.g_next_internal_trigger_time_us +
            scaledInterval s.g_beat_interval_us s.g_current_resolution_index)) ∧
    (¬ (t ≥ s.g_next_internal_trigger_time_us ∧ s.g_next_internal_trigger_time_us > 0) →
      pollInternalClock L rnd t now_ms s = s) ∧
    (s.g_beat_interval_us < 16777216 → scaledInterval s.g_beat_interval_us 3 =
      s.g_beat_interval_us) ∧
    (s.g_beat_interval_us < 16777216 →
      (s.g_current_resolution_index = 0 ∨ s.g_current_resolution_index = 2 ∨
        s.g_current_resolution_index = 3 ∨ s.g_current_resolution_index = 4 ∨
        s.g_current_resolution_index = 5 ∨ s.g_current_resolution_index = 6) →
      (scaledInterval s.g_beat_interval_us s.g_current_resolution_index : Int) =
        ⌊(s.g_beat_interval_us : ℚ) / g_resolutions s.g_current_resolution_index.toNat⌋) ∧
    (t ≥ s.g_next_raw_beat_time_us ∧ s.g_next_raw_beat_time_us > 0 →
      (pollRawClock t now_ms s).g_next_raw_beat_time_us =
        (s.g_next_raw_beat_time_us + s.g_beat_interval_us) % 4294967296 ∧
      (pollRawClock t now_ms s).g_next_internal_trigger_time_us =
        s.g_next_internal_trigger_time_us ∧
      (s.g_next_raw_beat_time_us + s.g_beat_interval_us < 4294967296 →
        (pollRawClock t now_ms s).g_next_raw_beat_time_us =
          s.g_next_raw_beat_time_us + s.g_beat_interval_us)) ∧
    (¬ (t ≥ s.g_next_raw_beat_time_us ∧ s.g_next_raw_beat_time_us > 0) →
      pollRawClock t now_ms s = s) := by
  obtain ⟨hfire, hidle⟩ := pollInternalClock_cases L rnd t now_ms s
  obtain ⟨-, -, c3, -⟩ := handleDejaVuTrigger_clock L rnd now_ms s
  refine ⟨?_, hidle, scaledInterval_x1 _, scaledInterval_floor _ _, ?_, ?_⟩
  · intro h
    rw [hfire h]
    exact ⟨rfl, rfl, rfl, c3, fun hlt => Nat.mod_eq_of_lt hlt⟩
  · intro h
    have e : toUInt32 ((s.g_next_raw_beat_time_us : Int) + (s.g_beat_interval_us : Int)) =
        (s.g_next_raw_beat_time_us + s.g_beat_interval_us) % 4294967296 := by
      unfold toUInt32
      omega
    unfold pollRawClock
    rw [if_pos h]
    refine ⟨?_, rfl, ?_⟩
    · show toUInt32 ((s.g_next_raw_beat_time_us : Int) + (s.g_beat_interval_us : Int)) = _
      rw [e]
    · intro hlt
      show toUInt32 ((s.g_next_raw_beat_time_us : Int) + (s.g_beat_interval_us : Int)) = _
      rw [e]
      exact Nat.mod_eq_of_lt hlt
  · intro h
    unfold pollRawClock
    rw [if_neg h]

/-- Witness for C25 (amended): `clockDemo` (both schedules at 1000, beat
interval 250000, resolution x1) polled at time 2000: both clocks fire and are
rearmed by the beat interval. -/
theorem clock_poll_rearm_witness :
    (pollRawClock 2000 0 clockDemo).g_next_raw_beat_time_us = 251000 ∧
    (pollInternalClock flatLuts (fun _ => 1) 2000 0 clockDemo).g_next_internal_trigger_time_us =
      (clockDemo.g_next_internal_trigger_time_us +
        scaledInterval clockDemo.g_beat_interval_us clockDemo.g_current_resolution_index)
        % 4294967296 ∧
    scaledInterval clockDemo.g_beat_interval_us 3 = clockDemo.g_beat_interval_us :=
  have h := clock_poll_rearm flatLuts (fun _ => 1) 2000 0 clockDemo
  ⟨((h.2.2.2.2.1 (by decide)).2.2 (by decide)), (h.1 (by decide)).1, h.2.2.1 (by decide)⟩

/-- Counterexample to C25 as stated.  With the musical clock scheduled at
`n = 4294900000` and `D = 500000` (beat interval 500000 at resolution x1), a
poll at `t = n` fires and rearms the clock to `432704`, which is
`n + D - 2 ^ 32`, not `n + D = 4295400000`; the raw-beat clock does the same.
With a beat interval of 3000000 at the table entry `0.3333333f`, `D` is
9000001, not the floor 9000000 of the exact quotient. -/
theorem clock_schedule_wraps :
    lateClockState.g_next_internal_trigger_time_us = 4294900000 ∧
    scaledInterval lateClockState.g_beat_interval_us lateClockState.g_current_resolution_index
      = 500000 ∧
    (pollInternalClock flatLuts (fun _ => 1) 4294900000 0
      lateClockState).g_next_internal_trigger_time_us = 432704 ∧
    (pollRawClock 4294900000 0 lateClockState).g_next_raw_beat_time_us = 432704 ∧
    4294900000 + 500000 ≠ 432704 ∧
    scaledInterval 3000000 1 = 9000001 ∧
    ⌊(3000000 : ℚ) / g_resolutions 1⌋ = 9000000 := by
  have hD : scaledInterval lateClockState.g_beat_interval_us
      lateClockState.g_current_resolution_index = 500000 :=
    scaledInterval_x1 500000 (by norm_num)
  have hfire := pollInternalClock_schedule flatLuts (fun _ => 1) 4294900000 0 lateClockState
    (by decide)
  have e2 : (lateClockState.g_next_internal_trigger_time_us +
      scaledInterval lateClockState.g_beat_interval_us lateClockState.g_current_resolution_index)
      % 4294967296 = 432704 := by
    rw [hD]
    decide
  exact ⟨rfl, hD, hfire.trans e2, by decide, by decide, scaledInterval_third_example.1,
    scaledInterval_third_example.2⟩

/-! ## Input queue FIFO theorems -/

/-- An accepted write appends the sample to the stored samples. -/
theorem write_contents (rb : AudioRingBuffer) (x : Int)
    (hw : rb.writePos < 4096) (hr : rb.readPos < 4096) :
    ((rb.write x).1 = true ↔ rb.count < 4095) ∧
    (rb.write x).2.writePos < 4096 ∧ (rb.write x).2.readPos < 4096 ∧
    ((rb.write x).1 = true →
      (rb.write x).2.contents = rb.contents ++ [x] ∧ (rb.write x).2.count = rb.count + 1) ∧
    ((rb.write x).1 = false → (rb.write x).2 = rb) := by
  have hnext : toUInt16 (((rb.writePos + 1) % RING_BUFFER_SIZE : Nat) : Int) =
      (rb.writePos + 1) % 4096 := by
    unfold toUInt16 RING_BUFFER_SIZE
    omega
  unfold AudioRingBuffer.write
  simp only [hnext]
  by_cases hfull : (rb.writePos + 1) % 4096 = rb.readPos
  · rw [if_pos hfull]
    refine ⟨?_, hw, hr, ?_, fun _ => rfl⟩
    · unfold AudioRingBuffer.count RING_BUFFER_SIZE
      constructor
      · intro h
        exact Bool.noConfusion h
      · intro h
        omega
    · intro h
      exact Bool.noConfusion h
  · rw [if_neg hfull]
    have hc : rb.count < 4095 := by
      unfold AudioRingBuffer.count RING_BUFFER_SIZE
      omega
    refine ⟨⟨fun _ => hc, fun _ => rfl⟩, by show (rb.writePos + 1) % 4096 < 4096; omega, hr, ?_,
      fun h => Bool.noConfusion h⟩
    intro _
    have hcount : ({ rb with
        data := Function.update rb.data rb.writePos x
        writePos := (rb.writePos + 1) % 4096 } : AudioRingBuffer).count = rb.count + 1 := by
      unfold AudioRingBuffer.count RING_BUFFER_SIZE at hc ⊢
      show ((rb.writePos + 1) % 4096 + 4096 - rb.readPos) % 4096 = _
      omega
    refine ⟨?_, hcount⟩
    unfold AudioRingBuffer.contents
    rw [hcount, List.range_succ, List.map_append]
    congr 1
    · apply List.map_congr_left
      intro i hi
      rw [List.mem_range] at hi
      show Function.update rb.data rb.writePos x ((rb.readPos + i) % RING_BUFFER_SIZE) = _
      apply Function.update_noteq
      unfold AudioRingBuffer.count RING_BUFFER_SIZE at hi
      unfold RING_BUFFER_SIZE
      omega
    · show [Function.update rb.data rb.writePos x ((rb.readPos + rb.count) % RING_BUFFER_SIZE)]
        = [x]
      have e : (rb.readPos + rb.count) % RING_BUFFER_SIZE = rb.writePos := by
        unfold AudioRingBuffer.count RING_BUFFER_SIZE
        omega
      rw [e, Function.update_same]

/-- A successful read removes and returns the oldest stored sample. -/
theorem read_contents (rb : AudioRingBuffer) (y : Int)
    (hw : rb.writePos < 4096) (hr : rb.readPos < 4096) :
    ((rb.read y).1 = true ↔ 0 < rb.count) ∧
    (rb.read y).2.2.writePos < 4096 ∧ (rb.read y).2.2.readPos < 4096 ∧
    ((rb.read y).1 = true →
      rb.contents = (rb.read y).2.1 :: (rb.read y).2.2.contents ∧
      (rb.read y).2.2.count + 1 = rb.count) ∧
    ((rb.read y).1 = false → (rb.read y).2.2 = rb) := by
  have hnext : toUInt16 (((rb.readPos + 1) % RING_BUFFER_SIZE : Nat) : Int) =
      (rb.readPos + 1) % 4096 := by
    unfold toUInt16 RING_BUFFER_SIZE
    omega
  unfold AudioRingBuffer.read
  simp only [hnext]
  by_cases hempty : rb.readPos = rb.writePos
  · rw [if_pos hempty]
    refine ⟨?_, hw, hr, fun h => Bool.noConfusion h, fun _ => rfl⟩
    unfold AudioRingBuffer.count RING_BUFFER_SIZE
    constructor
    · intro h
      exact Bool.noConfusion h
    · intro h
      omega
  · rw [if_neg hempty]
    have hc : 0 < rb.count := by
      unfold AudioRingBuffer.count RING_BUFFER_SIZE
      omega
    refine ⟨⟨fun _ => hc, fun _ => rfl⟩, hw, by show (rb.readPos + 1) % 4096 < 4096; omega, ?_,
      fun h => Bool.noConfusion h⟩
    intro _
    have hcount : ({ rb with readPos := (rb.readPos + 1) % 4096 } : AudioRingBuffer).count + 1
        = rb.count := by
      unfold AudioRingBuffer.count RING_BUFFER_SIZE at hc ⊢
      show (rb.writePos + 4096 - (rb.readPos + 1) % 4096) % 4096 + 1 = _
      omega
    refine ⟨?_, hcount⟩
    unfold AudioRingBuffer.contents
    rw [← hcount, List.range_succ_eq_map, List.map_cons, List.map_map]
    congr 1
    · show rb.data ((rb.readPos + 0) % RING_BUFFER_SIZE) = rb.data rb.readPos
      have e : (rb.readPos + 0) % RING_BUFFER_SIZE = rb.readPos := by
        unfold RING_BUFFER_SIZE
        omega
      rw [e]
    · apply List.map_congr_left
      intro i _
      show rb.data ((rb.readPos + (i + 1)) % RING_BUFFER_SIZE) =
        rb.data (((rb.readPos + 1) % 4096 + i) % RING_BUFFER_SIZE)
      have e : (rb.readPos + (i + 1)) % RING_BUFFER_SIZE =
          ((rb.readPos + 1) % 4096 + i) % RING_BUFFER_SIZE := by
        unfold RING_BUFFER_SIZE
        omega
      rw [e]

/-- One queue call keeps the positions in range and the bookkeeping relation
`accepted = returned ++ stored`. -/
theorem queueStep_inv (st : QueueRun) (op : QueueOp)
    (hw : st.rb.writePos < 4096) (hr : st.rb.readPos < 4096)
    (h : st.accepted = st.returned ++ st.rb.contents) :
    (queueStep st op).rb.writePos < 4096 ∧ (queueStep st op).rb.readPos < 4096 ∧
    (queueStep st op).accepted = (queueStep st op).returned ++ (queueStep st op).rb.contents := by
  cases op with
  | write x =>
    obtain ⟨-, w1, w2, w3, w4⟩ := write_contents st.rb x hw hr
    refine ⟨w1, w2, ?_⟩
    show (if (st.rb.write x).1 then st.accepted ++ [x] else st.accepted) =
      st.returned ++ (st.rb.write x).2.contents
    by_cases hres : (st.rb.write x).1 = true
    · rw [if_pos hres, (w3 hres).1, h, List.append_assoc]
    · rw [if_neg hres, w4 (by simpa using hres), h]
  | read =>
    obtain ⟨-, r1, r2, r3, r4⟩ := read_contents st.rb 0 hw hr
    refine ⟨r1, r2, ?_⟩
    show st.accepted =
      (if (st.rb.read 0).1 then st.returned ++ [(st.rb.read 0).2.1] else st.returned) ++
        (st.rb.read 0).2.2.contents
    by_cases hres : (st.rb.read 0).1 = true
    · rw [if_pos hres, h, (r3 hres).1, List.append_assoc]
      rfl
    · rw [if_neg hres, r4 (by simpa using hres), h]

/-- The invariant of a run of queue calls from any starting bookkeeping. -/
theorem queueRun_inv (ops : List QueueOp) :
    ∀ st : QueueRun, st.rb.writePos < 4096 → st.rb.readPos < 4096 →
      st.accepted = st.returned ++ st.rb.contents →
      (ops.foldl queueStep st).rb.writePos < 4096 ∧ (ops.foldl queueStep st).rb.readPos < 4096 ∧
      (ops.foldl queueStep st).accepted =
        (ops.foldl queueStep st).returned ++ (ops.foldl queueStep st).rb.contents := by
  induction ops with
  | nil =>
    intro st hw hr h
    exact ⟨hw, hr, h⟩
  | cons op rest ih =>
    intro st hw hr h
    obtain ⟨a, b, c⟩ := queueStep_inv st op hw hr h
    exact ih (queueStep st op) a b c

/-- Consecutive writes are accepted until 4095 samples are stored. -/
theorem writes_only (xs : List Int) :
    ∀ st : QueueRun, st.rb.writePos < 4096 → st.rb.readPos < 4096 →
      ((xs.map QueueOp.write).foldl queueStep st).accepted =
        st.accepted ++ xs.take (4095 - st.rb.count) := by
  induction xs with
  | nil =>
    intro st _ _
    simp
  | cons x rest ih =>
    intro st hw hr
    obtain ⟨w0, w1, w2, w3, w4⟩ := write_contents st.rb x hw hr
    rw [List.map_cons, List.foldl_cons, ih (queueStep st (.write x)) w1 w2]
    show (if (st.rb.write x).1 then st.accepted ++ [x] else st.accepted) ++
      rest.take (4095 - (st.rb.write x).2.count) = _
    by_cases hres : (st.rb.write x).1 = true
    · have hc := w0.mp hres
      have e : 4095 - st.rb.count = (4095 - (st.rb.count + 1)) + 1 := by omega
      rw [if_pos hres, (w3 hres).2, e, List.take_succ_cons, List.append_assoc]
      rfl
    · have hc : ¬ st.rb.count < 4095 := fun hlt => hres (w0.mpr hlt)
      have e : 4095 - st.rb.count = 0 := by omega
      rw [if_neg hres, w4 (by simpa using hres), e, List.take_zero, List.take_zero]

/-- C30: the input queue is first-in first-out with usable capacity 4095.  For
every sequence of `write` and `read` calls run from `init`, the samples accepted
by successful writes are the samples returned by successful reads followed by
the samples still stored, in the same order; the number of stored samples is
`(writePos - readPos) mod 4096` and is at most 4095; a further write is accepted
exactly when fewer than 4095 samples are stored; and of any consecutive writes
from `init` without a read exactly the first 4095 are accepted. -/
theorem queue_is_fifo (rb0 : AudioRingBuffer) (ops : List QueueOp) (xs : List Int) (x : Int) :
    (runQueue ops rb0.init).accepted =
      (runQueue ops rb0.init).returned ++ (runQueue ops rb0.init).rb.contents ∧
    (runQueue ops rb0.init).rb.contents.length =
      ((runQueue ops rb0.init).rb.writePos + 4096 - (runQueue ops rb0.init).rb.readPos) % 4096 ∧
    (runQueue ops rb0.init).rb.contents.length ≤ 4095 ∧
    (((runQueue ops rb0.init).rb.write x).1 = true ↔
      (runQueue ops rb0.init).rb.contents.length < 4095) ∧
    (runQueue (xs.map QueueOp.write) rb0.init).accepted = xs.take 4095 := by
  have hc0 : (rb0.init).count = 0 := by
    show (0 + RING_BUFFER_SIZE - 0) % RING_BUFFER_SIZE = 0
    unfold RING_BUFFER_SIZE
    norm_num
  have hinit : (rb0.init).contents = [] := by
    unfold AudioRingBuffer.contents
    rw [hc0]
    rfl
  obtain ⟨hw, hr, hrel⟩ := queueRun_inv ops { rb := rb0.init, accepted := [], returned := [] }
    (by show (0 : Nat) < 4096; norm_num) (by show (0 : Nat) < 4096; norm_num)
    (by show ([] : List Int) = [] ++ (rb0.init).contents; rw [hinit]; rfl)
  have hlen : (runQueue ops rb0.init).rb.contents.length = (runQueue ops rb0.init).rb.count := by
    unfold AudioRingBuffer.contents
    rw [List.length_map, List.length_range]
  have hcount : (runQueue ops rb0.init).rb.count =
      ((runQueue ops rb0.init).rb.writePos + 4096 - (runQueue ops rb0.init).rb.readPos) % 4096 :=
    rfl
  refine ⟨hrel, by rw [hlen, hcount], by rw [hlen, hcount]; omega, ?_, ?_⟩
  · rw [hlen]
    exact (write_contents _ x hw hr).1
  · have h := writes_only xs { rb := rb0.init, accepted := [], returned := [] }
      (by show (0 : Nat) < 4096; norm_num) (by show (0 : Nat) < 4096; norm_num)
    have e : ({ rb := rb0.init, accepted := [], returned := [] } : QueueRun).rb.count = 0 := hc0
    rw [e] at h
    exact h

/-- An instance of C30: three writes, a read, a write and two reads from
`init`: the reads return 11, 12 and 13 in this order and 14 is still stored. -/
theorem queue_is_fifo_witness :
    (runQueue [.write 11, .write 12, .write 13, .read, .write 14, .read, .read]
      emptyQueue.init).returned = [11, 12, 13] ∧
    (runQueue [.write 11, .write 12, .write 13, .read, .write 14, .read, .read]
      emptyQueue.init).accepted = [11, 12, 13, 14] ∧
    (runQueue [.write 11, .write 12, .write 13, .read, .write 14, .read, .read]
      emptyQueue.init).accepted =
      (runQueue [.write 11, .write 12, .write 13, .read, .write 14, .read, .read]
        emptyQueue.init).returned ++
      (runQueue [.write 11, .write 12, .write 13, .read, .write 14, .read, .read]
        emptyQueue.init).rb.contents :=
  ⟨by decide, by decide,
    (queue_is_fifo emptyQueue [.write 11, .write 12, .write 13, .read, .write 14, .read, .read]
      [] 0).1⟩

/-! ## Render pass theorems -/

/-- Removing position `i` from a list held in the first `c` cells of an array
by shifting the later cells down. -/
theorem shifted_list (a : Nat → Nat) (c i : Nat) (pre t : List Nat) (x0 : Nat)
    (h : (List.range c).map a = pre ++ x0 :: t) (hi : pre.length = i) :
    (List.range (c - 1)).map (shiftIndices a i c) = pre ++ t := by
  have hlen : c = i + 1 + t.length := by
    have := congrArg List.length h
    simp at this
    omega
  have hget : ∀ k, (pre ++ x0 :: t)[k]? = if k < c then some (a k) else none := by
    intro k
    rw [← h, List.getElem?_map]
    by_cases hk : k < c
    · rw [if_pos hk, List.getElem?_range hk]
      rfl
    · rw [if_neg hk, List.getElem?_eq_none (by simpa using hk)]
      rfl
  apply List.ext_getElem?
  intro j
  rw [List.getElem?_map]
  by_cases hj : j < c - 1
  · rw [List.getElem?_range hj]
    show some (shiftIndices a i c j) = _
    rw [shiftIndices_apply a i c j (by omega)]
    by_cases hji : j < i
    · have e := hget j
      rw [List.getElem?_append_left (by omega), if_pos (by omega)] at e
      rw [if_neg (by omega), List.getElem?_append_left (by omega), e]
    · have e := hget (j + 1)
      have e1 : j + 1 - pre.length = (j - pre.length) + 1 := by omega
      rw [List.getElem?_append_right (by omega), if_pos (by omega), e1,
        List.getElem?_cons_succ] at e
      rw [if_pos (by omega), List.getElem?_append_right (by omega), e]
  · rw [List.getElem?_eq_none (by simpa using hj)]
    have hl : (pre ++ t).length ≤ j := by
      rw [List.length_append]
      omega
    rw [List.getElem?_eq_none hl]
    rfl

/-- The entry of the active list at position `pre.length` when the list is
split as `pre ++ x0 :: t`. -/
theorem activeList_split (s : State) (pre t : List Nat) (x0 : Nat)
    (h : activeList s = pre ++ x0 :: t) :
    pre.length < s.g_activeGrainCount ∧ s.g_activeGrainIndices pre.length = x0 := by
  have hlen : s.g_activeGrainCount = pre.length + 1 + t.length := by
    have := congrArg List.length h
    rw [activeList_length] at this
    simp at this
    omega
  have hlt : pre.length < s.g_activeGrainCount := by omega
  refine ⟨hlt, ?_⟩
  have e : (activeList s)[pre.length]? = some x0 := by
    rw [h, List.getElem?_append_right (le_refl _)]
    simp
  unfold activeList at e
  rw [List.getElem?_map, List.getElem?_range hlt] at e
  exact Option.some.inj e

/-- The render loop from list position `i`, relative to the state `s0` at the
start of the pass: the grains of the remaining list `tail` are each replaced by
their `renderGrain` result, the other slots are kept, the list ends as the
processed part followed by the surviving entries of `tail`, and the
accumulators receive the surviving grains in list order. -/
theorem renderLoop_spec (L : Luts) (s0 : State) (n : Nat) :
    ∀ (i : Nat) (s : State) (wetL wetR : Int) (pre tail : List Nat),
      s.g_params.mode = s0.g_params.mode → s.g_grainBuffer = s0.g_grainBuffer →
      (∀ x ∈ tail, s.g_grains x = s0.g_grains x) →
      activeList s = pre ++ tail → pre.length = i → tail.length ≤ n →
      (pre ++ tail).Nodup → s.g_activeGrainCount ≤ 255 →
      activeList (renderLoop L n i (s, wetL, wetR)).1 = pre ++ tail.filter (survives L s0) ∧
      (renderLoop L n i (s, wetL, wetR)).1.g_activeGrainCount =
        pre.length + (tail.filter (survives L s0)).length ∧
      (∀ x ∈ tail, (renderLoop L n i (s, wetL, wetR)).1.g_grains x =
        (renderGrain L s0 (s0.g_grains x)).2) ∧
      (∀ x, x ∉ tail → (renderLoop L n i (s, wetL, wetR)).1.g_grains x = s.g_grains x) ∧
      (renderLoop L n i (s, wetL, wetR)).2 = tail.foldl (mixGrain L s0) (wetL, wetR) := by
  induction n with
  | zero =>
    intro i s wetL wetR pre tail _ _ _ hl _ hn _ _
    have ht : tail = [] := List.length_eq_zero.mp (Nat.le_zero.mp hn)
    subst ht
    have hc := activeList_length s
    rw [hl] at hc
    refine ⟨by simpa using hl, by simpa using hc.symm, ?_, fun _ _ => rfl, rfl⟩
    intro x hx
    exact absurd hx (List.not_mem_nil x)
  | succ n ih =>
    intro i s wetL wetR pre tail hm hb hg hl hi hn hnd hc
    cases tail with
    | nil =>
      have hcnt := activeList_length s
      rw [hl] at hcnt
      have hni : ¬ i < s.g_activeGrainCount := by
        simp at hcnt
        omega
      rw [renderLoop, if_neg hni]
      refine ⟨by simpa using hl, by simpa using hcnt.symm, ?_, fun _ _ => rfl, rfl⟩
      intro x hx
      exact absurd hx (List.not_mem_nil x)
    | cons x0 t =>
      obtain ⟨hlt, hx0⟩ := activeList_split s pre t x0 hl
      rw [hi] at hlt hx0
      have hnd2 := List.nodup_append.mp hnd
      have hx0t : x0 ∉ t := (List.nodup_cons.mp hnd2.2.1).1
      have hx0pre : x0 ∉ pre := fun hp => hnd2.2.2 hp (List.mem_cons_self x0 t)
      have hr : renderGrain L s (s.g_grains x0) = renderGrain L s0 (s0.g_grains x0) := by
        rw [hg x0 (List.mem_cons_self x0 t)]
        exact renderGrain_congr L s s0 _ hm hb
      have hgt : ∀ x ∈ t, Function.update s.g_grains x0
          (renderGrain L s0 (s0.g_grains x0)).2 x = s0.g_grains x := by
        intro x hx
        have hne : x ≠ x0 := fun hxe => hx0t (hxe ▸ hx)
        rw [Function.update_noteq hne]
        exact hg x (List.mem_cons_of_mem x0 hx)
      rw [renderLoop, if_pos hlt]
      simp only
      rw [hx0, hr]
      by_cases ha : (renderGrain L s0 (s0.g_grains x0)).2.active = true
      · rw [if_pos ha]
        have hsv : survives L s0 x0 = true := ha
        have hl1 : activeList { s with g_grains := (Function.update s.g_grains x0
            (renderGrain L s0 (s0.g_grains x0)).2) } = (pre ++ [x0]) ++ t := by
          rw [List.append_assoc]
          exact hl
        have hnd1 : ((pre ++ [x0]) ++ t).Nodup := by
          rw [List.append_assoc]
          exact hnd
        obtain ⟨r1, r2, r3, r4, r5⟩ := ih (i + 1)
          { s with g_grains := (Function.update s.g_grains x0
            (renderGrain L s0 (s0.g_grains x0)).2) }
          (toInt32 (wetL + (toInt32 ((renderGrain L s0 (s0.g_grains x0)).1 *
            (renderGrain L s0 (s0.g_grains x0)).2.panL_q15) >>> (15 : Nat))))
          (toInt32 (wetR + (toInt32 ((renderGrain L s0 (s0.g_grains x0)).1 *
            (renderGrain L s0 (s0.g_grains x0)).2.panR_q15) >>> (15 : Nat))))
          (pre ++ [x0]) t hm hb hgt hl1 (by simp [hi])
          (by simpa using Nat.le_of_succ_le_succ hn) hnd1 hc
        refine ⟨?_, ?_, ?_, ?_, ?_⟩
        · rw [r1, List.filter_cons_of_pos hsv, List.append_assoc]
          rfl
        · rw [r2, List.filter_cons_of_pos hsv]
          simp
          omega
        · intro x hx
          rcases List.mem_cons.mp hx with hxe | hxt
          · rw [hxe, r4 x0 hx0t]
            exact Function.update_same _ _ _
          · exact r3 x hxt
        · intro x hx
          have hne : x ≠ x0 := fun hxe => hx (hxe ▸ List.mem_cons_self x0 t)
          rw [r4 x (fun hxt => hx (List.mem_cons_of_mem x0 hxt))]
          exact Function.update_noteq hne _ _
        · rw [r5, List.foldl_cons]
          congr 1
          unfold mixGrain
          rw [if_pos hsv]
      · rw [if_neg ha]
        have hsv : ¬ survives L s0 x0 = true := ha
        have hcnt : toUInt8 ((s.g_activeGrainCount : Int) - 1) = s.g_activeGrainCount - 1 :=
          toUInt8_nat_pred _ (by omega) (by omega)
        have hl2 : activeList { s with
            g_grains := (Function.update s.g_grains x0 (renderGrain L s0 (s0.g_grains x0)).2)
            g_activeGrainIndices :=
              (shiftIndices s.g_activeGrainIndices i s.g_activeGrainCount)
            g_activeGrainCount := toUInt8 ((s.g_activeGrainCount : Int) - 1) } = pre ++ t := by
          unfold activeList
          simp only [hcnt]
          exact shifted_list _ _ _ pre t x0 hl hi
        have hnd1 : (pre ++ t).Nodup := by
          refine List.nodup_append.mpr ⟨hnd2.1, (List.nodup_cons.mp hnd2.2.1).2, ?_⟩
          intro x hxp hxt
          exact hnd2.2.2 hxp (List.mem_cons_of_mem x0 hxt)
        obtain ⟨r1, r2, r3, r4, r5⟩ := ih i
          { s with
            g_grains := (Function.update s.g_grains x0 (renderGrain L s0 (s0.g_grains x0)).2)
            g_activeGrainIndices :=
              (shiftIndices s.g_activeGrainIndices i s.g_activeGrainCount)
            g_activeGrainCount := toUInt8 ((s.g_activeGrainCount : Int) - 1) }
          wetL wetR pre t hm hb hgt hl2 hi
          (by simpa using Nat.le_of_succ_le_succ hn) hnd1
          (by show toUInt8 ((s.g_activeGrainCount : Int) - 1) ≤ 255; rw [hcnt]; omega)
        refine ⟨?_, ?_, ?_, ?_, ?_⟩
        · rw [r1, List.filter_cons_of_neg hsv]
        · rw [r2, List.filter_cons_of_neg hsv]
        · intro x hx
          rcases List.mem_cons.mp hx with hxe | hxt
          · rw [hxe, r4 x0 hx0t]
            exact Function.update_same _ _ _
          · exact r3 x hxt
        · intro x hx
          have hne : x ≠ x0 := fun hxe => hx (hxe ▸ List.mem_cons_self x0 t)
          rw [r4 x (fun hxt => hx (List.mem_cons_of_mem x0 hxt))]
          exact Function.update_noteq hne _ _
        · rw [r5, List.foldl_cons]
          congr 1
          unfold mixGrain
          rw [if_neg hsv]

/-- The fuel given by `renderAllGrains` makes its guard redundant: with an empty
list the loop returns its argument. -/
theorem renderAllGrains_loop (L : Luts) (wetL wetR : Int) (s : State)
    (hready : s.g_grainBufferReady = true) :
    renderAllGrains L wetL wetR s = renderLoop L s.g_activeGrainCount 0 (s, wetL, wetR) := by
  unfold renderAllGrains
  by_cases h0 : s.g_activeGrainCount = 0
  · rw [if_pos (Or.inr h0), h0]
    rfl
  · rw [if_neg (by rw [hready]; simpa using h0)]

/-- C22: one `renderAllGrains` pass over a ready state whose active-index list
has no repeated entry (the count being a `uint8_t` value) replaces the grain of
every listed slot by the result of a single `renderGrain` call on it and leaves
every other slot as it was; the list after the pass is the starting list
without the indices whose grain is inactive after the pass, the others in
their original order; the count is reduced by the number of removed indices;
and the accumulators have received the grains that stayed active in list
order. -/
theorem render_pass_once_per_grain (L : Luts) (wetL wetR : Int) (s : State)
    (hready : s.g_grainBufferReady = true) (hnd : (activeList s).Nodup)
    (hc : s.g_activeGrainCount ≤ 255) :
    (∀ x ∈ activeList s, (renderAllGrains L wetL wetR s).1.g_grains x =
      (renderGrain L s (s.g_grains x)).2) ∧
    (∀ x, x ∉ activeList s → (renderAllGrains L wetL wetR s).1.g_grains x = s.g_grains x) ∧
    activeList (renderAllGrains L wetL wetR s).1 =
      (activeList s).filter (fun x => ((renderAllGrains L wetL wetR s).1.g_grains x).active) ∧
    (renderAllGrains L wetL wetR s).1.g_activeGrainCount +
      ((activeList s).filter
        (fun x => !((renderAllGrains L wetL wetR s).1.g_grains x).active)).length =
      s.g_activeGrainCount ∧
    (renderAllGrains L wetL wetR s).2 = (activeList s).foldl (mixGrain L s) (wetL, wetR) := by
  rw [renderAllGrains_loop L wetL wetR s hready]
  obtain ⟨r1, r2, r3, r4, r5⟩ := renderLoop_spec L s s.g_activeGrainCount 0 s wetL wetR []
    (activeList s) rfl rfl (fun _ _ => rfl) rfl rfl (le_of_eq (activeList_length s)) hnd hc
  have hf : (activeList s).filter
      (fun x => ((renderLoop L s.g_activeGrainCount 0 (s, wetL, wetR)).1.g_grains x).active) =
      (activeList s).filter (survives L s) := by
    apply List.filter_congr
    intro x hx
    rw [r3 x hx]
    rfl
  have hlen := List.length_eq_length_filter_add (l := activeList s)
    (fun x => ((renderLoop L s.g_activeGrainCount 0 (s, wetL, wetR)).1.g_grains x).active)
  rw [activeList_length, hf] at hlen
  refine ⟨r3, r4, ?_, ?_, r5⟩
  · rw [hf]
    simpa using r1
  · rw [r2]
    simp only [List.length_nil, zero_add]
    exact hlen.symm

/-- Witness for C22: in `drainDemo` the list `[4, 1, 7]` becomes `[4, 7]`: the
grain in slot 1 ends during the pass. -/
theorem render_pass_once_per_grain_witness :
    drainDemo.g_grainBufferReady = true ∧ activeList drainDemo = [4, 1, 7] ∧
    drainDemo.g_activeGrainCount ≤ 255 ∧
    activeList (renderAllGrains flatLuts 0 0 drainDemo).1 = [4, 7] ∧
    (renderAllGrains flatLuts 0 0 drainDemo).1.g_activeGrainCount = 2 ∧
    ((∀ x ∈ activeList drainDemo, (renderAllGrains flatLuts 0 0 drainDemo).1.g_grains x =
      (renderGrain flatLuts drainDemo (drainDemo.g_grains x)).2) ∧
    (∀ x, x ∉ activeList drainDemo →
      (renderAllGrains flatLuts 0 0 drainDemo).1.g_grains x = drainDemo.g_grains x) ∧
    activeList (renderAllGrains flatLuts 0 0 drainDemo).1 =
      (activeList drainDemo).filter
        (fun x => ((renderAllGrains flatLuts 0 0 drainDemo).1.g_grains x).active) ∧
    (renderAllGrains flatLuts 0 0 drainDemo).1.g_activeGrainCount +
      ((activeList drainDemo).filter
        (fun x => !((renderAllGrains flatLuts 0 0 drainDemo).1.g_grains x).active)).length =
      drainDemo.g_activeGrainCount ∧
    (renderAllGrains flatLuts 0 0 drainDemo).2 =
      (activeList drainDemo).foldl (mixGrain flatLuts drainDemo) (0, 0)) :=
  ⟨rfl, by decide, by decide, by decide, by decide,
    render_pass_once_per_grain flatLuts 0 0 drainDemo rfl (by decide) (by decide)⟩

/-! ## Read position and write pointer in the sample pipeline -/

end GranularFx
